import Mathlib

/-!
Verification of the two-level BVH ray-tracing acceleration structure
(`bvh.cpp`): Möller–Trumbore triangle intersection, slab-test AABB
intersection, SAH binned BLAS construction, refitting, stack-based
traversal, TLAS agglomerative construction and traversal, and the
quicksort-based fast-build sort phase.

Floating-point values are modelled as exact rationals (`ℚ`); machine
arrays are modelled as total functions `Nat → α` updated pointwise;
loops are folds over `List.range`; recursion uses explicit fuel with
`Option` results (`none` = fuel exhausted).
-/

set_option maxHeartbeats 1000000

/-- 3-component vector of the host math library (`float3`), modelled over ℚ. -/
structure float3 where
  x : ℚ
  y : ℚ
  z : ℚ
deriving DecidableEq, Repr

namespace float3

def add (a b : float3) : float3 := ⟨a.x + b.x, a.y + b.y, a.z + b.z⟩

def sub (a b : float3) : float3 := ⟨a.x - b.x, a.y - b.y, a.z - b.z⟩

def smul (a : float3) (s : ℚ) : float3 := ⟨a.x * s, a.y * s, a.z * s⟩

instance : Add float3 := ⟨add⟩

instance : Sub float3 := ⟨sub⟩

/-- Componentwise minimum (`fminf` applied per component). -/
def fminf (a b : float3) : float3 := ⟨min a.x b.x, min a.y b.y, min a.z b.z⟩

/-- Componentwise maximum (`fmaxf` applied per component). -/
def fmaxf (a b : float3) : float3 := ⟨max a.x b.x, max a.y b.y, max a.z b.z⟩

def dot (a b : float3) : ℚ := a.x * b.x + a.y * b.y + a.z * b.z

def cross (a b : float3) : float3 :=
  ⟨a.y * b.z - a.z * b.y, a.z * b.x - a.x * b.z, a.x * b.y - a.y * b.x⟩

/-- Component access `v[a]` for axis `a` (0 = x, 1 = y, 2 = z). -/
def nth (a : float3) (i : Nat) : ℚ :=
  if i = 0 then a.x else if i = 1 then a.y else a.z

/-- Componentwise reciprocal, as in `rD = float3(1/D.x, 1/D.y, 1/D.z)`. -/
def recip (a : float3) : float3 := ⟨1 / a.x, 1 / a.y, 1 / a.z⟩

/-- `float3(s)` broadcast constructor. -/
def splat (s : ℚ) : float3 := ⟨s, s, s⟩

end float3

/-- A triangle: three vertices and the cached centroid (`Tri` in `bvh.h`,
whose declaration is not in the sources; fields reconstructed from the
uses in `bvh.cpp`). -/
structure Tri where
  vertex0 : float3
  vertex1 : float3
  vertex2 : float3
  centroid : float3
deriving DecidableEq, Repr

/-- The mutable hit record carried by a ray: `{ t, u, v, instPrim }`. -/
structure Hit where
  t : ℚ
  u : ℚ
  v : ℚ
  instPrim : Nat
deriving DecidableEq, Repr

/-- A ray: origin `O`, direction `D`, reciprocal direction `rD`, hit record. -/
structure Ray where
  O : float3
  D : float3
  rD : float3
  hit : Hit
deriving DecidableEq, Repr

/-- The sentinel value `1e30f` used as +infinity. -/
def BIG : ℚ := 1e30

/-- `IntersectTri` (bvh.cpp lines 16–36): Möller–Trumbore ray/triangle
intersection; returns the updated ray (C++ mutates `ray` in place). -/
def IntersectTri (ray : Ray) (tri : Tri) (instPrim : Nat) : Ray :=
  let edge1 := tri.vertex1 - tri.vertex0
  let edge2 := tri.vertex2 - tri.vertex0
  let h := float3.cross ray.D edge2
  let a := float3.dot edge1 h
  if |a| < 0.00001 then ray
  else
    let f := 1 / a
    let s := ray.O - tri.vertex0
    let u := f * float3.dot s h
    if u < 0 ∨ u > 1 then ray
    else
      let q := float3.cross s edge1
      let v := f * float3.dot ray.D q
      if v < 0 ∨ u + v > 1 then ray
      else
        let t := f * float3.dot edge2 q
        if t > 0.0001 ∧ t < ray.hit.t then
          { ray with hit := ⟨t, u, v, instPrim⟩ }
        else ray

/-- `IntersectAABB` (bvh.cpp lines 38–48): slab test; returns `tmin` on a
hit and the sentinel `1e30` on a miss. -/
def IntersectAABB (ray : Ray) (bmin bmax : float3) : ℚ :=
  let tx1 := (bmin.x - ray.O.x) * ray.rD.x
  let tx2 := (bmax.x - ray.O.x) * ray.rD.x
  let tmin := min tx1 tx2
  let tmax := max tx1 tx2
  let ty1 := (bmin.y - ray.O.y) * ray.rD.y
  let ty2 := (bmax.y - ray.O.y) * ray.rD.y
  let tmin := max tmin (min ty1 ty2)
  let tmax := min tmax (max ty1 ty2)
  let tz1 := (bmin.z - ray.O.z) * ray.rD.z
  let tz2 := (bmax.z - ray.O.z) * ray.rD.z
  let tmin := max tmin (min tz1 tz2)
  let tmax := min tmax (max tz1 tz2)
  if tmax ≥ tmin ∧ tmin < ray.hit.t ∧ tmax > 0 then tmin else BIG

/-- Axis-aligned bounding box (`aabb`).
Modelled from the spec: the `aabb` class lives in the missing template
header; the spec gives the empty state `min = +1e30, max = -1e30`, the
`grow` operations, and the half-area formula used for SAH scoring. -/
structure aabb where
  bmin : float3
  bmax : float3
deriving DecidableEq, Repr

namespace aabb

/-- Modelled from the spec: the default-constructed empty box. -/
def empty : aabb := ⟨float3.splat BIG, float3.splat (-BIG)⟩

/-- Modelled from the spec: `grow(point)`. -/
def growP (b : aabb) (p : float3) : aabb :=
  ⟨float3.fminf b.bmin p, float3.fmaxf b.bmax p⟩

/-- Modelled from the spec: `grow(aabb)` merges another box. -/
def growB (b c : aabb) : aabb :=
  ⟨float3.fminf b.bmin c.bmin, float3.fmaxf b.bmax c.bmax⟩

/-- Modelled from the spec: half-surface-area `e.x e.y + e.y e.z + e.z e.x`,
the score used consistently for SAH ranking. -/
def area (b : aabb) : ℚ :=
  let e := b.bmax - b.bmin
  e.x * e.y + e.y * e.z + e.z * e.x

end aabb

/-- A BVH node (`BVHNode` in the missing `bvh.h`): bounds plus the packed
`leftFirst`/`triCount` pair. -/
structure BVHNode where
  aabbMin : float3
  aabbMax : float3
  leftFirst : Nat
  triCount : Nat
deriving DecidableEq, Repr

instance : Inhabited BVHNode := ⟨⟨⟨0, 0, 0⟩, ⟨0, 0, 0⟩, 0, 0⟩⟩

namespace BVHNode

/-- Modelled from the spec: a node is a leaf iff `triCount > 0`
(`BVHNode::isLeaf` is declared in the missing `bvh.h`). -/
def isLeaf (n : BVHNode) : Bool := 0 < n.triCount

/-- Modelled from the spec: `CalculateNodeCost` returns
`triCount * nodeHalfArea` (declared in the missing `bvh.h`). -/
def CalculateNodeCost (n : BVHNode) : ℚ :=
  let e := n.aabbMax - n.aabbMin
  (e.x * e.y + e.y * e.z + e.z * e.x) * n.triCount

end BVHNode

/-- The triangle mesh as the BLAS sees it: a triangle array and its count. -/
structure Mesh where
  tri : Nat → Tri
  triCount : Nat

/-- The BLAS state owned by class `BVH`: the mesh reference, the node pool,
the triangle index array and the `nodesUsed` watermark.  Pools are modelled
as total functions; slots that were never written hold `default`/`0`. -/
structure BVH where
  mesh : Mesh
  bvhNode : Nat → BVHNode
  triIdx : Nat → Nat
  nodesUsed : Nat

namespace BVH

/-- Pointwise node-pool write. -/
def setNode (st : BVH) (i : Nat) (n : BVHNode) : BVH :=
  { st with bvhNode := Function.update st.bvhNode i n }

/-- The state right after the `BVH::BVH` constructor (bvh.cpp 99–105)
allocated the pools, before `Build` runs (the C++ memory is uninitialized;
the model fills it with defaults). -/
def mk0 (m : Mesh) : BVH :=
  { mesh := m, bvhNode := fun _ => default, triIdx := fun _ => 0, nodesUsed := 0 }

/-- One step of the bounds fold of `BVH::UpdateNodeBounds`: grow the
running (min, max) pair by the three vertices of one triangle. -/
def growTri (mm : float3 × float3) (leafTri : Tri) : float3 × float3 :=
  ( float3.fminf (float3.fminf (float3.fminf mm.1 leafTri.vertex0)
      leafTri.vertex1) leafTri.vertex2,
    float3.fmaxf (float3.fmaxf (float3.fmaxf mm.2 leafTri.vertex0)
      leafTri.vertex1) leafTri.vertex2 )

/-- The (min, max) pair computed by the loop of `BVH::UpdateNodeBounds`
over the triangles referenced by `triIdx[first..first+count)`. -/
def boundsOf (tri : Nat → Tri) (tIdx : Nat → Nat) (first count : Nat) :
    float3 × float3 :=
  (List.range count).foldl
    (fun mm i => growTri mm (tri (tIdx (first + i))))
    (float3.splat BIG, float3.splat (-BIG))

/-- `BVH::UpdateNodeBounds` (bvh.cpp 186–202): refit a node's AABB to the
vertices of the triangles it references. -/
def UpdateNodeBounds (st : BVH) (nodeIdx : Nat) : BVH :=
  let node := st.bvhNode nodeIdx
  let mm := boundsOf st.mesh.tri st.triIdx node.leftFirst node.triCount
  st.setNode nodeIdx { node with aabbMin := mm.1, aabbMax := mm.2 }

/-- Number of SAH bins (`BINS`, 8 in the reference). -/
def BINS : Nat := 8

/-- Bin index of a centroid coordinate: `min(BINS-1, (int)((c-bmin)*scale))`;
the cast truncates, and the operand is non-negative, so it is a floor. -/
def binIndex (c boundsMin scale : ℚ) : Nat :=
  min (BINS - 1) (Int.toNat ⌊(c - boundsMin) * scale⌋)

/-- The bins filled by `FindBestSplitPlane`: a growing AABB plus a count. -/
structure Bin where
  bounds : aabb
  triCount : Nat

/-- The merged box and summed count of bins `0..i` (the values the C++
prefix loop accumulates incrementally into `leftArea`/`leftCount`). -/
def binsPrefix (bin : Nat → Bin) (i : Nat) : aabb × Nat :=
  (List.range (i + 1)).foldl
    (fun acc k => (acc.1.growB (bin k).bounds, acc.2 + (bin k).triCount))
    (aabb.empty, 0)

/-- The merged box and summed count of bins `i+1..BINS-1` (the values the
C++ loop accumulates right-to-left into `rightArea`/`rightCount`). -/
def binsSuffix (bin : Nat → Bin) (i : Nat) : aabb × Nat :=
  (List.range (BINS - 1 - i)).foldl
    (fun acc k => (acc.1.growB (bin (BINS - 1 - k)).bounds,
                   acc.2 + (bin (BINS - 1 - k)).triCount))
    (aabb.empty, 0)

/-- The per-axis centroid bounds `(boundsMin, boundsMax)` accumulated at
the start of each axis iteration of `FindBestSplitPlane` (bvh.cpp 208–215). -/
def centroidBounds (st : BVH) (node : BVHNode) (a : Nat) : ℚ × ℚ :=
  (List.range node.triCount).foldl
    (fun (b : ℚ × ℚ) i =>
      let triangle := st.mesh.tri (st.triIdx (node.leftFirst + i))
      (min b.1 (triangle.centroid.nth a), max b.2 (triangle.centroid.nth a)))
    (BIG, -BIG)

/-- The bin-filling loop of `FindBestSplitPlane` (bvh.cpp 217–228). -/
def fillBins (st : BVH) (node : BVHNode) (a : Nat) (boundsMin scale : ℚ) :
    Nat → Bin :=
  (List.range node.triCount).foldl
    (fun f i =>
      let triangle := st.mesh.tri (st.triIdx (node.leftFirst + i))
      let b := binIndex (triangle.centroid.nth a) boundsMin scale
      Function.update f b
        ⟨(((f b).bounds.growP triangle.vertex0).growP
            triangle.vertex1).growP triangle.vertex2,
         (f b).triCount + 1⟩)
    (fun _ => ⟨aabb.empty, 0⟩)

/-- The plane sweep of `FindBestSplitPlane` (bvh.cpp 230–252): try the
`BINS-1` candidate planes of one axis, keeping the cheapest seen so far. -/
def planeSweep (bin : Nat → Bin) (a : Nat) (boundsMin scale2 : ℚ)
    (best : ℚ × Nat × ℚ) : ℚ × Nat × ℚ :=
  (List.range (BINS - 1)).foldl
    (fun best i =>
      let planeCost :=
        ((binsPrefix bin i).2 : ℚ) * (binsPrefix bin i).1.area +
        ((binsSuffix bin i).2 : ℚ) * (binsSuffix bin i).1.area
      if planeCost < best.1 then
        (planeCost, a, boundsMin + scale2 * ((i : ℚ) + 1))
      else best)
    best

/-- One axis iteration of `FindBestSplitPlane` (bvh.cpp 206–253). -/
def FBSPaxis (st : BVH) (node : BVHNode) (best : ℚ × Nat × ℚ) (a : Nat) :
    ℚ × Nat × ℚ :=
  let bounds := centroidBounds st node a
  if bounds.1 = bounds.2 then best
  else
    planeSweep
      (fillBins st node a bounds.1 ((BINS : ℚ) / (bounds.2 - bounds.1)))
      a bounds.1 ((bounds.2 - bounds.1) / (BINS : ℚ)) best

/-- `BVH::FindBestSplitPlane` (bvh.cpp 204–255): returns
`(bestCost, axis, splitPos)`.  The C++ writes `axis`/`splitPos` through
uninitialized references; the model starts them at `0`. -/
def FindBestSplitPlane (st : BVH) (node : BVHNode) : ℚ × Nat × ℚ :=
  (List.range 3).foldl (st.FBSPaxis node) (BIG, 0, 0)

/-- Swap of two slots of a `Nat`-indexed array. -/
def swapF (f : Nat → Nat) (a b : Nat) : Nat → Nat :=
  fun k => if k = a then f b else if k = b then f a else f k

/-- The in-place partition sweep of `BVH::Subdivide` (bvh.cpp 268–276):
two-pointer walk, returning the updated index array and the final `i`. -/
def partitionLoop (mesh : Mesh) (axis : Nat) (splitPos : ℚ)
    (tIdx : Nat → Nat) (i j : Int) : (Nat → Nat) × Int :=
  if h : i ≤ j then
    if (mesh.tri (tIdx i.toNat)).centroid.nth axis < splitPos then
      partitionLoop mesh axis splitPos tIdx (i + 1) j
    else
      partitionLoop mesh axis splitPos (swapF tIdx i.toNat j.toNat) i (j - 1)
  else (tIdx, i)
termination_by (j + 1 - i).toNat
decreasing_by
  · omega
  · omega

/-- The child-creation block of `BVH::Subdivide` (bvh.cpp 280–290): allocate
two consecutive child slots, populate their ranges, convert the parent to an
interior node and fit both children's bounds.  `node` is the parent's
pre-partition value, `i` the partition pointer, `leftCount` the left size. -/
def splitChildren (st : BVH) (nodeIdx : Nat) (node : BVHNode) (i : Int)
    (leftCount : Nat) : BVH :=
  let leftChildIdx := st.nodesUsed
  let rightChildIdx := leftChildIdx + 1
  let st2 : BVH := { st with nodesUsed := st.nodesUsed + 2 }
  let st3 := st2.setNode leftChildIdx
    { st2.bvhNode leftChildIdx with
      leftFirst := node.leftFirst, triCount := leftCount }
  let st4 := st3.setNode rightChildIdx
    { st3.bvhNode rightChildIdx with
      leftFirst := i.toNat, triCount := node.triCount - leftCount }
  let st5 := st4.setNode nodeIdx
    { node with leftFirst := leftChildIdx, triCount := 0 }
  let st6 := st5.UpdateNodeBounds leftChildIdx
  st6.UpdateNodeBounds rightChildIdx

/-- `BVH::Subdivide` (bvh.cpp 257–294), with explicit fuel for the
recursion (`none` = fuel exhausted; never happens when
`fuel > node.triCount`, see the termination theorem). -/
def subdivideF (st : BVH) (nodeIdx : Nat) : Nat → Option BVH
  | 0 => none
  | fuel + 1 =>
    let node := st.bvhNode nodeIdx
    let best := st.FindBestSplitPlane node
    let splitCost := best.1
    let axis := best.2.1
    let splitPos := best.2.2
    let nosplitCost := node.CalculateNodeCost
    if splitCost ≥ nosplitCost then some st
    else
      let first : Int := (node.leftFirst : Int)
      let pr := partitionLoop st.mesh axis splitPos st.triIdx
        first (first + (node.triCount : Int) - 1)
      let st1 : BVH := { st with triIdx := pr.1 }
      let leftCount := (pr.2 - first).toNat
      if leftCount = 0 ∨ leftCount = node.triCount then some st1
      else
        let st7 := splitChildren st1 nodeIdx node pr.2 leftCount
        (st7.subdivideF st1.nodesUsed fuel).bind
          (fun st8 => st8.subdivideF (st1.nodesUsed + 1) fuel)

/-- The setup phase of `BVH::Build` (bvh.cpp 168–179): reset `nodesUsed`,
fill the identity permutation, recompute centroids (note the `* 0.3333f`),
set up the root and fit its bounds. -/
def buildSetup (st0 : BVH) : BVH :=
  let st1 : BVH := { st0 with nodesUsed := 2 }
  let st2 : BVH := { st1 with
    triIdx := (List.range st1.mesh.triCount).foldl
      (fun f i => Function.update f i i) st1.triIdx }
  let st3 : BVH := { st2 with mesh := { st2.mesh with
    tri := (List.range st2.mesh.triCount).foldl
      (fun f i => Function.update f i
        { f i with centroid :=
            ((f i).vertex0 + (f i).vertex1 + (f i).vertex2).smul 0.3333 })
      st2.mesh.tri } }
  let st4 := st3.setNode 0
    { st3.bvhNode 0 with leftFirst := 0, triCount := st3.mesh.triCount }
  st4.UpdateNodeBounds 0

/-- `BVH::Build` (bvh.cpp 166–184) from an already-constructed state:
the setup phase followed by `Subdivide(0)`. -/
def buildS (st0 : BVH) : Option BVH :=
  (buildSetup st0).subdivideF 0 ((buildSetup st0).mesh.triCount + 1)

/-- `BVH::BVH` constructor followed by `Build`. -/
def build (m : Mesh) : Option BVH := (mk0 m).buildS

/-- One iteration of the `BVH::Refit` loop body (bvh.cpp 148–162) at
node index `i`, skipping the reserved slot 1. -/
def refitStep (st : BVH) (i : Nat) : BVH :=
  if i = 1 then st
  else
    let node := st.bvhNode i
    if node.isLeaf then st.UpdateNodeBounds i
    else
      let leftChild := st.bvhNode node.leftFirst
      let rightChild := st.bvhNode (node.leftFirst + 1)
      st.setNode i { node with
        aabbMin := float3.fminf leftChild.aabbMin rightChild.aabbMin,
        aabbMax := float3.fmaxf leftChild.aabbMax rightChild.aabbMax }

/-- `BVH::Refit` (bvh.cpp 145–164): walk the node pool in reverse index
order, skipping slot 1. -/
def Refit (st : BVH) : BVH :=
  ((List.range st.nodesUsed).reverse).foldl refitStep st

/-- A state of the `BVH::Intersect` traversal loop: the ray, the current
node index and the explicit stack (node indices; the C++ stores pointers). -/
structure TravState where
  ray : Ray
  cur : Nat
  stack : List Nat
deriving DecidableEq

/-- One iteration of the `BVH::Intersect` `while(1)` loop (bvh.cpp
111–142): either the loop terminates (`inl` with the final ray) or it
continues in a new state. -/
def intersectStep (st : BVH) (instanceIdx : Nat) (s : TravState) : Ray ⊕ TravState :=
  let node := st.bvhNode s.cur
  if node.isLeaf then
    let ray2 := (List.range node.triCount).foldl
      (fun r i =>
        let instPrim := instanceIdx * 2 ^ 20 + st.triIdx (node.leftFirst + i)
        IntersectTri r (st.mesh.tri (instPrim % 2 ^ 20)) instPrim)
      s.ray
    match s.stack with
    | [] => Sum.inl ray2
    | q :: rest => Sum.inr ⟨ray2, q, rest⟩
  else
    let c1 := node.leftFirst
    let c2 := node.leftFirst + 1
    let d1 := IntersectAABB s.ray (st.bvhNode c1).aabbMin (st.bvhNode c1).aabbMax
    let d2 := IntersectAABB s.ray (st.bvhNode c2).aabbMin (st.bvhNode c2).aabbMax
    let dist1 := if d1 > d2 then d2 else d1
    let dist2 := if d1 > d2 then d1 else d2
    let child1 := if d1 > d2 then c2 else c1
    let child2 := if d1 > d2 then c1 else c2
    if dist1 = BIG then
      match s.stack with
      | [] => Sum.inl s.ray
      | q :: rest => Sum.inr ⟨s.ray, q, rest⟩
    else
      Sum.inr ⟨s.ray, child1, if dist2 ≠ BIG then child2 :: s.stack else s.stack⟩

/-- The `BVH::Intersect` loop with explicit fuel. -/
def intersectLoop (st : BVH) (instanceIdx : Nat) : Nat → TravState → Option Ray
  | 0, _ => none
  | fuel + 1, s =>
    match st.intersectStep instanceIdx s with
    | Sum.inl r => some r
    | Sum.inr s2 => st.intersectLoop instanceIdx fuel s2

/-- `BVH::Intersect` (bvh.cpp 107–143), starting at the root. -/
def Intersect (st : BVH) (ray : Ray) (instanceIdx : Nat) (fuel : Nat) : Option Ray :=
  st.intersectLoop instanceIdx fuel ⟨ray, 0, []⟩

end BVH

/-- 4×4 affine transform of the host math library (`mat4`), modelled by
its upper 3×4 part (the last row of an affine matrix is `0 0 0 1`).
Modelled from the spec: the matrix class is an external collaborator. -/
structure mat4 where
  m00 : ℚ
  m01 : ℚ
  m02 : ℚ
  m03 : ℚ
  m10 : ℚ
  m11 : ℚ
  m12 : ℚ
  m13 : ℚ
  m20 : ℚ
  m21 : ℚ
  m22 : ℚ
  m23 : ℚ
deriving DecidableEq, Repr

/-- Modelled from the spec: apply an affine matrix to a point. -/
def TransformPosition (p : float3) (m : mat4) : float3 :=
  ⟨m.m00 * p.x + m.m01 * p.y + m.m02 * p.z + m.m03,
   m.m10 * p.x + m.m11 * p.y + m.m12 * p.z + m.m13,
   m.m20 * p.x + m.m21 * p.y + m.m22 * p.z + m.m23⟩

/-- Modelled from the spec: apply an affine matrix to a vector (no
translation part). -/
def TransformVector (v : float3) (m : mat4) : float3 :=
  ⟨m.m00 * v.x + m.m01 * v.y + m.m02 * v.z,
   m.m10 * v.x + m.m11 * v.y + m.m12 * v.z,
   m.m20 * v.x + m.m21 * v.y + m.m22 * v.z⟩

/-- The identity transform. -/
def mat4.identity : mat4 := ⟨1, 0, 0, 0, 0, 1, 0, 0, 0, 0, 1, 0⟩

/-- A BVH instance: a BLAS reference, the transform and its inverse, the
world-space bounds and the instance index (fields from the missing
`bvh.h`, reconstructed from their uses). -/
structure BVHInstance where
  bvh : BVH
  transform : mat4
  invTransform : mat4
  bounds : aabb
  idx : Nat

/-- `BVHInstance::SetTransform` (bvh.cpp 298–309).  Matrix inversion is
performed by the external math library; the model receives the inverse
`Tinv` as an argument (theorems assume it actually inverts `T`). -/
def BVHInstance.SetTransform (inst : BVHInstance) (T Tinv : mat4) : BVHInstance :=
  let bmin := (inst.bvh.bvhNode 0).aabbMin
  let bmax := (inst.bvh.bvhNode 0).aabbMax
  let bounds := (List.range 8).foldl
    (fun (b : aabb) i =>
      b.growP (TransformPosition
        ⟨if i % 2 = 1 then bmax.x else bmin.x,
         if i / 2 % 2 = 1 then bmax.y else bmin.y,
         if i / 4 % 2 = 1 then bmax.z else bmin.z⟩ T))
    aabb.empty
  { inst with transform := T, invTransform := Tinv, bounds := bounds }

/-- `BVHInstance::Intersect` (bvh.cpp 311–323): transform the ray into
instance space, traverse the BLAS, and copy the hit back onto the
untransformed ray. -/
def BVHInstance.Intersect (inst : BVHInstance) (ray : Ray) (fuel : Nat) : Option Ray :=
  let rayO := TransformPosition ray.O inst.invTransform
  let rayD := TransformVector ray.D inst.invTransform
  let rayT : Ray := { ray with O := rayO, D := rayD, rD := float3.recip rayD }
  (inst.bvh.Intersect rayT inst.idx fuel).map (fun r => { ray with hit := r.hit })

/-- A TLAS node (`TLASNode` in the missing `bvh.h`): bounds, the packed
16/16-bit `leftRight` child pair, and the `BLAS` instance index. -/
structure TLASNode where
  aabbMin : float3
  aabbMax : float3
  leftRight : Nat
  BLAS : Nat
deriving DecidableEq, Repr

instance : Inhabited TLASNode := ⟨⟨⟨0, 0, 0⟩, ⟨0, 0, 0⟩, 0, 0⟩⟩

/-- Modelled from the spec: a TLAS node is a leaf iff `leftRight == 0`. -/
def TLASNode.isLeaf (n : TLASNode) : Bool := n.leftRight = 0

/-- The TLAS state: instance list reference, node pool, the working
`nodeIdx` array and the watermark. -/
structure TLAS where
  blas : Nat → BVHInstance
  blasCount : Nat
  tlasNode : Nat → TLASNode
  nodeIdx : Nat → Nat
  nodesUsed : Nat

namespace TLAS

/-- Pointwise TLAS node-pool write. -/
def setTlasNode (tl : TLAS) (i : Nat) (n : TLASNode) : TLAS :=
  { tl with tlasNode := Function.update tl.tlasNode i n }

/-- The state after the `TLAS::TLAS` constructor (bvh.cpp 327–336). -/
def mk0 (blas : Nat → BVHInstance) (count : Nat) : TLAS :=
  { blas := blas, blasCount := count, tlasNode := fun _ => default,
    nodeIdx := fun _ => 0, nodesUsed := 2 }

/-- `TLAS::FindBestMatch` (bvh.cpp 338–352): the active cluster `B ≠ A`
minimising the half-area of the merged AABB; `-1` when none exists. -/
def FindBestMatch (tl : TLAS) (N A : Nat) : Int :=
  ((List.range N).foldl
    (fun (acc : ℚ × Int) B =>
      if B ≠ A then
        let bmax := float3.fmaxf (tl.tlasNode (tl.nodeIdx A)).aabbMax
          (tl.tlasNode (tl.nodeIdx B)).aabbMax
        let bmin := float3.fminf (tl.tlasNode (tl.nodeIdx A)).aabbMin
          (tl.tlasNode (tl.nodeIdx B)).aabbMin
        let e := bmax - bmin
        let surfaceArea := e.x * e.y + e.y * e.z + e.z * e.x
        if surfaceArea < acc.1 then (surfaceArea, (B : Int)) else acc
      else acc)
    (BIG, -1)).2

/-- The agglomerative-clustering loop of `TLAS::Build` (bvh.cpp 370–389)
with explicit fuel; returns the final state and the active slot `A`
whose cluster becomes the root.  (The debug `pairs.txt` output is
ignored.) -/
def buildLoop : Nat → TLAS → Nat → Int → Nat → Option (TLAS × Nat)
  | 0, _, _, _, _ => none
  | fuel + 1, tl, A, B, nodeIndices =>
    if 1 < nodeIndices then
      let C := tl.FindBestMatch nodeIndices B.toNat
      if (A : Int) = C then
        let nodeIdxA := tl.nodeIdx A
        let nodeIdxB := tl.nodeIdx B.toNat
        let nodeA := tl.tlasNode nodeIdxA
        let nodeB := tl.tlasNode nodeIdxB
        let tl1 := tl.setTlasNode tl.nodesUsed
          { tl.tlasNode tl.nodesUsed with
            aabbMin := float3.fminf nodeA.aabbMin nodeB.aabbMin,
            aabbMax := float3.fmaxf nodeA.aabbMax nodeB.aabbMax,
            leftRight := nodeIdxA + nodeIdxB * 2 ^ 16 }
        let tl2 : TLAS := { tl1 with
          nodeIdx := Function.update tl1.nodeIdx A tl1.nodesUsed,
          nodesUsed := tl1.nodesUsed + 1 }
        let tl3 : TLAS := { tl2 with
          nodeIdx := Function.update tl2.nodeIdx B.toNat
            (tl2.nodeIdx (nodeIndices - 1)) }
        let nodeIndices2 := nodeIndices - 1
        buildLoop fuel tl3 A (tl3.FindBestMatch nodeIndices2 A) nodeIndices2
      else buildLoop fuel tl B.toNat C nodeIndices
    else some (tl, A)

/-- `TLAS::Build` (bvh.cpp 354–393): place one leaf per instance at slots
`1..N`, run the nearest-neighbour-chain clustering, and copy the last
remaining cluster into slot 0 as the root. -/
def Build (tl0 : TLAS) (fuel : Nat) : Option TLAS :=
  let init : TLAS := { tl0 with nodesUsed := 1 }
  let tlL := (List.range tl0.blasCount).foldl
    (fun (tl : TLAS) i =>
      let tl1 : TLAS := { tl with
        nodeIdx := Function.update tl.nodeIdx i tl.nodesUsed }
      let tl2 := tl1.setTlasNode tl1.nodesUsed
        { tl1.tlasNode tl1.nodesUsed with
          aabbMin := (tl1.blas i).bounds.bmin,
          aabbMax := (tl1.blas i).bounds.bmax,
          BLAS := i, leftRight := 0 }
      { tl2 with nodesUsed := tl2.nodesUsed + 1 })
    init
  (buildLoop fuel tlL 0 (tlL.FindBestMatch tlL.blasCount 0) tlL.blasCount).map
    (fun p => p.1.setTlasNode 0 (p.1.tlasNode (p.1.nodeIdx p.2)))

/-- A state of the `TLAS::Intersect` loop. -/
structure TravState where
  ray : Ray
  cur : Nat
  stack : List Nat
deriving DecidableEq

/-- One iteration of the `TLAS::Intersect` `while(1)` loop (bvh.cpp
570–597).  `bfuel` is the fuel handed to the BLAS traversal inside a
leaf; `none` means that inner traversal ran out of fuel. -/
def intersectStep (tl : TLAS) (bfuel : Nat) (s : TravState) :
    Option (Ray ⊕ TravState) :=
  let node := tl.tlasNode s.cur
  if node.isLeaf then
    match ((tl.blas node.BLAS).Intersect s.ray bfuel) with
    | none => none
    | some ray2 =>
      match s.stack with
      | [] => some (Sum.inl ray2)
      | q :: rest => some (Sum.inr ⟨ray2, q, rest⟩)
  else
    let c1 := node.leftRight % 2 ^ 16
    let c2 := node.leftRight / 2 ^ 16
    let d1 := IntersectAABB s.ray (tl.tlasNode c1).aabbMin (tl.tlasNode c1).aabbMax
    let d2 := IntersectAABB s.ray (tl.tlasNode c2).aabbMin (tl.tlasNode c2).aabbMax
    let dist1 := if d1 > d2 then d2 else d1
    let dist2 := if d1 > d2 then d1 else d2
    let child1 := if d1 > d2 then c2 else c1
    let child2 := if d1 > d2 then c1 else c2
    if dist1 = BIG then
      match s.stack with
      | [] => some (Sum.inl s.ray)
      | q :: rest => some (Sum.inr ⟨s.ray, q, rest⟩)
    else
      some (Sum.inr ⟨s.ray, child1,
        if dist2 ≠ BIG then child2 :: s.stack else s.stack⟩)

/-- The `TLAS::Intersect` loop with explicit fuel. -/
def intersectLoop (tl : TLAS) (bfuel : Nat) : Nat → TravState → Option Ray
  | 0, _ => none
  | fuel + 1, s =>
    match tl.intersectStep bfuel s with
    | none => none
    | some (Sum.inl r) => some r
    | some (Sum.inr s2) => tl.intersectLoop bfuel fuel s2

/-- `TLAS::Intersect` (bvh.cpp 562–598): set the reciprocal direction and
traverse from the root. -/
def Intersect (tl : TLAS) (ray : Ray) (fuel bfuel : Nat) : Option Ray :=
  let ray1 := { ray with rD := float3.recip ray.D }
  tl.intersectLoop bfuel fuel ⟨ray1, 0, []⟩

end TLAS

/-- The sort records of the fast TLAS build (`struct SortItem`,
bvh.cpp 395). -/
structure SortItem where
  pos : ℚ
  blasIdx : Nat
deriving DecidableEq, Repr

/-- `Swap` (bvh.cpp 400) on the modelled item array. -/
def swapSI (f : Nat → SortItem) (a b : Nat) : Nat → SortItem :=
  fun k => if k = a then f b else if k = b then f a else f k

/-- `Pivot` (bvh.cpp 401–408): Lomuto-style partition around `a[first]`;
returns the updated array and the pivot position. -/
def Pivot (a : Nat → SortItem) (first last : Int) : (Nat → SortItem) × Int :=
  let e := a first.toNat
  let r := (List.range (last - first).toNat).foldl
    (fun (acc : (Nat → SortItem) × Int) k =>
      let i := first + 1 + (k : Int)
      if (acc.1 i.toNat).pos ≤ e.pos then
        let p := acc.2 + 1
        (swapSI acc.1 i.toNat p.toNat, p)
      else acc)
    (a, first)
  (swapSI r.1 r.2.toNat first.toNat, r.2)

/-- `QuickSort` (bvh.cpp 409–415) with explicit fuel (fuel `≥` range
length always suffices). -/
def QuickSortF : Nat → (Nat → SortItem) → Int → Int → (Nat → SortItem)
  | 0, a, _, _ => a
  | fuel + 1, a, first, last =>
    if first ≥ last then a
    else
      let pr := Pivot a first last
      let a2 := QuickSortF fuel pr.1 first (pr.2 - 1)
      QuickSortF fuel a2 (pr.2 + 1) last

/-- The sort phase of `TLAS::SortAndSplit` (bvh.cpp 419–429): initialise
`blasIdx` at level 0, recompute each item's sort key — note the source
computes `(bmin[axis] + bmin[axis]) * 0.5f`, i.e. `bmin[axis]`, not the
world-AABB midpoint — then quicksort the range `[first, last]`.
(The chunk/kD-tree phase below it uses the missing `KDTree` class and is
out of scope for the sortedness claim.) -/
def TLAS.sortPhase (tl : TLAS) (item0 : Nat → SortItem)
    (first last level : Nat) : Nat → SortItem :=
  let axis := level % 3
  let item1 := if level = 0 then
      (List.range tl.blasCount).foldl
        (fun f i => Function.update f i { f i with blasIdx := i }) item0
    else item0
  let item2 := (List.range (last + 1 - first)).foldl
    (fun f k =>
      let i := first + k
      let idx := (f i).blasIdx
      Function.update f i { f i with
        pos := ((tl.blas idx).bounds.bmin.nth axis +
                (tl.blas idx).bounds.bmin.nth axis) * 0.5 })
    item1
  QuickSortF (last + 1 - first) item2 (first : Int) (last : Int)

/-- The world-AABB midpoint of an instance along an axis — the sort key
the spec prescribes for the fast TLAS build (spec §4.8 step 1). -/
def worldMidpoint (inst : BVHInstance) (axis : Nat) : ℚ :=
  (inst.bounds.bmin.nth axis + inst.bounds.bmax.nth axis) / 2

/-! Derived definitions used by the verification: slices, Möller–Trumbore
candidate values, local fit predicates, tree-shape predicates, brute-force
reference scans, and the concrete inputs used by witnesses and
counterexamples. -/

/-- The list of values `f first, …, f (first+count-1)`. -/
def sliceL (f : Nat → Nat) (first count : Nat) : List Nat :=
  (List.range count).map (fun k => f (first + k))

/-- Componentwise order on `float3`. -/
def le3 (a b : float3) : Prop := a.x ≤ b.x ∧ a.y ≤ b.y ∧ a.z ≤ b.z

instance (a b : float3) : Decidable (le3 a b) := by unfold le3; infer_instance

namespace MT

/-- The Möller–Trumbore determinant `a = edge1 · (D × edge2)`. -/
def mtA (D : float3) (tri : Tri) : ℚ :=
  float3.dot (tri.vertex1 - tri.vertex0)
    (float3.cross D (tri.vertex2 - tri.vertex0))

/-- The Möller–Trumbore barycentric `u = f (s·h)`. -/
def mtU (O D : float3) (tri : Tri) : ℚ :=
  (1 / mtA D tri) * float3.dot (O - tri.vertex0)
    (float3.cross D (tri.vertex2 - tri.vertex0))

/-- The Möller–Trumbore barycentric `v = f (D·q)`. -/
def mtV (O D : float3) (tri : Tri) : ℚ :=
  (1 / mtA D tri) * float3.dot D
    (float3.cross (O - tri.vertex0) (tri.vertex1 - tri.vertex0))

/-- The Möller–Trumbore distance `t = f (edge2·q)`. -/
def mtT (O D : float3) (tri : Tri) : ℚ :=
  (1 / mtA D tri) * float3.dot (tri.vertex2 - tri.vertex0)
    (float3.cross (O - tri.vertex0) (tri.vertex1 - tri.vertex0))

end MT

/-- The geometric part of `IntersectTri`, independent of the ray's current
hit record: `some (t, u, v)` when the determinant, barycentric and
near-plane tests pass, `none` otherwise. -/
def candidate (O D : float3) (tri : Tri) : Option (ℚ × ℚ × ℚ) :=
  if |MT.mtA D tri| < 0.00001 then none
  else
    let u := MT.mtU O D tri
    if u < 0 ∨ u > 1 then none
    else
      let v := MT.mtV O D tri
      if v < 0 ∨ u + v > 1 then none
      else
        let t := MT.mtT O D tri
        if t > 0.0001 then some (t, u, v) else none

namespace BVH

/-- Local shape of one pool slot after a build: a leaf's AABB is the fold
of its referenced triangles, an interior node's AABB is the componentwise
merge of its two children (which sit at larger indices, inside the pool). -/
def NodeFit (st : BVH) (j : Nat) : Prop :=
  (0 < (st.bvhNode j).triCount →
    ((st.bvhNode j).aabbMin, (st.bvhNode j).aabbMax) =
      boundsOf st.mesh.tri st.triIdx (st.bvhNode j).leftFirst
        (st.bvhNode j).triCount) ∧
  ((st.bvhNode j).triCount = 0 →
    j < (st.bvhNode j).leftFirst ∧
    (st.bvhNode j).leftFirst + 1 < st.nodesUsed ∧
    (st.bvhNode j).aabbMin =
      float3.fminf (st.bvhNode (st.bvhNode j).leftFirst).aabbMin
        (st.bvhNode ((st.bvhNode j).leftFirst + 1)).aabbMin ∧
    (st.bvhNode j).aabbMax =
      float3.fmaxf (st.bvhNode (st.bvhNode j).leftFirst).aabbMax
        (st.bvhNode ((st.bvhNode j).leftFirst + 1)).aabbMax)

/-- Shape of a built subtree rooted at node `n` covering the `triIdx`
positions `[first, first+count)`: all its nodes lie in `S`, leaves are
fitted to their slice, interior AABBs merge their children's, and `size`
counts the subtree's nodes. -/
inductive FittedIn (st : BVH) (S : Set Nat) : Nat → Nat → Nat → Nat → Prop
  | leaf (n first count : Nat) :
      n ∈ S → 0 < count →
      (st.bvhNode n).leftFirst = first →
      (st.bvhNode n).triCount = count →
      ((st.bvhNode n).aabbMin, (st.bvhNode n).aabbMax) =
        boundsOf st.mesh.tri st.triIdx first count →
      FittedIn st S n first count 1
  | interior (n first count lc sL sR : Nat) :
      n ∈ S →
      (st.bvhNode n).triCount = 0 →
      n < (st.bvhNode n).leftFirst →
      0 < lc → lc < count →
      FittedIn st S ((st.bvhNode n).leftFirst) first lc sL →
      FittedIn st S ((st.bvhNode n).leftFirst + 1) (first + lc) (count - lc) sR →
      (st.bvhNode n).aabbMin =
        float3.fminf (st.bvhNode (st.bvhNode n).leftFirst).aabbMin
          (st.bvhNode ((st.bvhNode n).leftFirst + 1)).aabbMin →
      (st.bvhNode n).aabbMax =
        float3.fmaxf (st.bvhNode (st.bvhNode n).leftFirst).aabbMax
          (st.bvhNode ((st.bvhNode n).leftFirst + 1)).aabbMax →
      FittedIn st S n first count (1 + sL + sR)

/-- `BVH::Intersect` terminates on this input with some amount of fuel. -/
def IntersectTerminates (st : BVH) (instanceIdx : Nat) (ray : Ray) : Prop :=
  ∃ fuel r, st.Intersect ray instanceIdx fuel = some r

end BVH

/-- Brute-force reference scan over one mesh: call `IntersectTri` on every
triangle in index order, with the same `instPrim` packing the traversal
uses.  (Reference definition from the claim, for the refinement
comparison.) -/
def bruteForceMesh (m : Mesh) (inst : Nat) (r : Ray) : Ray :=
  (List.range m.triCount).foldl
    (fun ray i => IntersectTri ray (m.tri i) (inst * 2 ^ 20 + i)) r

/-- Brute-force scan of one instance: transform the ray into instance
space exactly as `BVHInstance::Intersect` does, scan all triangles, and
copy the hit back.  (Reference definition from the claim.) -/
def bruteForceInstance (inst : BVHInstance) (ray : Ray) : Ray :=
  let rayO := TransformPosition ray.O inst.invTransform
  let rayD := TransformVector ray.D inst.invTransform
  let rayT : Ray := { ray with O := rayO, D := rayD, rD := float3.recip rayD }
  { ray with hit := (bruteForceMesh inst.bvh.mesh inst.idx rayT).hit }

/-- Brute-force reference scan over the whole scene: every triangle of
every instance, in index order.  (Reference definition from the claim.) -/
def bruteForceTLAS (tl : TLAS) (ray : Ray) : Ray :=
  (List.range tl.blasCount).foldl
    (fun r i => bruteForceInstance (tl.blas i) r) ray

/-- The world-space bounds `BVHInstance::SetTransform` computes: the AABB
of the 8 transformed corners of the BLAS root AABB. -/
def worldBoundsOf (b : BVH) (T : mat4) : aabb :=
  let bmin := (b.bvhNode 0).aabbMin
  let bmax := (b.bvhNode 0).aabbMax
  (List.range 8).foldl
    (fun (bx : aabb) i =>
      bx.growP (TransformPosition
        ⟨if i % 2 = 1 then bmax.x else bmin.x,
         if i / 2 % 2 = 1 then bmax.y else bmin.y,
         if i / 4 % 2 = 1 then bmax.z else bmin.z⟩ T))
    aabb.empty

/-- Shape of a built TLAS subtree rooted at node `n`: all nodes in `S`,
each leaf carries a valid instance whose world bounds are its AABB,
interior AABBs merge their children's; `insts` lists the instances of the
subtree's leaves and `size` counts its nodes. -/
inductive FittedT (tl : TLAS) (S : Set Nat) : Nat → List Nat → Nat → Prop
  | leaf (n : Nat) :
      n ∈ S → (tl.tlasNode n).leftRight = 0 →
      (tl.tlasNode n).BLAS < tl.blasCount →
      (tl.tlasNode n).aabbMin = (tl.blas (tl.tlasNode n).BLAS).bounds.bmin →
      (tl.tlasNode n).aabbMax = (tl.blas (tl.tlasNode n).BLAS).bounds.bmax →
      FittedT tl S n [(tl.tlasNode n).BLAS] 1
  | interior (n : Nat) (I1 I2 : List Nat) (s1 s2 : Nat) :
      n ∈ S → (tl.tlasNode n).leftRight ≠ 0 →
      FittedT tl S ((tl.tlasNode n).leftRight % 2 ^ 16) I1 s1 →
      FittedT tl S ((tl.tlasNode n).leftRight / 2 ^ 16) I2 s2 →
      (tl.tlasNode n).aabbMin =
        float3.fminf (tl.tlasNode ((tl.tlasNode n).leftRight % 2 ^ 16)).aabbMin
          (tl.tlasNode ((tl.tlasNode n).leftRight / 2 ^ 16)).aabbMin →
      (tl.tlasNode n).aabbMax =
        float3.fmaxf (tl.tlasNode ((tl.tlasNode n).leftRight % 2 ^ 16)).aabbMax
          (tl.tlasNode ((tl.tlasNode n).leftRight / 2 ^ 16)).aabbMax →
      FittedT tl S n (I1 ++ I2) (1 + s1 + s2)

/-! Concrete inputs for witnesses and counterexamples. -/

/-- Build a triangle with a zeroed centroid cache. -/
def mkTri (a b c : float3) : Tri := ⟨a, b, c, ⟨0, 0, 0⟩⟩

/-- The fully degenerate triangle at the origin. -/
def triZero : Tri := mkTri ⟨0, 0, 0⟩ ⟨0, 0, 0⟩ ⟨0, 0, 0⟩

/-- The unit triangle of spec scenario 1. -/
def triUnit : Tri := mkTri ⟨0, 0, 0⟩ ⟨1, 0, 0⟩ ⟨0, 1, 0⟩

/-- A one-triangle mesh (spec scenario 1). -/
def mesh1 : Mesh := ⟨fun _ => triUnit, 1⟩

/-- The empty mesh. -/
def mesh0 : Mesh := ⟨fun _ => triZero, 0⟩

/-- A mesh of `2^20 + 1` identical degenerate triangles. -/
def bigMesh : Mesh := ⟨fun _ => triZero, 2 ^ 20 + 1⟩

/-- A one-triangle mesh whose vertex sum is `(3,3,3)`. -/
def meshOnes : Mesh := ⟨fun _ => mkTri ⟨1, 1, 1⟩ ⟨1, 1, 1⟩ ⟨1, 1, 1⟩, 1⟩

/-- The spec scenario 1 ray `O=(0.25,0.25,-1)`, `D=(0,0,1)`. -/
def ray1 : Ray :=
  { O := ⟨1/4, 1/4, -1⟩, D := ⟨0, 0, 1⟩, rD := float3.recip ⟨0, 0, 1⟩,
    hit := ⟨BIG, 0, 0, 0⟩ }

/-- A ray from `(2,2,2)` along `(1,1,1)`. -/
def rayC : Ray :=
  { O := ⟨2, 2, 2⟩, D := ⟨1, 1, 1⟩, rD := float3.recip ⟨1, 1, 1⟩,
    hit := ⟨BIG, 0, 0, 0⟩ }

/-- The BVH state built over the empty mesh. -/
def stEmpty : BVH := (BVH.build mesh0).getD (BVH.mk0 mesh0)

/-- A dummy built BVH used by instances whose geometry is irrelevant. -/
def dummyBVH : BVH := BVH.mk0 mesh0

/-- Instance with world bounds `[0,10]×[0,1]×[0,1]` (midpoint 5 on x). -/
def instA : BVHInstance :=
  ⟨dummyBVH, mat4.identity, mat4.identity, ⟨⟨0, 0, 0⟩, ⟨10, 1, 1⟩⟩, 0⟩

/-- Instance with world bounds `[2,4]×[0,1]×[0,1]` (midpoint 3 on x). -/
def instB : BVHInstance :=
  ⟨dummyBVH, mat4.identity, mat4.identity, ⟨⟨2, 0, 0⟩, ⟨4, 1, 1⟩⟩, 1⟩

/-- A two-instance TLAS whose instances sort differently by `bmin` and by
world-AABB midpoint along axis 0. -/
def tlSort : TLAS := TLAS.mk0 (fun i => if i = 0 then instA else instB) 2

/-- The item array after the sort phase of `SortAndSplit` on `tlSort`
(range `[0,1]`, level 0). -/
def sortedItems : Nat → SortItem := tlSort.sortPhase (fun _ => ⟨0, 0⟩) 0 1 0

/-- The BVH built over `mesh1` (defaulting to the raw state, which cannot
happen since builds always succeed). -/
def stM1 : BVH := (BVH.build mesh1).getD (BVH.mk0 mesh1)

/-- The BVH built over `meshOnes`. -/
def stOnes : BVH := (BVH.build meshOnes).getD (BVH.mk0 meshOnes)

/-- The BVH built over `bigMesh` (2^20 + 1 triangles). -/
def stBig : BVH := (BVH.build bigMesh).getD (BVH.mk0 bigMesh)

/-- Fold `IntersectTri` over a list of triangle indices with the
`instPrim = instanceIdx * 2^20 + prim` packing — the common shape of the
brute-force scan and of one leaf visit (claim-side definition). -/
def scanItems (m : Mesh) (inst : Nat) (r : Ray) (l : List Nat) : Ray :=
  l.foldl (fun ray i => IntersectTri ray (m.tri i) (inst * 2 ^ 20 + i)) r

/-- The running minimum of `hit.t` over the accepted Möller–Trumbore
candidates of a list of triangle indices (claim-side characterization). -/
def bestT (m : Mesh) (O D : float3) (t0 : ℚ) (l : List Nat) : ℚ :=
  l.foldl (fun cur j =>
    match candidate O D (m.tri j) with
    | some c => if c.1 < cur then c.1 else cur
    | none => cur) t0

/-- A hit record is either the starting one or the full Möller–Trumbore
record of some triangle of the mesh under the `instPrim` packing. -/
def HitFrom (m : Mesh) (inst : Nat) (O D : float3) (h0 h : Hit) : Prop :=
  h = h0 ∨ (h.t < h0.t ∧ ∃ j, j < m.triCount ∧
    candidate O D (m.tri j) = some (h.t, h.u, h.v) ∧
    h.instPrim = inst * 2 ^ 20 + j)

/-- The node stack of a BLAS traversal paired with fitted subtrees;
`items` collects the triangle indices still to be scanned, in stack
order. -/
inductive StackFits (st : BVH) (S : Set Nat) : List Nat → List Nat → Nat → Prop
  | nil : StackFits st S [] [] 0
  | cons (n first count size tsize : Nat) (ns items : List Nat) :
      BVH.FittedIn st S n first count size →
      first + count ≤ st.mesh.triCount →
      StackFits st S ns items tsize →
      StackFits st S (n :: ns) (sliceL st.triIdx first count ++ items)
        (size + tsize)

/-- A well-formed ray through the unit triangle with no zero direction
component: `O=(1/4,1/4,-1)`, `D=(1/8,1/8,1)`. -/
def rayW : Ray :=
  { O := ⟨1/4, 1/4, -1⟩, D := ⟨1/8, 1/8, 1⟩,
    rD := float3.recip ⟨1/8, 1/8, 1⟩, hit := ⟨BIG, 0, 0, 0⟩ }

/-! The exact-tie scene: two single-triangle instances whose triangles are
both hit at exactly `t = 1` (all coordinates dyadic, so the arithmetic is
also exact in IEEE floats), while the slanted instance's world box is
strictly nearer to the ray origin, so the traversal visits it first while
the brute-force scan goes in instance order. -/

/-- A large triangle in the plane `z = 1`, hit by `tieRay` at `t = 1`. -/
def triFlat : Tri := mkTri ⟨0, 0, 1⟩ ⟨4, 0, 1⟩ ⟨0, 4, 1⟩

/-- A slanted triangle also hit by `tieRay` at exactly `t = 1`, whose
bounding box reaches down to `z = 1/2`. -/
def triSlant : Tri := mkTri ⟨0, 0, 1⟩ ⟨2, 0, 1/2⟩ ⟨0, 2, 3/2⟩

/-- One-triangle mesh around `triFlat`. -/
def meshFlat : Mesh := ⟨fun _ => triFlat, 1⟩

/-- One-triangle mesh around `triSlant`. -/
def meshSlant : Mesh := ⟨fun _ => triSlant, 1⟩

/-- The BLAS over `meshFlat` (the build is proven to produce exactly
this state). -/
def stFlat : BVH := BVH.buildSetup (BVH.mk0 meshFlat)

/-- The BLAS over `meshSlant`. -/
def stSlant : BVH := BVH.buildSetup (BVH.mk0 meshSlant)

/-- Instance 0: `stFlat` under the identity transform, with the world
bounds `BVHInstance::SetTransform` computes. -/
def instFlat : BVHInstance :=
  BVHInstance.SetTransform
    ⟨stFlat, mat4.identity, mat4.identity, ⟨⟨0, 0, 0⟩, ⟨0, 0, 0⟩⟩, 0⟩
    mat4.identity mat4.identity

/-- Instance 1: `stSlant` under the identity transform. -/
def instSlant : BVHInstance :=
  BVHInstance.SetTransform
    ⟨stSlant, mat4.identity, mat4.identity, ⟨⟨0, 0, 0⟩, ⟨0, 0, 0⟩⟩, 1⟩
    mat4.identity mat4.identity

/-- The instance array of the tie scene. -/
def tieBlas : Nat → BVHInstance := fun i => if i = 0 then instFlat else instSlant

/-- The tie-scene TLAS before `TLAS::Build`. -/
def tlTie0 : TLAS := TLAS.mk0 tieBlas 2

/-- The ray `O=(0,0,0)`, `D=(1/8,1/8,1)` hitting both tie triangles at
`t = 1` exactly. -/
def tieRay : Ray :=
  { O := ⟨0, 0, 0⟩, D := ⟨1/8, 1/8, 1⟩, rD := ⟨0, 0, 0⟩,
    hit := ⟨BIG, 0, 0, 0⟩ }

/-- `tieRay` after `TLAS::Intersect` fills in the reciprocal direction. -/
def tieRay1 : Ray := { tieRay with rD := float3.recip tieRay.D }

/-- The TLAS leaf node `TLAS::Build` creates for `instFlat`. -/
def nodeF : TLASNode := ⟨⟨0, 0, 1⟩, ⟨4, 4, 1⟩, 0, 0⟩

/-- The TLAS leaf node for `instSlant`. -/
def nodeS : TLASNode := ⟨⟨0, 0, 1/2⟩, ⟨2, 2, 3/2⟩, 0, 1⟩

/-- The merged root node: `leftRight = 1 + 2*2^16 = 131073`. -/
def nodeR : TLASNode := ⟨⟨0, 0, 1/2⟩, ⟨4, 4, 3/2⟩, 131073, 0⟩

/-- The tie-scene TLAS state right after the leaf-placement loop of
`TLAS::Build`. -/
def tlLX : TLAS :=
  { blas := tieBlas, blasCount := 2,
    tlasNode := fun i => if i = 1 then nodeF else if i = 2 then nodeS else default,
    nodeIdx := fun i => if i = 0 then 1 else if i = 1 then 2 else 0,
    nodesUsed := 3 }

/-- The tie-scene TLAS exactly as `TLAS::Build` produces it. -/
def tlTieX : TLAS :=
  { blas := tieBlas, blasCount := 2,
    tlasNode := fun i => if i = 0 then nodeR else if i = 1 then nodeF
      else if i = 2 then nodeS else if i = 3 then nodeR else default,
    nodeIdx := fun i => if i = 0 then 3 else if i = 1 then 2 else 0,
    nodesUsed := 4 }

/-- The instance-space ray origin `BVHInstance::Intersect` computes. -/
def objO (inst : BVHInstance) (O : float3) : float3 :=
  TransformPosition O inst.invTransform

/-- The instance-space ray direction `BVHInstance::Intersect` computes. -/
def objD (inst : BVHInstance) (D : float3) : float3 :=
  TransformVector D inst.invTransform

/-- The Möller–Trumbore candidate of scene pair `(instance, triangle)`,
evaluated on the instance-space ray (same `t` parameter as world space,
since the direction is transformed without renormalisation). -/
def candidateI (tl : TLAS) (O D : float3) (p : Nat × Nat) : Option (ℚ × ℚ × ℚ) :=
  candidate (objO (tl.blas p.1) O) (objD (tl.blas p.1) D)
    ((tl.blas p.1).bvh.mesh.tri p.2)

/-- All scene pairs of one instance. -/
def pairsOf (tl : TLAS) (i : Nat) : List (Nat × Nat) :=
  (List.range (tl.blas i).bvh.mesh.triCount).map (fun j => (i, j))

/-- All scene pairs of a list of instances, in order. -/
def pairsOfL (tl : TLAS) : List Nat → List (Nat × Nat)
  | [] => []
  | i :: r => pairsOf tl i ++ pairsOfL tl r

/-- Running minimum of `hit.t` over the accepted candidates of a list of
scene pairs (scene-level analogue of `bestT`). -/
def bestTI (tl : TLAS) (O D : float3) (t0 : ℚ) (l : List (Nat × Nat)) : ℚ :=
  l.foldl (fun cur p =>
    match candidateI tl O D p with
    | some c => if c.1 < cur then c.1 else cur
    | none => cur) t0

/-- A hit record is the starting one or the full record of some scene pair
under the `instPrim` packing (scene-level analogue of `HitFrom`). -/
def HitFromI (tl : TLAS) (O D : float3) (h0 h : Hit) : Prop :=
  h = h0 ∨ (h.t < h0.t ∧ ∃ i j, i < tl.blasCount ∧
    j < (tl.blas i).bvh.mesh.triCount ∧
    candidateI tl O D (i, j) = some (h.t, h.u, h.v) ∧
    h.instPrim = (tl.blas i).idx * 2 ^ 20 + j)

/-- Well-formedness of one instance for a world ray direction `D`: the BLAS
was built over a non-empty mesh of at most `2^20` triangles, the
instance-space direction has no zero component, the stored `invTransform`
actually inverts `transform`, and the cached world bounds are the ones
`SetTransform` computes. -/
def InstOK (inst : BVHInstance) (D : float3) : Prop :=
  (∃ m, BVH.build m = some inst.bvh ∧ 1 ≤ m.triCount ∧ m.triCount ≤ 2 ^ 20) ∧
  (objD inst D).x ≠ 0 ∧ (objD inst D).y ≠ 0 ∧ (objD inst D).z ≠ 0 ∧
  (∀ p : float3,
    TransformPosition (TransformPosition p inst.invTransform) inst.transform = p) ∧
  (∀ v : float3,
    TransformVector (TransformVector v inst.invTransform) inst.transform = v) ∧
  inst.bounds = worldBoundsOf inst.bvh inst.transform

/-- The node stack of a TLAS traversal paired with fitted subtrees; `items`
collects the scene pairs still to be scanned, in stack order. -/
inductive StackFitsT (tl : TLAS) (S : Set Nat) :
    List Nat → List (Nat × Nat) → Nat → Prop
  | nil : StackFitsT tl S [] [] 0
  | cons (n size tsize : Nat) (insts ns : List Nat) (items : List (Nat × Nat)) :
      FittedT tl S n insts size →
      StackFitsT tl S ns items tsize →
      StackFitsT tl S (n :: ns) (pairsOfL tl insts ++ items) (size + tsize)

/-- The traversal result on the tie scene: the slanted instance is found
first, so its record (with `instPrim = 1 * 2 ^ 20`) survives the exact tie. -/
def tieRay2 : Ray := { tieRay1 with hit := ⟨1, 1/16, 1/16, 2 ^ 20⟩ }

/-- The brute-force result on the tie scene: instance 0 is scanned first, so
its record (with `instPrim = 0`) survives the exact tie. -/
def tieRayB : Ray := { tieRay with hit := ⟨1, 1/32, 1/32, 0⟩ }

/-- `tieRayB` with the reciprocal direction filled in (the object-space ray
the brute-force scan of instance 1 works on). -/
def tieRay1B : Ray := { tieRay1 with hit := ⟨1, 1/32, 1/32, 0⟩ }

/-! ## Generic fold, update and permutation lemmas -/

theorem foldl_update_index {α : Type} (h : Nat → α) (f0 : Nat → α) (n : Nat) :
    ∀ i, ((List.range n).foldl (fun f k => Function.update f k (h k)) f0) i
      = if i < n then h i else f0 i := by
  induction n with
  | zero => intro i; simp
  | succ m ih =>
    intro i
    rw [List.range_succ, List.foldl_append]
    simp only [List.foldl_cons, List.foldl_nil]
    by_cases heq : i = m
    · rw [heq, Function.update_same]
      simp
    · rw [Function.update_noteq heq, ih]
      by_cases hlt : i < m
      · simp [hlt, Nat.lt_succ_of_lt hlt]
      · simp [hlt, show ¬ i < m + 1 by omega]

theorem foldl_update_map {α : Type} (G : α → α) (f0 : Nat → α) (n : Nat) :
    ∀ i, ((List.range n).foldl (fun f k => Function.update f k (G (f k))) f0) i
      = if i < n then G (f0 i) else f0 i := by
  induction n with
  | zero => intro i; simp
  | succ m ih =>
    intro i
    rw [List.range_succ, List.foldl_append]
    simp only [List.foldl_cons, List.foldl_nil]
    by_cases heq : i = m
    · rw [heq, Function.update_same, ih]
      simp [show ¬ m < m by omega]
    · rw [Function.update_noteq heq, ih]
      by_cases hlt : i < m
      · simp [hlt, Nat.lt_succ_of_lt hlt]
      · simp [hlt, show ¬ i < m + 1 by omega]

theorem map_perm_of_fixed (σ : Equiv.Perm Nat) (l : List Nat) (hnd : l.Nodup)
    (hfix : ∀ k, σ k ≠ k → k ∈ l) : List.Perm (l.map σ) l := by
  have closure : ∀ z, z ∈ l → σ z ∈ l := by
    intro z hz
    by_cases h : σ z = z
    · rwa [h]
    · by_contra hn
      have h2 : σ (σ z) = σ z := by
        by_contra hs
        exact hn (hfix _ hs)
      exact h (σ.injective h2)
  have closure2 : ∀ z, z ∈ l → σ.symm z ∈ l := by
    intro z hz
    by_cases h : σ.symm z = z
    · rwa [h]
    · by_contra hn
      have h2 : σ (σ.symm z) = σ.symm z := by
        by_contra hs
        exact hn (hfix _ hs)
      rw [Equiv.apply_symm_apply] at h2
      exact h h2.symm
  rw [List.perm_iff_count]
  intro y
  have key : List.count y (l.map σ) = List.count (σ.symm y) l := by
    have h1 := List.count_map_of_injective l (⇑σ) σ.injective (σ.symm y)
    rwa [Equiv.apply_symm_apply] at h1
  rw [key]
  by_cases hy : y ∈ l
  · have h2 : σ.symm y ∈ l := closure2 y hy
    rw [List.count_eq_one_of_mem hnd h2, List.count_eq_one_of_mem hnd hy]
  · have h2 : σ.symm y ∉ l := by
      intro hc
      have h3 := closure _ hc
      rw [Equiv.apply_symm_apply] at h3
      exact hy h3
    rw [List.count_eq_zero_of_not_mem h2, List.count_eq_zero_of_not_mem hy]

theorem sliceL_eq_map (f : Nat → Nat) (first count : Nat) :
    sliceL f first count = ((List.range count).map (fun k => first + k)).map f := by
  unfold sliceL
  rw [List.map_map]
  rfl

theorem sliceL_comp_perm (f : Nat → Nat) (σ : Equiv.Perm Nat) (first count : Nat)
    (hfix : ∀ k, σ k ≠ k → first ≤ k ∧ k < first + count) :
    List.Perm (sliceL (fun k => f (σ k)) first count) (sliceL f first count) := by
  have hpos : sliceL (fun k => f (σ k)) first count
      = (((List.range count).map (fun k => first + k)).map σ).map f := by
    unfold sliceL
    rw [List.map_map, List.map_map]
    rfl
  rw [hpos, sliceL_eq_map]
  apply List.Perm.map
  apply map_perm_of_fixed
  · exact List.Nodup.map (fun a b h => by omega) (List.nodup_range count)
  · intro k hk
    rcases hfix k hk with ⟨h1, h2⟩
    simp only [List.mem_map, List.mem_range]
    exact ⟨k - first, by omega, by omega⟩

theorem sliceL_congr (f g : Nat → Nat) (first count : Nat)
    (h : ∀ k, first ≤ k → k < first + count → f k = g k) :
    sliceL f first count = sliceL g first count := by
  unfold sliceL
  apply List.map_congr_left
  intro k hk
  rw [List.mem_range] at hk
  exact h (first + k) (by omega) (by omega)

theorem sliceL_mem (f : Nat → Nat) (first count v : Nat) :
    v ∈ sliceL f first count ↔ ∃ p, first ≤ p ∧ p < first + count ∧ f p = v := by
  unfold sliceL
  simp only [List.mem_map, List.mem_range]
  constructor
  · rintro ⟨k, hk, rfl⟩
    exact ⟨first + k, by omega, by omega, rfl⟩
  · rintro ⟨p, h1, h2, rfl⟩
    exact ⟨p - first, by omega, by rw [Nat.add_sub_cancel' h1]⟩

theorem sliceL_append (f : Nat → Nat) (first lc count : Nat) (h : lc ≤ count) :
    sliceL f first count = sliceL f first lc ++ sliceL f (first + lc) (count - lc) := by
  unfold sliceL
  conv_lhs => rw [show count = lc + (count - lc) by omega]
  rw [List.range_add, List.map_append, List.map_map]
  congr 1
  apply List.map_congr_left
  intro k _
  simp only [Function.comp_apply]
  congr 1
  omega

/-! ## Componentwise min/max and bounds-fold lemmas -/

theorem float3.add_def (a b : float3) :
    a + b = ⟨a.x + b.x, a.y + b.y, a.z + b.z⟩ := rfl

theorem float3.sub_def (a b : float3) :
    a - b = ⟨a.x - b.x, a.y - b.y, a.z - b.z⟩ := rfl

theorem float3.smul_def (a : float3) (s : ℚ) :
    a.smul s = ⟨a.x * s, a.y * s, a.z * s⟩ := rfl

theorem le3_refl (a : float3) : le3 a a := ⟨le_refl _, le_refl _, le_refl _⟩

theorem le3_trans {a b c : float3} (h1 : le3 a b) (h2 : le3 b c) : le3 a c :=
  ⟨le_trans h1.1 h2.1, le_trans h1.2.1 h2.2.1, le_trans h1.2.2 h2.2.2⟩

theorem fminf_le_left (a b : float3) : le3 (float3.fminf a b) a :=
  ⟨min_le_left _ _, min_le_left _ _, min_le_left _ _⟩

theorem fminf_le_right (a b : float3) : le3 (float3.fminf a b) b :=
  ⟨min_le_right _ _, min_le_right _ _, min_le_right _ _⟩

theorem le_fmaxf_left (a b : float3) : le3 a (float3.fmaxf a b) :=
  ⟨le_max_left _ _, le_max_left _ _, le_max_left _ _⟩

theorem le_fmaxf_right (a b : float3) : le3 b (float3.fmaxf a b) :=
  ⟨le_max_right _ _, le_max_right _ _, le_max_right _ _⟩

theorem growTri_rcomm (mm : float3 × float3) (a b : Tri) :
    BVH.growTri (BVH.growTri mm a) b = BVH.growTri (BVH.growTri mm b) a := by
  unfold BVH.growTri
  simp only [float3.fminf, float3.fmaxf]
  refine Prod.ext ?_ ?_ <;>
    · show float3.mk _ _ _ = float3.mk _ _ _
      simp only [float3.mk.injEq]
      refine ⟨?_, ?_, ?_⟩ <;> ac_rfl

theorem growTri_exchange (mm : float3 × float3) (b : float3 × float3) (t : Tri) :
    BVH.growTri (float3.fminf mm.1 b.1, float3.fmaxf mm.2 b.2) t =
      (float3.fminf mm.1 (BVH.growTri b t).1, float3.fmaxf mm.2 (BVH.growTri b t).2) := by
  unfold BVH.growTri
  simp only [float3.fminf, float3.fmaxf]
  refine Prod.ext ?_ ?_ <;>
    · show float3.mk _ _ _ = float3.mk _ _ _
      simp only [float3.mk.injEq]
      refine ⟨?_, ?_, ?_⟩ <;> ac_rfl

theorem foldl_growTri_merge (tri : Nat → Tri) (l : List Nat)
    (A1 A2 : float3) :
    ∀ B1 B2, l.foldl (fun mm v => BVH.growTri mm (tri v))
        (float3.fminf A1 B1, float3.fmaxf A2 B2) =
      (float3.fminf A1 (l.foldl (fun mm v => BVH.growTri mm (tri v)) (B1, B2)).1,
       float3.fmaxf A2 (l.foldl (fun mm v => BVH.growTri mm (tri v)) (B1, B2)).2) := by
  induction l with
  | nil => intro B1 B2; rfl
  | cons t l ih =>
    intro B1 B2
    simp only [List.foldl_cons]
    rw [growTri_exchange (A1, A2) (B1, B2) (tri t)]
    exact ih (BVH.growTri (B1, B2) (tri t)).1 (BVH.growTri (B1, B2) (tri t)).2

theorem foldl_growTri_le (tri : Nat → Tri) (l : List Nat) :
    ∀ mm : float3 × float3,
      le3 (l.foldl (fun mm v => BVH.growTri mm (tri v)) mm).1 mm.1 ∧
      le3 mm.2 (l.foldl (fun mm v => BVH.growTri mm (tri v)) mm).2 := by
  induction l with
  | nil => intro mm; exact ⟨le3_refl _, le3_refl _⟩
  | cons t l ih =>
    intro mm
    simp only [List.foldl_cons]
    refine ⟨le3_trans (ih _).1 ?_, le3_trans ?_ (ih _).2⟩
    · exact le3_trans (fminf_le_left _ _) (le3_trans (fminf_le_left _ _) (fminf_le_left _ _))
    · exact le3_trans (le_fmaxf_left _ _) (le3_trans (le_fmaxf_left _ _) (le_fmaxf_left _ _))

theorem foldl_growTri_encloses (tri : Nat → Tri) (l : List Nat) :
    ∀ mm : float3 × float3, ∀ v ∈ l,
      (le3 (l.foldl (fun mm v => BVH.growTri mm (tri v)) mm).1 (tri v).vertex0 ∧
       le3 (l.foldl (fun mm v => BVH.growTri mm (tri v)) mm).1 (tri v).vertex1 ∧
       le3 (l.foldl (fun mm v => BVH.growTri mm (tri v)) mm).1 (tri v).vertex2) ∧
      (le3 (tri v).vertex0 (l.foldl (fun mm v => BVH.growTri mm (tri v)) mm).2 ∧
       le3 (tri v).vertex1 (l.foldl (fun mm v => BVH.growTri mm (tri v)) mm).2 ∧
       le3 (tri v).vertex2 (l.foldl (fun mm v => BVH.growTri mm (tri v)) mm).2) := by
  induction l with
  | nil => intro mm v hv; cases hv
  | cons t l ih =>
    intro mm v hv
    rcases List.mem_cons.mp hv with rfl | hv2
    · simp only [List.foldl_cons]
      have hle := foldl_growTri_le tri l (BVH.growTri mm (tri v))
      have hmin1 : le3 (BVH.growTri mm (tri v)).1 (tri v).vertex0 := by
        unfold BVH.growTri
        exact le3_trans (fminf_le_left _ _) (le3_trans (fminf_le_left _ _) (fminf_le_right _ _))
      have hmin2 : le3 (BVH.growTri mm (tri v)).1 (tri v).vertex1 := by
        unfold BVH.growTri
        exact le3_trans (fminf_le_left _ _) (fminf_le_right _ _)
      have hmin3 : le3 (BVH.growTri mm (tri v)).1 (tri v).vertex2 := fminf_le_right _ _
      have hmax1 : le3 (tri v).vertex0 (BVH.growTri mm (tri v)).2 := by
        unfold BVH.growTri
        exact le3_trans (le3_trans (le_fmaxf_right _ _) (le_fmaxf_left _ _)) (le_fmaxf_left _ _)
      have hmax2 : le3 (tri v).vertex1 (BVH.growTri mm (tri v)).2 := by
        unfold BVH.growTri
        exact le3_trans (le_fmaxf_right _ _) (le_fmaxf_left _ _)
      have hmax3 : le3 (tri v).vertex2 (BVH.growTri mm (tri v)).2 := le_fmaxf_right _ _
      exact ⟨⟨le3_trans (hle).1 hmin1, le3_trans (hle).1 hmin2, le3_trans (hle).1 hmin3⟩,
             ⟨le3_trans hmax1 (hle).2, le3_trans hmax2 (hle).2, le3_trans hmax3 (hle).2⟩⟩
    · simp only [List.foldl_cons]
      exact ih _ v hv2

namespace BVH

theorem boundsOf_eq_slice (tri : Nat → Tri) (tIdx : Nat → Nat) (first count : Nat) :
    boundsOf tri tIdx first count =
      (sliceL tIdx first count).foldl (fun mm v => growTri mm (tri v))
        (float3.splat BIG, float3.splat (-BIG)) := by
  unfold boundsOf sliceL
  rw [List.foldl_map]

theorem boundsOf_perm (tri : Nat → Tri) (t1 t2 : Nat → Nat)
    (f1 c1 f2 c2 : Nat)
    (hp : List.Perm (sliceL t1 f1 c1) (sliceL t2 f2 c2)) :
    boundsOf tri t1 f1 c1 = boundsOf tri t2 f2 c2 := by
  rw [boundsOf_eq_slice, boundsOf_eq_slice]
  exact hp.foldl_eq' (fun x _ y _ z => growTri_rcomm z (tri x) (tri y)) _

theorem boundsOf_congr (tri1 tri2 : Nat → Tri) (t1 t2 : Nat → Nat)
    (first count : Nat)
    (h : ∀ p, first ≤ p → p < first + count → tri1 (t1 p) = tri2 (t2 p)) :
    boundsOf tri1 t1 first count = boundsOf tri2 t2 first count := by
  unfold boundsOf
  apply List.foldl_ext
  intro a b hb
  rw [List.mem_range] at hb
  rw [h (first + b) (by omega) (by omega)]

theorem boundsOf_split (tri : Nat → Tri) (tIdx : Nat → Nat)
    (first lc count : Nat) (h : lc ≤ count) :
    boundsOf tri tIdx first count =
      (float3.fminf (boundsOf tri tIdx first lc).1
          (boundsOf tri tIdx (first + lc) (count - lc)).1,
       float3.fmaxf (boundsOf tri tIdx first lc).2
          (boundsOf tri tIdx (first + lc) (count - lc)).2) := by
  rw [boundsOf_eq_slice, boundsOf_eq_slice, boundsOf_eq_slice,
    sliceL_append tIdx first lc count h, List.foldl_append]
  set A := (sliceL tIdx first lc).foldl (fun mm v => growTri mm (tri v))
    (float3.splat BIG, float3.splat (-BIG)) with hA
  have hAfix : A = (float3.fminf A.1 (float3.splat BIG),
      float3.fmaxf A.2 (float3.splat (-BIG))) := by
    have hle := foldl_growTri_le tri (sliceL tIdx first lc)
      (float3.splat BIG, float3.splat (-BIG))
    rw [← hA] at hle
    refine Prod.ext ?_ ?_
    · show A.1 = float3.fminf A.1 (float3.splat BIG)
      rcases hle.1 with ⟨h1, h2, h3⟩
      simp only [float3.fminf]
      refine ?_
      cases hq : A.1 with
      | mk x y z =>
        rw [hq] at h1 h2 h3
        simp only [float3.mk.injEq]
        refine ⟨(min_eq_left ?_).symm, (min_eq_left ?_).symm, (min_eq_left ?_).symm⟩ <;>
          simp_all [float3.splat]
    · show A.2 = float3.fmaxf A.2 (float3.splat (-BIG))
      rcases hle.2 with ⟨h1, h2, h3⟩
      simp only [float3.fmaxf]
      cases hq : A.2 with
      | mk x y z =>
        rw [hq] at h1 h2 h3
        simp only [float3.mk.injEq]
        refine ⟨(max_eq_left ?_).symm, (max_eq_left ?_).symm, (max_eq_left ?_).symm⟩ <;>
          simp_all [float3.splat]
  conv_lhs => rw [hAfix]
  rw [foldl_growTri_merge tri (sliceL tIdx (first + lc) (count - lc)) A.1 A.2
    (float3.splat BIG) (float3.splat (-BIG))]

end BVH

/-! ## Frame lemmas for node writes and bounds updates -/

namespace BVH

theorem setNode_mesh (st : BVH) (i : Nat) (n : BVHNode) :
    (st.setNode i n).mesh = st.mesh := rfl

theorem setNode_triIdx (st : BVH) (i : Nat) (n : BVHNode) :
    (st.setNode i n).triIdx = st.triIdx := rfl

theorem setNode_nodesUsed (st : BVH) (i : Nat) (n : BVHNode) :
    (st.setNode i n).nodesUsed = st.nodesUsed := rfl

theorem setNode_same (st : BVH) (i : Nat) (n : BVHNode) :
    (st.setNode i n).bvhNode i = n := by
  unfold setNode
  exact Function.update_same i n st.bvhNode

theorem setNode_ne (st : BVH) (i : Nat) (n : BVHNode) (j : Nat) (h : j ≠ i) :
    (st.setNode i n).bvhNode j = st.bvhNode j := by
  unfold setNode
  exact Function.update_noteq h n st.bvhNode

theorem UpdateNodeBounds_mesh (st : BVH) (i : Nat) :
    (st.UpdateNodeBounds i).mesh = st.mesh := rfl

theorem UpdateNodeBounds_triIdx (st : BVH) (i : Nat) :
    (st.UpdateNodeBounds i).triIdx = st.triIdx := rfl

theorem UpdateNodeBounds_nodesUsed (st : BVH) (i : Nat) :
    (st.UpdateNodeBounds i).nodesUsed = st.nodesUsed := rfl

theorem UpdateNodeBounds_ne (st : BVH) (i j : Nat) (h : j ≠ i) :
    (st.UpdateNodeBounds i).bvhNode j = st.bvhNode j := by
  unfold UpdateNodeBounds
  exact setNode_ne _ _ _ _ h

theorem UpdateNodeBounds_same (st : BVH) (i : Nat) :
    (st.UpdateNodeBounds i).bvhNode i =
      { st.bvhNode i with
        aabbMin := (boundsOf st.mesh.tri st.triIdx (st.bvhNode i).leftFirst
          (st.bvhNode i).triCount).1,
        aabbMax := (boundsOf st.mesh.tri st.triIdx (st.bvhNode i).leftFirst
          (st.bvhNode i).triCount).2 } := by
  unfold UpdateNodeBounds
  exact setNode_same _ _ _

/-! ## Partition sweep lemmas -/

theorem swapF_eq_comp (f : Nat → Nat) (a b : Nat) :
    swapF f a b = fun k => f (Equiv.swap a b k) := by
  funext k
  unfold swapF
  rw [Equiv.swap_apply_def]
  split_ifs <;> rfl

theorem partitionLoop_spec (mesh : Mesh) (ax : Nat) (sp : ℚ) :
    ∀ (tIdx : Nat → Nat) (i j : Int), 0 ≤ i → i ≤ j + 1 →
      ∃ σ : Equiv.Perm Nat,
        (partitionLoop mesh ax sp tIdx i j).1 = (fun k => tIdx (σ k)) ∧
        (∀ k, σ k ≠ k → i ≤ (k : Int) ∧ (k : Int) ≤ j) ∧
        i ≤ (partitionLoop mesh ax sp tIdx i j).2 ∧
        (partitionLoop mesh ax sp tIdx i j).2 ≤ j + 1 := by
  intro tIdx i j
  induction tIdx, i, j using partitionLoop.induct mesh ax sp with
  | case1 tIdx i j hij hlt ih =>
    intro h0 _
    rw [partitionLoop, dif_pos hij, if_pos hlt]
    rcases ih (by omega) (by omega) with ⟨σ, hs1, hs2, hs3, hs4⟩
    exact ⟨σ, hs1, fun k hk => by have := hs2 k hk; omega, by omega, by omega⟩
  | case2 tIdx i j hij hlt ih =>
    intro h0 _
    rw [partitionLoop, dif_pos hij, if_neg hlt]
    rcases ih (by omega) (by omega) with ⟨σ, hs1, hs2, hs3, hs4⟩
    refine ⟨σ.trans (Equiv.swap i.toNat j.toNat), ?_, ?_, by omega, by omega⟩
    · rw [hs1, swapF_eq_comp]
      funext k
      simp only [Equiv.trans_apply]
    · intro k hk
      simp only [Equiv.trans_apply] at hk
      by_cases hσ : σ k = k
      · rw [hσ] at hk
        have hmem : k = i.toNat ∨ k = j.toNat := by
          by_contra hc
          push_neg at hc
          exact hk (Equiv.swap_apply_of_ne_of_ne hc.1 hc.2)
        omega
      · have := hs2 k hσ
        omega
  | case3 tIdx i j hij =>
    intro h0 h1
    rw [partitionLoop, dif_neg hij]
    exact ⟨Equiv.refl Nat, rfl, fun k hk => absurd rfl hk, by omega, by omega⟩

theorem partitionLoop_slice_perm (mesh : Mesh) (ax : Nat) (sp : ℚ)
    (tIdx : Nat → Nat) (first count : Nat) :
    List.Perm
      (sliceL (partitionLoop mesh ax sp tIdx (first : Int)
        ((first : Int) + (count : Int) - 1)).1 first count)
      (sliceL tIdx first count) := by
  rcases partitionLoop_spec mesh ax sp tIdx (first : Int)
      ((first : Int) + (count : Int) - 1) (by omega) (by omega) with
    ⟨σ, hs1, hs2, _, _⟩
  rw [hs1]
  apply sliceL_comp_perm
  intro k hk
  have := hs2 k hk
  omega

theorem partitionLoop_frame (mesh : Mesh) (ax : Nat) (sp : ℚ)
    (tIdx : Nat → Nat) (first count : Nat) (k : Nat)
    (hk : k < first ∨ first + count ≤ k) :
    (partitionLoop mesh ax sp tIdx (first : Int)
      ((first : Int) + (count : Int) - 1)).1 k = tIdx k := by
  rcases partitionLoop_spec mesh ax sp tIdx (first : Int)
      ((first : Int) + (count : Int) - 1) (by omega) (by omega) with
    ⟨σ, hs1, hs2, _, _⟩
  rw [hs1]
  show tIdx (σ k) = tIdx k
  by_cases h : σ k = k
  · rw [h]
  · have := hs2 k h
    omega

theorem partitionLoop_i_range (mesh : Mesh) (ax : Nat) (sp : ℚ)
    (tIdx : Nat → Nat) (first count : Nat) :
    (first : Int) ≤ (partitionLoop mesh ax sp tIdx (first : Int)
        ((first : Int) + (count : Int) - 1)).2 ∧
    (partitionLoop mesh ax sp tIdx (first : Int)
        ((first : Int) + (count : Int) - 1)).2 ≤ (first : Int) + (count : Int) := by
  rcases partitionLoop_spec mesh ax sp tIdx (first : Int)
      ((first : Int) + (count : Int) - 1) (by omega) (by omega) with
    ⟨σ, _, _, h3, h4⟩
  exact ⟨h3, by omega⟩

end BVH

/-! ## splitChildren computation lemmas -/

namespace BVH

theorem splitChildren_mesh (st : BVH) (n : Nat) (node : BVHNode) (i : Int)
    (lc : Nat) : (splitChildren st n node i lc).mesh = st.mesh := rfl

theorem splitChildren_triIdx (st : BVH) (n : Nat) (node : BVHNode) (i : Int)
    (lc : Nat) : (splitChildren st n node i lc).triIdx = st.triIdx := rfl

theorem splitChildren_nodesUsed (st : BVH) (n : Nat) (node : BVHNode) (i : Int)
    (lc : Nat) : (splitChildren st n node i lc).nodesUsed = st.nodesUsed + 2 := rfl

theorem splitChildren_node_other (st : BVH) (n : Nat) (node : BVHNode) (i : Int)
    (lc : Nat) (j : Nat) (h1 : j ≠ n) (h2 : j ≠ st.nodesUsed)
    (h3 : j ≠ st.nodesUsed + 1) :
    (splitChildren st n node i lc).bvhNode j = st.bvhNode j := by
  unfold splitChildren
  rw [UpdateNodeBounds_ne _ _ _ h3, UpdateNodeBounds_ne _ _ _ h2,
    setNode_ne _ _ _ _ h1, setNode_ne _ _ _ _ h3, setNode_ne _ _ _ _ h2]

theorem splitChildren_node_parent (st : BVH) (n : Nat) (node : BVHNode) (i : Int)
    (lc : Nat) (h2 : n ≠ st.nodesUsed) (h3 : n ≠ st.nodesUsed + 1) :
    (splitChildren st n node i lc).bvhNode n =
      { node with leftFirst := st.nodesUsed, triCount := 0 } := by
  unfold splitChildren
  rw [UpdateNodeBounds_ne _ _ _ h3, UpdateNodeBounds_ne _ _ _ h2, setNode_same]

theorem splitChildren_node_left (st : BVH) (n : Nat) (node : BVHNode) (i : Int)
    (lc : Nat) (h1 : n ≠ st.nodesUsed) :
    (splitChildren st n node i lc).bvhNode st.nodesUsed =
      { st.bvhNode st.nodesUsed with
        leftFirst := node.leftFirst, triCount := lc,
        aabbMin := (boundsOf st.mesh.tri st.triIdx node.leftFirst lc).1,
        aabbMax := (boundsOf st.mesh.tri st.triIdx node.leftFirst lc).2 } := by
  unfold splitChildren
  rw [UpdateNodeBounds_ne _ _ _ (by omega : st.nodesUsed ≠ st.nodesUsed + 1),
    UpdateNodeBounds_same]
  rw [setNode_ne _ _ _ _ (Ne.symm h1),
    setNode_ne _ _ _ _ (by omega : st.nodesUsed ≠ st.nodesUsed + 1),
    setNode_same]
  rfl

theorem splitChildren_node_right (st : BVH) (n : Nat) (node : BVHNode) (i : Int)
    (lc : Nat) (h1 : n ≠ st.nodesUsed + 1) :
    (splitChildren st n node i lc).bvhNode (st.nodesUsed + 1) =
      { st.bvhNode (st.nodesUsed + 1) with
        leftFirst := i.toNat, triCount := node.triCount - lc,
        aabbMin := (boundsOf st.mesh.tri st.triIdx i.toNat (node.triCount - lc)).1,
        aabbMax := (boundsOf st.mesh.tri st.triIdx i.toNat (node.triCount - lc)).2 } := by
  unfold splitChildren
  rw [UpdateNodeBounds_same]
  rw [UpdateNodeBounds_ne _ _ _ (by omega : st.nodesUsed + 1 ≠ st.nodesUsed),
    setNode_ne _ _ _ _ (Ne.symm h1),
    setNode_same]
  rfl

end BVH

/-! ## The subdivide frame/permutation invariant -/

namespace BVH

theorem subdivideF_frame :
    ∀ (fuel : Nat) (st : BVH) (n : Nat) (st' : BVH),
      n < st.nodesUsed →
      st.subdivideF n fuel = some st' →
      st'.mesh = st.mesh ∧
      st.nodesUsed ≤ st'.nodesUsed ∧
      st'.nodesUsed ≤ st.nodesUsed + 2 * ((st.bvhNode n).triCount - 1) ∧
      (∀ j, j ≠ n → (j < st.nodesUsed ∨ st'.nodesUsed ≤ j) →
        st'.bvhNode j = st.bvhNode j) ∧
      (st'.bvhNode n).aabbMin = (st.bvhNode n).aabbMin ∧
      (st'.bvhNode n).aabbMax = (st.bvhNode n).aabbMax ∧
      (∀ k, k < (st.bvhNode n).leftFirst ∨
          (st.bvhNode n).leftFirst + (st.bvhNode n).triCount ≤ k →
        st'.triIdx k = st.triIdx k) ∧
      List.Perm (sliceL st'.triIdx (st.bvhNode n).leftFirst (st.bvhNode n).triCount)
        (sliceL st.triIdx (st.bvhNode n).leftFirst (st.bvhNode n).triCount) := by
  intro fuel
  induction fuel with
  | zero => intro st n st' _ h; simp [subdivideF] at h
  | succ fuel ih =>
    intro st n st' hn h
    simp only [subdivideF] at h
    split_ifs at h with hcost hguard
    · rw [Option.some_inj] at h
      subst h
      exact ⟨rfl, le_refl _, Nat.le_add_right _ _, fun j _ _ => rfl, rfl, rfl,
        fun k _ => rfl, List.Perm.refl _⟩
    · rw [Option.some_inj] at h
      subst h
      refine ⟨rfl, le_refl _, Nat.le_add_right _ _, fun j _ _ => rfl, rfl, rfl, ?_, ?_⟩
      · intro k hk
        exact partitionLoop_frame _ _ _ _ _ _ _ hk
      · exact partitionLoop_slice_perm _ _ _ _ _ _
    · rw [Option.bind_eq_some] at h
      obtain ⟨st8, hL, hR⟩ := h
      set best := st.FindBestSplitPlane (st.bvhNode n) with hbest
      set F := (st.bvhNode n).leftFirst with hF
      set C := (st.bvhNode n).triCount with hC
      set pr := partitionLoop st.mesh best.2.1 best.2.2 st.triIdx (F : Int)
        ((F : Int) + (C : Int) - 1) with hpr
      have hrange : (F : Int) ≤ pr.2 ∧ pr.2 ≤ (F : Int) + (C : Int) := by
        rw [hpr]
        exact partitionLoop_i_range st.mesh best.2.1 best.2.2 st.triIdx F C
      set lc := (pr.2 - (F : Int)).toNat with hlc
      have hlc0 : lc ≠ 0 := fun hcc => hguard (Or.inl hcc)
      have hlcC : lc ≠ C := fun hcc => hguard (Or.inr hcc)
      have hlcle : lc ≤ C := by omega
      have hlcpos : 0 < lc := Nat.pos_of_ne_zero hlc0
      have hlclt : lc < C := lt_of_le_of_ne hlcle hlcC
      have hitn : pr.2.toNat = F + lc := by omega
      set st1 := ({ mesh := st.mesh, bvhNode := st.bvhNode, triIdx := pr.1, nodesUsed := st.nodesUsed } : BVH) with hst1
      have hst1used : st1.nodesUsed = st.nodesUsed := rfl
      set st7 := st1.splitChildren n (st.bvhNode n) pr.2 lc with hst7
      have h7mesh : st7.mesh = st.mesh := rfl
      have h7used : st7.nodesUsed = st.nodesUsed + 2 := rfl
      have h7tri : st7.triIdx = pr.1 := rfl
      have h7L0 : st1.nodesUsed = st.nodesUsed := rfl
      have h7L : st7.bvhNode st.nodesUsed =
          { st.bvhNode st.nodesUsed with
            leftFirst := F, triCount := lc,
            aabbMin := (boundsOf st.mesh.tri pr.1 F lc).1,
            aabbMax := (boundsOf st.mesh.tri pr.1 F lc).2 } := by
        rw [hst7]
        have hres := splitChildren_node_left st1 n (st.bvhNode n) pr.2 lc
          (by rw [hst1used]; omega)
        rwa [hst1used] at hres
      have h7R : st7.bvhNode (st.nodesUsed + 1) =
          { st.bvhNode (st.nodesUsed + 1) with
            leftFirst := pr.2.toNat, triCount := C - lc,
            aabbMin := (boundsOf st.mesh.tri pr.1 pr.2.toNat (C - lc)).1,
            aabbMax := (boundsOf st.mesh.tri pr.1 pr.2.toNat (C - lc)).2 } := by
        rw [hst7]
        have hres := splitChildren_node_right st1 n (st.bvhNode n) pr.2 lc
          (by rw [hst1used]; omega)
        rwa [hst1used] at hres
      have h7P : st7.bvhNode n =
          { st.bvhNode n with leftFirst := st.nodesUsed, triCount := 0 } := by
        rw [hst7]
        have hres := splitChildren_node_parent st1 n (st.bvhNode n) pr.2 lc
          (by rw [hst1used]; omega) (by rw [hst1used]; omega)
        rwa [hst1used] at hres
      have h7other : ∀ j, j ≠ n → j ≠ st.nodesUsed → j ≠ st.nodesUsed + 1 →
          st7.bvhNode j = st.bvhNode j := by
        intro j a b c
        rw [hst7]
        have hres := splitChildren_node_other st1 n (st.bvhNode n) pr.2 lc j a
          (by rw [hst1used]; exact b) (by rw [hst1used]; exact c)
        exact hres
      have ihL := ih st7 st.nodesUsed st8 (by omega) hL
      obtain ⟨L1, L2, L3, L4, L5, L6, L7, L8⟩ := ihL
      rw [h7L] at L3 L7 L8
      dsimp only at L3 L7 L8
      rw [h7used] at L2 L3 L4
      have h8R : st8.bvhNode (st.nodesUsed + 1) = st7.bvhNode (st.nodesUsed + 1) :=
        L4 (st.nodesUsed + 1) (by omega) (Or.inl (by omega))
      have ihR := ih st8 (st.nodesUsed + 1) st' (by omega) hR
      obtain ⟨R1, R2, R3, R4, R5, R6, R7, R8⟩ := ihR
      rw [h8R, h7R] at R3 R7 R8
      dsimp only at R3 R7 R8
      rw [hitn] at R7 R8
      refine ⟨?_, ?_, ?_, ?_, ?_, ?_, ?_, ?_⟩
      · rw [R1, L1, h7mesh]
      · omega
      · omega
      · intro j hjn hj
        have hj1 : st'.bvhNode j = st8.bvhNode j := by
          apply R4 j
          · omega
          · rcases hj with hj | hj
            · exact Or.inl (by omega)
            · exact Or.inr hj
        have hj2 : st8.bvhNode j = st7.bvhNode j := by
          apply L4 j
          · omega
          · rcases hj with hj | hj
            · exact Or.inl (by omega)
            · exact Or.inr (by omega)
        have hj3 : st7.bvhNode j = st.bvhNode j := by
          apply h7other j hjn <;> omega
        rw [hj1, hj2, hj3]
      · have e1 : st'.bvhNode n = st8.bvhNode n := R4 n (by omega) (Or.inl (by omega))
        have e2 : st8.bvhNode n = st7.bvhNode n := L4 n (by omega) (Or.inl (by omega))
        rw [e1, e2, h7P]
      · have e1 : st'.bvhNode n = st8.bvhNode n := R4 n (by omega) (Or.inl (by omega))
        have e2 : st8.bvhNode n = st7.bvhNode n := L4 n (by omega) (Or.inl (by omega))
        rw [e1, e2, h7P]
      · intro k hk
        have e1 : st'.triIdx k = st8.triIdx k := by
          apply R7 k
          omega
        have e2 : st8.triIdx k = st7.triIdx k := by
          apply L7 k
          omega
        have e3 : st7.triIdx k = st.triIdx k := by
          rw [h7tri, hpr]
          apply partitionLoop_frame
          exact hk
        rw [e1, e2, e3]
      · have hsplit1 : sliceL st'.triIdx F C =
            sliceL st'.triIdx F lc ++ sliceL st'.triIdx (F + lc) (C - lc) :=
          sliceL_append _ F lc C hlcle
        have hsplit2 : sliceL pr.1 F C =
            sliceL pr.1 F lc ++ sliceL pr.1 (F + lc) (C - lc) :=
          sliceL_append _ F lc C hlcle
        have hleft : sliceL st'.triIdx F lc = sliceL st8.triIdx F lc := by
          apply sliceL_congr
          intro p hp1 hp2
          apply R7 p
          omega
        have hleft2 : List.Perm (sliceL st8.triIdx F lc) (sliceL pr.1 F lc) := by
          have := L8
          rw [h7tri] at this
          exact this
        have hright : List.Perm (sliceL st'.triIdx (F + lc) (C - lc))
            (sliceL st8.triIdx (F + lc) (C - lc)) := R8
        have hright2 : sliceL st8.triIdx (F + lc) (C - lc) =
            sliceL pr.1 (F + lc) (C - lc) := by
          apply sliceL_congr
          intro p hp1 hp2
          rw [← h7tri]
          apply L7 p
          omega
        have hfin : List.Perm (sliceL st'.triIdx F C) (sliceL pr.1 F C) := by
          rw [hsplit1, hsplit2, hleft]
          exact List.Perm.append hleft2 (hright.trans (by rw [hright2]))
        refine hfin.trans ?_
        rw [hpr]
        exact partitionLoop_slice_perm st.mesh best.2.1 best.2.2 st.triIdx F C

end BVH

theorem BVH.subdivideF_terminates :
    ∀ (fuel : Nat) (st : BVH) (n : Nat),
      n < st.nodesUsed →
      (st.bvhNode n).triCount < fuel →
      (st.subdivideF n fuel).isSome := by
  intro fuel
  induction fuel with
  | zero => intro st n _ h; omega
  | succ fuel ih =>
    intro st n hn hc
    simp only [BVH.subdivideF]
    split_ifs with hcost hguard
    · rfl
    · rfl
    · set best := st.FindBestSplitPlane (st.bvhNode n) with hbest
      set F := (st.bvhNode n).leftFirst with hF
      set C := (st.bvhNode n).triCount with hC
      set pr := BVH.partitionLoop st.mesh best.2.1 best.2.2 st.triIdx (F : Int)
        ((F : Int) + (C : Int) - 1) with hpr
      have hrange : (F : Int) ≤ pr.2 ∧ pr.2 ≤ (F : Int) + (C : Int) := by
        rw [hpr]
        exact BVH.partitionLoop_i_range st.mesh best.2.1 best.2.2 st.triIdx F C
      set lc := (pr.2 - (F : Int)).toNat with hlc
      have hlc0 : lc ≠ 0 := fun hcc => hguard (Or.inl hcc)
      have hlcC : lc ≠ C := fun hcc => hguard (Or.inr hcc)
      have hlcle : lc ≤ C := by omega
      have hlclt : lc < C := lt_of_le_of_ne hlcle hlcC
      have hlcpos : 0 < lc := Nat.pos_of_ne_zero hlc0
      set st1 := ({ mesh := st.mesh, bvhNode := st.bvhNode, triIdx := pr.1, nodesUsed := st.nodesUsed } : BVH) with hst1
      have hst1used : st1.nodesUsed = st.nodesUsed := rfl
      set st7 := st1.splitChildren n (st.bvhNode n) pr.2 lc with hst7
      have h7used : st7.nodesUsed = st.nodesUsed + 2 := rfl
      have h7L : st7.bvhNode st.nodesUsed =
          { st.bvhNode st.nodesUsed with
            leftFirst := F, triCount := lc,
            aabbMin := (BVH.boundsOf st.mesh.tri pr.1 F lc).1,
            aabbMax := (BVH.boundsOf st.mesh.tri pr.1 F lc).2 } := by
        rw [hst7]
        have hres := BVH.splitChildren_node_left st1 n (st.bvhNode n) pr.2 lc
          (by rw [hst1used]; omega)
        rwa [hst1used] at hres
      have hLsome := ih st7 st.nodesUsed (by omega)
        (by rw [h7L]; dsimp only; omega)
      rw [Option.isSome_iff_exists] at hLsome
      obtain ⟨st8, hst8⟩ := hLsome
      rw [hst8, Option.some_bind]
      have hfr := BVH.subdivideF_frame fuel st7 st.nodesUsed st8 (by omega) hst8
      obtain ⟨_, hu1, _, hframe, _, _, _, _⟩ := hfr
      have h8R : st8.bvhNode (st.nodesUsed + 1) = st7.bvhNode (st.nodesUsed + 1) :=
        hframe (st.nodesUsed + 1) (by omega) (Or.inl (by omega))
      have h7R : st7.bvhNode (st.nodesUsed + 1) =
          { st.bvhNode (st.nodesUsed + 1) with
            leftFirst := pr.2.toNat, triCount := C - lc,
            aabbMin := (BVH.boundsOf st.mesh.tri pr.1 pr.2.toNat (C - lc)).1,
            aabbMax := (BVH.boundsOf st.mesh.tri pr.1 pr.2.toNat (C - lc)).2 } := by
        rw [hst7]
        have hres := BVH.splitChildren_node_right st1 n (st.bvhNode n) pr.2 lc
          (by rw [hst1used]; omega)
        rwa [hst1used] at hres
      apply ih st8 (st.nodesUsed + 1)
      · rw [h7used] at hu1
        omega
      · rw [h8R, h7R]
        dsimp only
        omega

/-! ## Build characterization -/

namespace BVH

theorem buildSetup_mesh_triCount (st0 : BVH) :
    (buildSetup st0).mesh.triCount = st0.mesh.triCount := rfl

theorem buildSetup_nodesUsed (st0 : BVH) : (buildSetup st0).nodesUsed = 2 := rfl

theorem buildSetup_tri (st0 : BVH) (i : Nat) :
    (buildSetup st0).mesh.tri i =
      if i < st0.mesh.triCount then
        { st0.mesh.tri i with centroid :=
            ((st0.mesh.tri i).vertex0 + (st0.mesh.tri i).vertex1 +
              (st0.mesh.tri i).vertex2).smul 0.3333 }
      else st0.mesh.tri i := by
  show ((List.range st0.mesh.triCount).foldl
      (fun f i => Function.update f i
        { f i with centroid :=
            ((f i).vertex0 + (f i).vertex1 + (f i).vertex2).smul 0.3333 })
      st0.mesh.tri) i = _
  exact foldl_update_map
    (fun a => { a with centroid := (a.vertex0 + a.vertex1 + a.vertex2).smul 0.3333 })
    st0.mesh.tri st0.mesh.triCount i

theorem buildSetup_triIdx (st0 : BVH) (k : Nat) :
    (buildSetup st0).triIdx k =
      if k < st0.mesh.triCount then k else st0.triIdx k := by
  show ((List.range st0.mesh.triCount).foldl
      (fun f i => Function.update f i i) st0.triIdx) k = _
  exact foldl_update_index _ st0.triIdx st0.mesh.triCount k

theorem buildSetup_root (st0 : BVH) :
    (buildSetup st0).bvhNode 0 =
      { st0.bvhNode 0 with
        leftFirst := 0, triCount := st0.mesh.triCount,
        aabbMin := (boundsOf (buildSetup st0).mesh.tri (buildSetup st0).triIdx
          0 st0.mesh.triCount).1,
        aabbMax := (boundsOf (buildSetup st0).mesh.tri (buildSetup st0).triIdx
          0 st0.mesh.triCount).2 } := by
  unfold buildSetup
  rw [UpdateNodeBounds_same, setNode_same]
  rfl

theorem buildSetup_node_ne (st0 : BVH) (j : Nat) (h : j ≠ 0) :
    (buildSetup st0).bvhNode j = st0.bvhNode j := by
  unfold buildSetup
  rw [UpdateNodeBounds_ne _ _ _ h, setNode_ne _ _ _ _ h]

theorem buildSetup_slice_perm (st0 : BVH) :
    List.Perm (sliceL (buildSetup st0).triIdx 0 st0.mesh.triCount)
      (List.range st0.mesh.triCount) := by
  have he : sliceL (buildSetup st0).triIdx 0 st0.mesh.triCount =
      (List.range st0.mesh.triCount).map (fun k => k) := by
    unfold sliceL
    apply List.map_congr_left
    intro k hk
    rw [List.mem_range] at hk
    rw [Nat.zero_add, buildSetup_triIdx, if_pos hk]
  rw [he]
  have h2 : (List.range st0.mesh.triCount).map (fun k => k) =
      List.range st0.mesh.triCount := List.map_id' _
  rw [h2]

/-- Totality of `BVH::Build`: construction never fails, for meshes of any
size (there is no capacity check anywhere in the builder). -/
theorem build_total (m : Mesh) : (build m).isSome := by
  unfold build buildS
  apply subdivideF_terminates
  · rw [buildSetup_nodesUsed]
    omega
  · rw [buildSetup_root]
    dsimp only
    rw [buildSetup_mesh_triCount]
    omega

theorem build_spec (m : Mesh) (st' : BVH) (h : build m = some st') :
    st'.mesh.triCount = m.triCount ∧
    (∀ i, st'.mesh.tri i =
      if i < m.triCount then
        { m.tri i with centroid :=
            ((m.tri i).vertex0 + (m.tri i).vertex1 +
              (m.tri i).vertex2).smul 0.3333 }
      else m.tri i) ∧
    2 ≤ st'.nodesUsed ∧
    st'.nodesUsed ≤ 2 + 2 * (m.triCount - 1) ∧
    st'.bvhNode 1 = default ∧
    (∀ j, st'.nodesUsed ≤ j → st'.bvhNode j = default) ∧
    (∀ k, m.triCount ≤ k → st'.triIdx k = 0) ∧
    List.Perm (sliceL st'.triIdx 0 m.triCount) (List.range m.triCount) := by
  unfold build buildS at h
  have hfr := subdivideF_frame ((buildSetup (mk0 m)).mesh.triCount + 1)
    (buildSetup (mk0 m)) 0 st' (by rw [buildSetup_nodesUsed]; omega) h
  obtain ⟨F1, F2, F3, F4, F5, F6, F7, F8⟩ := hfr
  rw [buildSetup_root] at F3 F7 F8
  dsimp only at F3 F7 F8
  rw [buildSetup_nodesUsed] at F2 F3 F4
  have hmc : (mk0 m).mesh.triCount = m.triCount := rfl
  rw [hmc] at F3 F7 F8
  refine ⟨?_, ?_, F2, by omega, ?_, ?_, ?_, ?_⟩
  · rw [F1, buildSetup_mesh_triCount]
    rfl
  · intro i
    rw [F1]
    have := buildSetup_tri (mk0 m) i
    rw [hmc] at this
    exact this
  · have h1 : st'.bvhNode 1 = (buildSetup (mk0 m)).bvhNode 1 :=
      F4 1 (by omega) (Or.inl (by omega))
    rw [h1, buildSetup_node_ne _ 1 (by omega)]
    rfl
  · intro j hj
    have h1 : st'.bvhNode j = (buildSetup (mk0 m)).bvhNode j := by
      apply F4 j
      · omega
      · exact Or.inr hj
    by_cases hj0 : j = 0
    · omega
    · rw [h1, buildSetup_node_ne _ j hj0]
      rfl
  · intro k hk
    have h1 : st'.triIdx k = (buildSetup (mk0 m)).triIdx k := by
      apply F7 k
      omega
    rw [h1, buildSetup_triIdx]
    rw [hmc]
    rw [if_neg (by omega)]
    rfl
  · refine F8.trans ?_
    have := buildSetup_slice_perm (mk0 m)
    rw [hmc] at this
    exact this

end BVH

/-! ## Iterated-fold helpers for constant meshes -/

theorem foldl_const_fun {α : Type} {β : Type} (g : α → α) (l : List β) (b0 : α) :
    l.foldl (fun b _ => g b) b0 = g^[l.length] b0 := by
  induction l generalizing b0 with
  | nil => rfl
  | cons x l ih =>
    simp only [List.foldl_cons, List.length_cons]
    rw [ih (g b0), Function.iterate_succ_apply]

theorem iterate_fix {α : Type} (g : α → α) (b0 : α) (h : g (g b0) = g b0) :
    ∀ n, 1 ≤ n → g^[n] b0 = g b0 := by
  intro n
  induction n with
  | zero => omega
  | succ m ih =>
    intro _
    by_cases hm : 1 ≤ m
    · rw [Function.iterate_succ_apply']
      rw [ih hm, h]
    · have hm0 : m = 0 := by omega
      subst hm0
      rfl

/-! ## The 2^20+1-triangle degenerate build -/

theorem foldl_id {α : Type} {β : Type} (l : List β) (b0 : α) :
    l.foldl (fun b _ => b) b0 = b0 := by
  induction l with
  | nil => rfl
  | cons x l ih => exact ih

theorem bigSetup_tri (i : Nat) :
    (BVH.buildSetup (BVH.mk0 bigMesh)).mesh.tri i = triZero := by
  have h := BVH.buildSetup_tri (BVH.mk0 bigMesh) i
  rw [h]
  have hb : (BVH.mk0 bigMesh).mesh.tri i = triZero := rfl
  have hT : (BVH.mk0 bigMesh).mesh.triCount = 2 ^ 20 + 1 := rfl
  rw [hb, hT]
  split_ifs
  · show ({ triZero with centroid :=
      (triZero.vertex0 + triZero.vertex1 + triZero.vertex2).smul 0.3333 }) = triZero
    unfold triZero mkTri
    simp only [Tri.mk.injEq, float3.smul_def, float3.add_def, float3.mk.injEq]
    norm_num
  · rfl

theorem bigSetup_bounds (first count : Nat) (hc : 1 ≤ count) :
    BVH.boundsOf (BVH.buildSetup (BVH.mk0 bigMesh)).mesh.tri
      (BVH.buildSetup (BVH.mk0 bigMesh)).triIdx first count =
      (⟨0, 0, 0⟩, ⟨0, 0, 0⟩) := by
  unfold BVH.boundsOf
  rw [List.foldl_ext _ (fun mm _ => BVH.growTri mm triZero) _ (by
    intro a b _
    rw [bigSetup_tri])]
  rw [foldl_const_fun (fun mm => BVH.growTri mm triZero) _ _, List.length_range]
  have hidem : BVH.growTri (BVH.growTri (float3.splat BIG, float3.splat (-BIG))
      triZero) triZero =
      BVH.growTri (float3.splat BIG, float3.splat (-BIG)) triZero := by
    unfold BVH.growTri triZero mkTri float3.fminf float3.fmaxf float3.splat
    simp only [Prod.mk.injEq, float3.mk.injEq]
    norm_num
  rw [iterate_fix _ _ hidem count hc]
  unfold BVH.growTri triZero mkTri float3.fminf float3.fmaxf float3.splat BIG
  simp only [Prod.mk.injEq, float3.mk.injEq]
  norm_num

theorem bigSetup_centroid_bounds (a first count : Nat) (hc : 1 ≤ count) :
    ((List.range count).foldl
      (fun (b : ℚ × ℚ) i =>
        let triangle := (BVH.buildSetup (BVH.mk0 bigMesh)).mesh.tri
          ((BVH.buildSetup (BVH.mk0 bigMesh)).triIdx (first + i))
        (min b.1 (triangle.centroid.nth a), max b.2 (triangle.centroid.nth a)))
      (BIG, -BIG)) = (0, 0) := by
  have hnth : ∀ i : Nat, ((BVH.buildSetup (BVH.mk0 bigMesh)).mesh.tri
      ((BVH.buildSetup (BVH.mk0 bigMesh)).triIdx (first + i))).centroid.nth a = 0 := by
    intro i
    rw [bigSetup_tri]
    unfold triZero mkTri float3.nth
    split_ifs <;> rfl
  rw [List.foldl_ext _ (fun (b : ℚ × ℚ) _ => (min b.1 0, max b.2 0)) _ (by
    intro b i _
    dsimp only
    rw [hnth i])]
  rw [foldl_const_fun (fun (b : ℚ × ℚ) => (min b.1 0, max b.2 0)) _ _,
    List.length_range]
  rw [iterate_fix _ _ (by norm_num) count hc]
  unfold BIG
  norm_num

theorem BVHNode.CalculateNodeCost_mk (mn mx : float3) (lf tc : Nat) :
    (BVHNode.mk mn mx lf tc).CalculateNodeCost =
      ((mx - mn).x * (mx - mn).y + (mx - mn).y * (mx - mn).z +
        (mx - mn).z * (mx - mn).x) * (tc : ℚ) := rfl

theorem bigMesh_build :
    BVH.build bigMesh = some (BVH.buildSetup (BVH.mk0 bigMesh)) := by
  have hroot := BVH.buildSetup_root (BVH.mk0 bigMesh)
  have hT : (BVH.mk0 bigMesh).mesh.triCount = 2 ^ 20 + 1 := rfl
  have hbest : (BVH.buildSetup (BVH.mk0 bigMesh)).FindBestSplitPlane
      ((BVH.buildSetup (BVH.mk0 bigMesh)).bvhNode 0) = (BIG, 0, 0) := by
    unfold BVH.FindBestSplitPlane
    rw [List.foldl_ext _ (fun (best : ℚ × Nat × ℚ) _ => best) _ (by
      intro best a _
      have hb : BVH.centroidBounds (BVH.buildSetup (BVH.mk0 bigMesh))
          ((BVH.buildSetup (BVH.mk0 bigMesh)).bvhNode 0) a = (0, 0) :=
        bigSetup_centroid_bounds a
          ((BVH.buildSetup (BVH.mk0 bigMesh)).bvhNode 0).leftFirst
          ((BVH.buildSetup (BVH.mk0 bigMesh)).bvhNode 0).triCount
          (by rw [hroot]; dsimp only; rw [hT]; omega)
      unfold BVH.FBSPaxis
      rw [hb]
      rw [if_pos rfl])]
    rw [foldl_id]
  have hbounds : BVH.boundsOf (BVH.buildSetup (BVH.mk0 bigMesh)).mesh.tri
      (BVH.buildSetup (BVH.mk0 bigMesh)).triIdx 0 ((BVH.mk0 bigMesh).mesh.triCount) =
      (⟨0, 0, 0⟩, ⟨0, 0, 0⟩) := by
    apply bigSetup_bounds
    rw [hT]
    omega
  have hroot2 : (BVH.buildSetup (BVH.mk0 bigMesh)).bvhNode 0 =
      BVHNode.mk ⟨0, 0, 0⟩ ⟨0, 0, 0⟩ 0 ((BVH.mk0 bigMesh).mesh.triCount) := by
    rw [hroot, hbounds]
  have hcost : ((BVH.buildSetup (BVH.mk0 bigMesh)).bvhNode 0).CalculateNodeCost = 0 := by
    rw [hroot2, BVHNode.CalculateNodeCost_mk, hT]
    norm_num [float3.sub_def]
  obtain ⟨S, hS⟩ : ∃ S, S = BVH.buildSetup (BVH.mk0 bigMesh) := ⟨_, rfl⟩
  unfold BVH.build BVH.buildS
  rw [← hS]
  simp only [BVH.subdivideF]
  rw [hS, hbest, hcost]
  rw [if_pos (by
    show (BIG, (0 : Nat), (0 : ℚ)).1 ≥ 0
    unfold BIG
    norm_num)]

/-- Claim C3 counterexample: a BLAS build over `2^20 + 1` triangles does
not fail — it completes normally, performing its construction work
(`nodesUsed` is written, the root is set up and fitted). -/
theorem c3_counterexample :
    BVH.build bigMesh = some stBig ∧ stBig.nodesUsed = 2 ∧
      bigMesh.triCount = 2 ^ 20 + 1 ∧
      (stBig.bvhNode 0).triCount = 2 ^ 20 + 1 := by
  have hb := bigMesh_build
  have hs : stBig = BVH.buildSetup (BVH.mk0 bigMesh) := by
    unfold stBig
    rw [hb]
    rfl
  refine ⟨by rw [hb, hs], ?_, rfl, ?_⟩
  · rw [hs, BVH.buildSetup_nodesUsed]
  · rw [hs, BVH.buildSetup_root]
    rfl

/-- Claim C3 (amended): neither builder checks capacity at entry —
`BVH::Build` never fails, for any mesh size (oversize inputs are not
rejected; overflow is deferred to the `instPrim` packing at traversal
time). -/
theorem c3_build_has_no_capacity_check : ∀ m : Mesh, (BVH.build m).isSome :=
  BVH.build_total

/-! ## Claims C10, C9, C8 -/

/-- Claim C10: `BVH::Subdivide` terminates. Modelled with explicit fuel,
termination is the statement that any fuel exceeding the node's triangle
count suffices: recursion only happens after a partition with both sides
non-empty, so each recursive call strictly decreases the triangle count. -/
theorem c10_subdivide_terminates (st : BVH) (n fuel : Nat)
    (h1 : n < st.nodesUsed) (h2 : (st.bvhNode n).triCount < fuel) :
    (st.subdivideF n fuel).isSome :=
  BVH.subdivideF_terminates fuel st n h1 h2

theorem c10_subdivide_terminates_witness :
    (({ BVH.mk0 mesh1 with nodesUsed := 2 } : BVH).subdivideF 0 5).isSome :=
  c10_subdivide_terminates { BVH.mk0 mesh1 with nodesUsed := 2 } 0 5
    (by decide) (by decide)

/-- Claim C9: for every mesh with at least one triangle, after `BVH::Build`
completes the `nodesUsed` watermark is at most `2 * triCount`, so every
node index written lies inside the pool of size `2 * triCount`. -/
theorem c9_nodesUsed_le (m : Mesh) (st' : BVH) (h1 : 1 ≤ m.triCount)
    (h : BVH.build m = some st') : st'.nodesUsed ≤ 2 * m.triCount := by
  have hs := (BVH.build_spec m st' h).2.2.2.1
  omega

theorem c9_nodesUsed_le_witness :
    ((BVH.build mesh1).get (BVH.build_total mesh1)).nodesUsed ≤
      2 * mesh1.triCount :=
  c9_nodesUsed_le mesh1 ((BVH.build mesh1).get (BVH.build_total mesh1))
    (by decide) (Option.some_get (BVH.build_total mesh1)).symm

/-- Claim C8 counterexample: `BVH::Build` recomputes the cached centroid
with `* 0.3333f`, not an exact division by 3. On the triangle with all
vertices `(1,1,1)` the stored centroid is `(0.9999, 0.9999, 0.9999)`,
not the exact `(v0+v1+v2)/3 = (1,1,1)`. -/
theorem c8_counterexample :
    (((BVH.build meshOnes).get (BVH.build_total meshOnes)).mesh.tri 0).centroid ≠
      ((meshOnes.tri 0).vertex0 + (meshOnes.tri 0).vertex1 +
        (meshOnes.tri 0).vertex2).smul (1/3) := by
  have h := BVH.build_spec meshOnes _
    (Option.some_get (BVH.build_total meshOnes)).symm
  have h2 := h.2.1 0
  rw [if_pos (by decide)] at h2
  rw [h2]
  show ((meshOnes.tri 0).vertex0 + (meshOnes.tri 0).vertex1 +
      (meshOnes.tri 0).vertex2).smul 0.3333 ≠ _
  unfold meshOnes mkTri
  simp only [float3.add_def, float3.smul_def, float3.mk.injEq, ne_eq]
  norm_num

/-- Claim C8 (amended): at build start every triangle's cached centroid is
recomputed as `(v0+v1+v2) * 0.3333` — the float literal `0.3333f`, not an
exact division by 3. -/
theorem c8_centroid_amended (m : Mesh) (st' : BVH) (h : BVH.build m = some st')
    (i : Nat) (hi : i < m.triCount) :
    (st'.mesh.tri i).centroid =
      ((m.tri i).vertex0 + (m.tri i).vertex1 + (m.tri i).vertex2).smul 0.3333 := by
  have h2 := (BVH.build_spec m st' h).2.1 i
  rw [if_pos hi] at h2
  rw [h2]

theorem c8_centroid_amended_witness :
    (((BVH.build meshOnes).get (BVH.build_total meshOnes)).mesh.tri 0).centroid =
      ((meshOnes.tri 0).vertex0 + (meshOnes.tri 0).vertex1 +
        (meshOnes.tri 0).vertex2).smul 0.3333 :=
  c8_centroid_amended meshOnes ((BVH.build meshOnes).get (BVH.build_total meshOnes))
    (Option.some_get (BVH.build_total meshOnes)).symm 0 (by decide)

/-! ## Claim C2: the `IntersectTri` contract -/

/-- Claim C2: `IntersectTri` misses (returns the ray unchanged) when
`|a| < 1e-5` for the Möller–Trumbore determinant `a = edge1 · (D × edge2)`;
it rejects when `u < 0`, `u > 1`, `v < 0` or `u + v > 1`; and once those
guards pass it updates the hit record to `(t, u, v, instPrim)` exactly when
`t > 1e-4` and `t < ray.hit.t`, leaving the ray unchanged otherwise. -/
theorem c2_intersectTri_spec (ray : Ray) (tri : Tri) (ip : Nat) :
    (|MT.mtA ray.D tri| < 0.00001 → IntersectTri ray tri ip = ray) ∧
    (MT.mtU ray.O ray.D tri < 0 ∨ MT.mtU ray.O ray.D tri > 1 →
      IntersectTri ray tri ip = ray) ∧
    (MT.mtV ray.O ray.D tri < 0 ∨
        MT.mtU ray.O ray.D tri + MT.mtV ray.O ray.D tri > 1 →
      IntersectTri ray tri ip = ray) ∧
    (¬ |MT.mtA ray.D tri| < 0.00001 →
      ¬ (MT.mtU ray.O ray.D tri < 0 ∨ MT.mtU ray.O ray.D tri > 1) →
      ¬ (MT.mtV ray.O ray.D tri < 0 ∨
          MT.mtU ray.O ray.D tri + MT.mtV ray.O ray.D tri > 1) →
      IntersectTri ray tri ip =
        if MT.mtT ray.O ray.D tri > 0.0001 ∧ MT.mtT ray.O ray.D tri < ray.hit.t
        then { ray with hit := ⟨MT.mtT ray.O ray.D tri, MT.mtU ray.O ray.D tri,
            MT.mtV ray.O ray.D tri, ip⟩ }
        else ray) := by
  have key : IntersectTri ray tri ip =
      if |MT.mtA ray.D tri| < 0.00001 then ray
      else if MT.mtU ray.O ray.D tri < 0 ∨ MT.mtU ray.O ray.D tri > 1 then ray
      else if MT.mtV ray.O ray.D tri < 0 ∨
          MT.mtU ray.O ray.D tri + MT.mtV ray.O ray.D tri > 1 then ray
      else if MT.mtT ray.O ray.D tri > 0.0001 ∧
          MT.mtT ray.O ray.D tri < ray.hit.t then
        { ray with hit := ⟨MT.mtT ray.O ray.D tri, MT.mtU ray.O ray.D tri,
            MT.mtV ray.O ray.D tri, ip⟩ }
      else ray := rfl
  refine ⟨?_, ?_, ?_, ?_⟩
  · intro hA
    rw [key, if_pos hA]
  · intro hU
    rw [key]
    split_ifs <;> rfl
  · intro hV
    rw [key]
    split_ifs <;> rfl
  · intro hA hU hV
    rw [key, if_neg hA, if_neg hU, if_neg hV]

/-! ## Claim C4: the fast-TLAS sort key -/

/-- Claim C4 divergence witness: `TLAS::SortAndSplit` computes the sort
key as `(bmin[axis] + bmin[axis]) * 0.5f` (bvh.cpp 428), i.e. `bmin`
along the axis, not the world-AABB midpoint `(bmin+bmax)/2`. On two
instances with x-ranges `[0,10]` (midpoint 5) and `[2,4]` (midpoint 3)
the sort keeps the `bmin` order `0, 2`, so the sequence of world-AABB
midpoints along the chosen axis after sorting is `5, 3` — strictly
decreasing, violating the claimed sortedness. -/
theorem c4_sort_not_by_midpoint :
    (sortedItems 0).blasIdx = 0 ∧ (sortedItems 1).blasIdx = 1 ∧
    (sortedItems 0).pos ≤ (sortedItems 1).pos ∧
    worldMidpoint (tlSort.blas (sortedItems 0).blasIdx) 0 = 5 ∧
    worldMidpoint (tlSort.blas (sortedItems 1).blasIdx) 0 = 3 ∧
    ¬ (worldMidpoint (tlSort.blas (sortedItems 0).blasIdx) 0 ≤
        worldMidpoint (tlSort.blas (sortedItems 1).blasIdx) 0) := by
  have h0 : sortedItems 0 = ⟨0, 0⟩ := by
    with_unfolding_all decide
  have h1 : sortedItems 1 = ⟨2, 1⟩ := by
    with_unfolding_all decide
  rw [h0, h1]
  refine ⟨rfl, rfl, by norm_num, ?_, ?_, ?_⟩ <;>
    norm_num [worldMidpoint, tlSort, TLAS.mk0, instA, instB, float3.nth]

/-! ## Claim C7: empty inputs -/

theorem foldl_bins_snd (bin : Nat → BVH.Bin) (hz : ∀ k, (bin k).triCount = 0)
    (g : Nat → Nat) :
    ∀ (l : List Nat) (acc : aabb × Nat),
    (l.foldl (fun acc k =>
        (acc.1.growB (bin (g k)).bounds, acc.2 + (bin (g k)).triCount)) acc).2 =
      acc.2 := by
  intro l
  induction l with
  | nil => intro acc; rfl
  | cons x xs ih =>
    intro acc
    rw [List.foldl_cons, ih]
    dsimp only
    rw [hz (g x)]
    omega

theorem BVH.planeSweep_const_nonneg (a : Nat) (boundsMin scale2 : ℚ)
    (best : ℚ × Nat × ℚ) (hb : 0 ≤ best.1) :
    0 ≤ (BVH.planeSweep (fun _ => ⟨aabb.empty, 0⟩) a boundsMin scale2 best).1 := by
  unfold BVH.planeSweep
  refine @List.foldlRecOn _ _ (fun p : ℚ × Nat × ℚ => 0 ≤ p.1) _ _ _ hb ?_
  intro best2 hb2 i hi
  have hp : (BVH.binsPrefix (fun _ => ⟨aabb.empty, 0⟩) i).2 = 0 :=
    foldl_bins_snd (fun _ => ⟨aabb.empty, 0⟩) (fun _ => rfl) (fun k => k)
      (List.range (i + 1)) (aabb.empty, 0)
  have hs : (BVH.binsSuffix (fun _ => ⟨aabb.empty, 0⟩) i).2 = 0 :=
    foldl_bins_snd (fun _ => ⟨aabb.empty, 0⟩) (fun _ => rfl)
      (fun k => BVH.BINS - 1 - k)
      (List.range (BVH.BINS - 1 - i)) (aabb.empty, 0)
  rw [hp, hs]
  simp only [Nat.cast_zero, zero_mul, add_zero]
  split_ifs with h2
  · exact le_refl 0
  · exact hb2

theorem BVH.FBSPaxis_empty_nonneg (st : BVH) (node : BVHNode) (a : Nat)
    (best : ℚ × Nat × ℚ) (h : node.triCount = 0) (hb : 0 ≤ best.1) :
    0 ≤ (st.FBSPaxis node best a).1 := by
  have hcb : BVH.centroidBounds st node a = (BIG, -BIG) := by
    unfold BVH.centroidBounds
    rw [h]
    rfl
  have hfb : BVH.fillBins st node a (BIG, -BIG).1
      ((BVH.BINS : ℚ) / ((BIG, -BIG).2 - (BIG, -BIG).1)) =
      (fun _ => ⟨aabb.empty, 0⟩) := by
    unfold BVH.fillBins
    rw [h]
    rfl
  unfold BVH.FBSPaxis
  rw [hcb]
  rw [if_neg (by norm_num [BIG])]
  rw [hfb]
  exact BVH.planeSweep_const_nonneg a _ _ best hb

theorem BVH.FindBestSplitPlane_empty_nonneg (st : BVH) (node : BVHNode)
    (h : node.triCount = 0) : 0 ≤ (st.FindBestSplitPlane node).1 := by
  unfold BVH.FindBestSplitPlane
  refine @List.foldlRecOn _ _ (fun p : ℚ × Nat × ℚ => 0 ≤ p.1) _ _ _ ?_ ?_
  · show (0 : ℚ) ≤ BIG
    norm_num [BIG]
  · intro best hb a ha
    exact BVH.FBSPaxis_empty_nonneg st node a best h hb

theorem BVH.build_empty (m : Mesh) (h0 : m.triCount = 0) :
    BVH.build m = some (BVH.buildSetup (BVH.mk0 m)) := by
  have hroot := BVH.buildSetup_root (BVH.mk0 m)
  have hT : (BVH.mk0 m).mesh.triCount = m.triCount := rfl
  rw [hT, h0] at hroot
  have hbounds : BVH.boundsOf (BVH.buildSetup (BVH.mk0 m)).mesh.tri
      (BVH.buildSetup (BVH.mk0 m)).triIdx 0 0 =
      (float3.splat BIG, float3.splat (-BIG)) := rfl
  have hroot2 : (BVH.buildSetup (BVH.mk0 m)).bvhNode 0 =
      BVHNode.mk (float3.splat BIG) (float3.splat (-BIG)) 0 0 := by
    rw [hroot, hbounds]
  have hcost : ((BVH.buildSetup (BVH.mk0 m)).bvhNode 0).CalculateNodeCost = 0 := by
    rw [hroot2, BVHNode.CalculateNodeCost_mk]
    norm_num
  obtain ⟨S, hS⟩ : ∃ S, S = BVH.buildSetup (BVH.mk0 m) := ⟨_, rfl⟩
  unfold BVH.build BVH.buildS
  rw [← hS]
  simp only [BVH.subdivideF]
  rw [hS, hcost]
  rw [if_pos (BVH.FindBestSplitPlane_empty_nonneg _ _ (by rw [hroot2]))]

theorem mesh0_build :
    BVH.build mesh0 = some (BVH.buildSetup (BVH.mk0 mesh0)) :=
  BVH.build_empty mesh0 rfl

theorem stEmpty_eq : stEmpty = BVH.buildSetup (BVH.mk0 mesh0) := by
  unfold stEmpty
  rw [mesh0_build]
  rfl

theorem stEmpty_root : stEmpty.bvhNode 0 =
    BVHNode.mk (float3.splat BIG) (float3.splat (-BIG)) 0 0 := by
  rw [stEmpty_eq, BVH.buildSetup_root]
  rfl

theorem stEmpty_node1 : stEmpty.bvhNode 1 = default := by
  rw [stEmpty_eq, BVH.buildSetup_node_ne _ 1 (by omega)]
  rfl

theorem stEmpty_selfloop :
    BVH.intersectStep stEmpty 0 ⟨rayC, 0, []⟩ = Sum.inr ⟨rayC, 0, []⟩ := by
  have hd1 : IntersectAABB rayC (float3.splat BIG) (float3.splat (-BIG)) =
      -BIG - 2 := by
    unfold IntersectAABB rayC float3.splat float3.recip BIG
    norm_num
  have hd2 : IntersectAABB rayC ⟨0, 0, 0⟩ ⟨0, 0, 0⟩ = BIG := by
    unfold IntersectAABB rayC float3.recip BIG
    norm_num
  have hgt : ¬ (-BIG - 2 > BIG) := by unfold BIG; norm_num
  have hne : ¬ (-BIG - 2 = BIG) := by unfold BIG; norm_num
  unfold BVH.intersectStep
  rw [show (⟨rayC, 0, []⟩ : BVH.TravState).cur = 0 from rfl, stEmpty_root]
  rw [if_neg (by
    show ¬ (BVHNode.isLeaf _ = true)
    unfold BVHNode.isLeaf
    norm_num)]
  simp only []
  rw [show (0 : Nat) + 1 = 1 from rfl, stEmpty_node1, stEmpty_root]
  rw [show (default : BVHNode) = BVHNode.mk ⟨0, 0, 0⟩ ⟨0, 0, 0⟩ 0 0 from rfl]
  simp only []
  rw [hd1, hd2]
  rw [if_neg hgt, if_neg hgt, if_neg hgt, if_neg hgt]
  rw [if_neg hne]
  rw [if_neg (by simp)]

theorem stEmpty_loop_none :
    ∀ fuel, BVH.intersectLoop stEmpty 0 fuel ⟨rayC, 0, []⟩ = none := by
  intro fuel
  induction fuel with
  | zero => rfl
  | succ n ih =>
    unfold BVH.intersectLoop
    rw [stEmpty_selfloop]
    exact ih

/-- Claim C7: on a 0-triangle mesh, `BVH::Build` does complete normally
(and `TLAS::Build` completes on 0 instances), but intersecting the
resulting BLAS is not a no-op: the root keeps `triCount = 0` and
`leftFirst = 0`, so traversal treats it as an interior node whose first
child is slot 0 itself; for a ray hitting the inverted root box the loop
re-enters node 0 forever — `BVH::Intersect` does not terminate. -/
theorem c7_empty_intersect_diverges :
    BVH.build mesh0 = some stEmpty ∧
    stEmpty.nodesUsed = 2 ∧
    (stEmpty.bvhNode 0).triCount = 0 ∧
    (TLAS.Build (TLAS.mk0 (fun _ => instA) 0) 1).isSome ∧
    ¬ BVH.IntersectTerminates stEmpty 0 rayC := by
  refine ⟨?_, ?_, ?_, ?_, ?_⟩
  · rw [mesh0_build, stEmpty_eq]
  · rw [stEmpty_eq, BVH.buildSetup_nodesUsed]
  · rw [stEmpty_root]
  · rfl
  · rintro ⟨fuel, r, h⟩
    unfold BVH.Intersect at h
    rw [stEmpty_loop_none fuel] at h
    exact Option.noConfusion h

/-! ## Fitted-subtree machinery for refit and traversal -/

theorem BVH.FittedIn_mem {st : BVH} {S : Set Nat} {n first count size : Nat}
    (h : BVH.FittedIn st S n first count size) : n ∈ S := by
  cases h with
  | leaf _ _ _ hmem _ _ _ _ => exact hmem
  | interior _ _ _ _ _ _ hmem _ _ _ _ _ _ _ _ => exact hmem

theorem BVH.FittedIn_mono {st : BVH} {S T : Set Nat}
    {n first count size : Nat} (hST : S ⊆ T)
    (h : BVH.FittedIn st S n first count size) :
    BVH.FittedIn st T n first count size := by
  induction h with
  | leaf n first count hmem hc hlf htc hb =>
    exact BVH.FittedIn.leaf n first count (hST hmem) hc hlf htc hb
  | interior n first count lc sL sR hmem htc hlt hlc0 hlcC hL hR hmin hmax ihL ihR =>
    exact BVH.FittedIn.interior n first count lc sL sR (hST hmem) htc hlt hlc0
      hlcC ihL ihR hmin hmax

theorem BVH.FittedIn_transfer {st : BVH} {S : Set Nat}
    {n first count size : Nat}
    (h : BVH.FittedIn st S n first count size) :
    ∀ (st2 : BVH),
      st2.mesh = st.mesh →
      (∀ j, j ∈ S → st2.bvhNode j = st.bvhNode j) →
      (∀ k, first ≤ k → k < first + count → st2.triIdx k = st.triIdx k) →
      BVH.FittedIn st2 S n first count size := by
  induction h with
  | leaf n first count hmem hc hlf htc hb =>
    intro st2 hm hnodes htri
    refine BVH.FittedIn.leaf n first count hmem hc ?_ ?_ ?_
    · rw [hnodes n hmem, hlf]
    · rw [hnodes n hmem, htc]
    · rw [hnodes n hmem, hb, hm]
      apply BVH.boundsOf_congr
      intro p hp1 hp2
      rw [htri p hp1 hp2]
  | interior n first count lc sL sR hmem htc hlt hlc0 hlcC hL hR hmin hmax ihL ihR =>
    intro st2 hm hnodes htri
    have hLmem : (st.bvhNode n).leftFirst ∈ S := BVH.FittedIn_mem hL
    have hRmem : (st.bvhNode n).leftFirst + 1 ∈ S := BVH.FittedIn_mem hR
    refine BVH.FittedIn.interior n first count lc sL sR hmem ?_ ?_ hlc0 hlcC
      ?_ ?_ ?_ ?_
    · rw [hnodes n hmem]
      exact htc
    · rw [hnodes n hmem]
      exact hlt
    · rw [hnodes n hmem]
      exact ihL st2 hm hnodes (fun k h1 h2 => htri k h1 (by omega))
    · rw [hnodes n hmem]
      exact ihR st2 hm hnodes (fun k h1 h2 => htri k (by omega) (by omega))
    · rw [hnodes n hmem, hnodes _ hLmem, hnodes _ hRmem]
      exact hmin
    · rw [hnodes n hmem, hnodes _ hLmem, hnodes _ hRmem]
      exact hmax

theorem BVH.subdivideF_fitted :
    ∀ (fuel : Nat) (st : BVH) (n : Nat) (st' : BVH),
      n < st.nodesUsed →
      st.subdivideF n fuel = some st' →
      0 < (st.bvhNode n).triCount →
      ((st.bvhNode n).aabbMin, (st.bvhNode n).aabbMax) =
        BVH.boundsOf st.mesh.tri st.triIdx (st.bvhNode n).leftFirst
          (st.bvhNode n).triCount →
      (∀ j, j = n ∨ (st.nodesUsed ≤ j ∧ j < st'.nodesUsed) →
        BVH.NodeFit st' j ∧
        (0 < (st'.bvhNode j).triCount →
          (st.bvhNode n).leftFirst ≤ (st'.bvhNode j).leftFirst ∧
          (st'.bvhNode j).leftFirst + (st'.bvhNode j).triCount ≤
            (st.bvhNode n).leftFirst + (st.bvhNode n).triCount) ∧
        ((st'.bvhNode j).triCount = 0 →
          st.nodesUsed ≤ (st'.bvhNode j).leftFirst)) ∧
      (∃ size, BVH.FittedIn st' ({n} ∪ Set.Ico st.nodesUsed st'.nodesUsed) n
        (st.bvhNode n).leftFirst (st.bvhNode n).triCount size) := by
  intro fuel
  induction fuel with
  | zero => intro st n st' _ h; simp [BVH.subdivideF] at h
  | succ fuel ih =>
    intro st n st' hn h hpos hfit
    simp only [BVH.subdivideF] at h
    split_ifs at h with hcost hguard
    · rw [Option.some_inj] at h
      subst h
      constructor
      · intro j hj
        have hjn : j = n := by
          rcases hj with hj | hj
          · exact hj
          · omega
        subst hjn
        refine ⟨⟨fun _ => hfit, fun h0 => absurd h0 (by omega)⟩, ?_, ?_⟩
        · intro _
          exact ⟨le_refl _, le_refl _⟩
        · intro h0
          omega
      · exact ⟨1, BVH.FittedIn.leaf n _ _ (Or.inl rfl) hpos rfl rfl hfit⟩
    · rw [Option.some_inj] at h
      subst h
      set best := st.FindBestSplitPlane (st.bvhNode n) with hbest
      set F := (st.bvhNode n).leftFirst with hF
      set C := (st.bvhNode n).triCount with hC
      set pr := BVH.partitionLoop st.mesh best.2.1 best.2.2 st.triIdx (F : Int)
        ((F : Int) + (C : Int) - 1) with hpr
      have hperm : BVH.boundsOf st.mesh.tri st.triIdx F C =
          BVH.boundsOf st.mesh.tri pr.1 F C := by
        apply BVH.boundsOf_perm
        exact (BVH.partitionLoop_slice_perm st.mesh best.2.1 best.2.2
          st.triIdx F C).symm
      constructor
      · intro j hj
        have hjn : j = n := by
          have hrec : ({ mesh := st.mesh, bvhNode := st.bvhNode, triIdx := pr.1, nodesUsed := st.nodesUsed } : BVH).nodesUsed = st.nodesUsed := rfl
          rcases hj with hj | hj
          · exact hj
          · omega
        subst hjn
        refine ⟨⟨fun _ => ?_, fun h0 =>
          absurd (show (st.bvhNode j).triCount = 0 from h0) (by omega)⟩,
          ?_, ?_⟩
        · show ((st.bvhNode j).aabbMin, (st.bvhNode j).aabbMax) =
            BVH.boundsOf st.mesh.tri pr.1 F C
          rw [hfit]
          exact hperm
        · intro _
          exact ⟨le_refl _, le_refl _⟩
        · intro h0
          exact absurd (show (st.bvhNode j).triCount = 0 from h0) (by omega)
      · refine ⟨1, BVH.FittedIn.leaf n _ _ (Or.inl rfl) hpos rfl rfl ?_⟩
        show ((st.bvhNode n).aabbMin, (st.bvhNode n).aabbMax) =
          BVH.boundsOf st.mesh.tri pr.1 F C
        rw [hfit]
        exact hperm
    · rw [Option.bind_eq_some] at h
      obtain ⟨st8, hL, hR⟩ := h
      set best := st.FindBestSplitPlane (st.bvhNode n) with hbest
      set F := (st.bvhNode n).leftFirst with hF
      set C := (st.bvhNode n).triCount with hC
      set pr := BVH.partitionLoop st.mesh best.2.1 best.2.2 st.triIdx (F : Int)
        ((F : Int) + (C : Int) - 1) with hpr
      have hrange : (F : Int) ≤ pr.2 ∧ pr.2 ≤ (F : Int) + (C : Int) := by
        rw [hpr]
        exact BVH.partitionLoop_i_range st.mesh best.2.1 best.2.2 st.triIdx F C
      set lc := (pr.2 - (F : Int)).toNat with hlc
      have hlc0 : lc ≠ 0 := fun hcc => hguard (Or.inl hcc)
      have hlcC : lc ≠ C := fun hcc => hguard (Or.inr hcc)
      have hlcle : lc ≤ C := by omega
      have hlcpos : 0 < lc := Nat.pos_of_ne_zero hlc0
      have hlclt : lc < C := lt_of_le_of_ne hlcle hlcC
      have hitn : pr.2.toNat = F + lc := by omega
      set st1 := ({ mesh := st.mesh, bvhNode := st.bvhNode, triIdx := pr.1, nodesUsed := st.nodesUsed } : BVH) with hst1
      have hst1used : st1.nodesUsed = st.nodesUsed := rfl
      set st7 := st1.splitChildren n (st.bvhNode n) pr.2 lc with hst7
      have h7mesh : st7.mesh = st.mesh := rfl
      have h7used : st7.nodesUsed = st.nodesUsed + 2 := rfl
      have h7tri : st7.triIdx = pr.1 := rfl
      have h7L : st7.bvhNode st.nodesUsed =
          { st.bvhNode st.nodesUsed with
            leftFirst := F, triCount := lc,
            aabbMin := (BVH.boundsOf st.mesh.tri pr.1 F lc).1,
            aabbMax := (BVH.boundsOf st.mesh.tri pr.1 F lc).2 } := by
        rw [hst7]
        have hres := BVH.splitChildren_node_left st1 n (st.bvhNode n) pr.2 lc
          (by rw [hst1used]; omega)
        rwa [hst1used] at hres
      have h7R : st7.bvhNode (st.nodesUsed + 1) =
          { st.bvhNode (st.nodesUsed + 1) with
            leftFirst := pr.2.toNat, triCount := C - lc,
            aabbMin := (BVH.boundsOf st.mesh.tri pr.1 pr.2.toNat (C - lc)).1,
            aabbMax := (BVH.boundsOf st.mesh.tri pr.1 pr.2.toNat (C - lc)).2 } := by
        rw [hst7]
        have hres := BVH.splitChildren_node_right st1 n (st.bvhNode n) pr.2 lc
          (by rw [hst1used]; omega)
        rwa [hst1used] at hres
      have h7P : st7.bvhNode n =
          { st.bvhNode n with leftFirst := st.nodesUsed, triCount := 0 } := by
        rw [hst7]
        have hres := BVH.splitChildren_node_parent st1 n (st.bvhNode n) pr.2 lc
          (by rw [hst1used]; omega) (by rw [hst1used]; omega)
        rwa [hst1used] at hres
      have h7other : ∀ j, j ≠ n → j ≠ st.nodesUsed → j ≠ st.nodesUsed + 1 →
          st7.bvhNode j = st.bvhNode j := by
        intro j a b c
        rw [hst7]
        exact BVH.splitChildren_node_other st1 n (st.bvhNode n) pr.2 lc j a
          (by rw [hst1used]; exact b) (by rw [hst1used]; exact c)
      have hfrL := BVH.subdivideF_frame fuel st7 st.nodesUsed st8
        (by rw [h7used]; omega) hL
      obtain ⟨L1, L2, L3, L4, L5, L6, L7, L8⟩ := hfrL
      rw [h7L] at L3 L7 L8
      dsimp only at L3 L7 L8
      rw [h7used] at L2 L3 L4
      have h8used2 : st.nodesUsed + 2 ≤ st8.nodesUsed := L2
      have hfrR := BVH.subdivideF_frame fuel st8 (st.nodesUsed + 1) st'
        (by omega) hR
      obtain ⟨R1, R2, R3, R4, R5, R6, R7, R8⟩ := hfrR
      have h8R : st8.bvhNode (st.nodesUsed + 1) = st7.bvhNode (st.nodesUsed + 1) :=
        L4 (st.nodesUsed + 1) (by omega) (Or.inl (by omega))
      rw [h8R, h7R] at R3 R5 R6 R7 R8
      dsimp only at R3 R5 R6 R7 R8
      rw [hitn] at R7 R8
      have ihL := ih st7 st.nodesUsed st8 (by rw [h7used]; omega) hL
        (by rw [h7L]; dsimp only; exact hlcpos)
        (by rw [h7L]; exact rfl)
      rw [h7L] at ihL
      dsimp only at ihL
      rw [h7used] at ihL
      obtain ⟨AL, szL, BL⟩ := ihL
      have hR8leaf : 0 < (st8.bvhNode (st.nodesUsed + 1)).triCount := by
        rw [h8R, h7R]
        dsimp only
        omega
      have ihR := ih st8 (st.nodesUsed + 1) st' (by omega) hR hR8leaf
        (by
          rw [h8R, h7R]
          dsimp only
          rw [hitn, L1, h7mesh, Prod.mk.eta]
          apply BVH.boundsOf_congr
          intro p hp1 hp2
          have hst8 := L7 p (Or.inr (by omega))
          rw [h7tri] at hst8
          rw [hst8])
      rw [h8R, h7R] at ihR
      dsimp only at ihR
      rw [hitn] at ihR
      obtain ⟨AR, szR, BR⟩ := ihR
      have hchain : st'.bvhNode n =
          { st.bvhNode n with leftFirst := st.nodesUsed, triCount := 0 } := by
        have e1 : st'.bvhNode n = st8.bvhNode n :=
          R4 n (by omega) (Or.inl (by omega))
        have e2 : st8.bvhNode n = st7.bvhNode n :=
          L4 n (by omega) (Or.inl (by omega))
        rw [e1, e2, h7P]
      have hCL : st'.bvhNode st.nodesUsed = st8.bvhNode st.nodesUsed :=
        R4 st.nodesUsed (by omega) (Or.inl (by omega))
      have hCLmin : (st'.bvhNode st.nodesUsed).aabbMin =
          (BVH.boundsOf st.mesh.tri pr.1 F lc).1 := by
        rw [hCL, L5, h7L]
      have hCLmax : (st'.bvhNode st.nodesUsed).aabbMax =
          (BVH.boundsOf st.mesh.tri pr.1 F lc).2 := by
        rw [hCL, L6, h7L]
      have hCRmin : (st'.bvhNode (st.nodesUsed + 1)).aabbMin =
          (BVH.boundsOf st.mesh.tri pr.1 (F + lc) (C - lc)).1 := by
        rw [R5, hitn]
      have hCRmax : (st'.bvhNode (st.nodesUsed + 1)).aabbMax =
          (BVH.boundsOf st.mesh.tri pr.1 (F + lc) (C - lc)).2 := by
        rw [R6, hitn]
      have hperm : BVH.boundsOf st.mesh.tri st.triIdx F C =
          BVH.boundsOf st.mesh.tri pr.1 F C := by
        apply BVH.boundsOf_perm
        exact (BVH.partitionLoop_slice_perm st.mesh best.2.1 best.2.2
          st.triIdx F C).symm
      have hminEq : (st.bvhNode n).aabbMin =
          float3.fminf (st'.bvhNode st.nodesUsed).aabbMin
            (st'.bvhNode (st.nodesUsed + 1)).aabbMin := by
        have h1 : (st.bvhNode n).aabbMin =
            (BVH.boundsOf st.mesh.tri st.triIdx F C).1 := congrArg Prod.fst hfit
        rw [h1, hperm, BVH.boundsOf_split st.mesh.tri pr.1 F lc C hlcle]
        rw [hCLmin, hCRmin]
      have hmaxEq : (st.bvhNode n).aabbMax =
          float3.fmaxf (st'.bvhNode st.nodesUsed).aabbMax
            (st'.bvhNode (st.nodesUsed + 1)).aabbMax := by
        have h1 : (st.bvhNode n).aabbMax =
            (BVH.boundsOf st.mesh.tri st.triIdx F C).2 := congrArg Prod.snd hfit
        rw [h1, hperm, BVH.boundsOf_split st.mesh.tri pr.1 F lc C hlcle]
        rw [hCLmax, hCRmax]
      constructor
      · intro j hj
        rcases hj with hj | ⟨hj1, hj2⟩
        · -- j = n : the split parent
          subst hj
          refine ⟨⟨fun h0 => ?_, fun _ => ?_⟩, ?_, ?_⟩
          · rw [hchain] at h0
            dsimp only at h0
            omega
          · refine ⟨?_, ?_, ?_, ?_⟩
            · rw [hchain]
              dsimp only
              exact hn
            · rw [hchain]
              dsimp only
              omega
            · rw [hchain]
              dsimp only
              exact hminEq
            · rw [hchain]
              dsimp only
              exact hmaxEq
          · intro h0
            rw [hchain] at h0
            dsimp only at h0
            omega
          · intro _
            rw [hchain]
        · -- j is a fresh slot
          by_cases hjL : j = st.nodesUsed ∨ (st.nodesUsed + 2 ≤ j ∧ j < st8.nodesUsed)
          · -- from the left recursion, transferred through the right call
            have hAL := AL j (by
              rcases hjL with hj | hj
              · exact Or.inl hj
              · exact Or.inr (by omega))
            obtain ⟨hfitL, hrangeL, hlowL⟩ := hAL
            have hne1 : j ≠ st.nodesUsed + 1 := by
              rcases hjL with hj | hj <;> omega
            have hjlt8 : j < st8.nodesUsed := by
              rcases hjL with hj | hj <;> omega
            have ej : st'.bvhNode j = st8.bvhNode j :=
              R4 j hne1 (Or.inl hjlt8)
            have htr : ∀ p, F ≤ p → p < F + lc →
                st'.triIdx p = st8.triIdx p := by
              intro p hp1 hp2
              exact R7 p (by omega)
            refine ⟨⟨fun h0 => ?_, fun h0 => ?_⟩, ?_, ?_⟩
            · -- leaf clause
              rw [ej] at h0 ⊢
              have hb8 := hfitL.1 h0
              have hrg := hrangeL h0
              rw [hb8, R1, L1, h7mesh]
              apply BVH.boundsOf_congr
              intro p hp1 hp2
              rw [htr p (by omega) (by omega)]
            · -- interior clause
              rw [ej] at h0 ⊢
              obtain ⟨hi1, hi2, hi3, hi4⟩ := hfitL.2 h0
              have hlow := hlowL h0
              have ec1 : st'.bvhNode (st8.bvhNode j).leftFirst =
                  st8.bvhNode (st8.bvhNode j).leftFirst :=
                R4 _ (by omega) (Or.inl (by omega))
              have ec2 : st'.bvhNode ((st8.bvhNode j).leftFirst + 1) =
                  st8.bvhNode ((st8.bvhNode j).leftFirst + 1) :=
                R4 _ (by omega) (Or.inl (by omega))
              refine ⟨hi1, by omega, ?_, ?_⟩
              · rw [ec1, ec2]
                exact hi3
              · rw [ec1, ec2]
                exact hi4
            · intro h0
              rw [ej] at h0 ⊢
              have := hrangeL h0
              omega
            · intro h0
              rw [ej] at h0 ⊢
              have := hlowL h0
              omega
          · -- from the right recursion
            have hjR : j = st.nodesUsed + 1 ∨
                (st8.nodesUsed ≤ j ∧ j < st'.nodesUsed) := by
              by_cases hj8 : j < st8.nodesUsed
              · left
                omega
              · right
                omega
            have hAR := AR j hjR
            obtain ⟨hfitR, hrangeR, hlowR⟩ := hAR
            refine ⟨hfitR, ?_, ?_⟩
            · intro h0
              have := hrangeR h0
              omega
            · intro h0
              have := hlowR h0
              omega
      · -- the FittedIn derivation
        have hBL : BVH.FittedIn st'
            ({st.nodesUsed} ∪ Set.Ico (st.nodesUsed + 2) st8.nodesUsed)
            st.nodesUsed F lc szL := by
          apply BVH.FittedIn_transfer BL st'
          · rw [R1, L1, h7mesh]
          · intro j hj
            apply R4 j
            · simp only [Set.mem_union, Set.mem_singleton_iff,
                Set.mem_Ico] at hj
              omega
            · simp only [Set.mem_union, Set.mem_singleton_iff,
                Set.mem_Ico] at hj
              left
              omega
          · intro k h1 h2
            exact R7 k (by omega)
        have hsub1 : ({st.nodesUsed} ∪
            Set.Ico (st.nodesUsed + 2) st8.nodesUsed : Set Nat) ⊆
            {n} ∪ Set.Ico st.nodesUsed st'.nodesUsed := by
          intro x hx
          simp only [Set.mem_union, Set.mem_singleton_iff, Set.mem_Ico] at hx ⊢
          right
          rcases hx with hx | hx <;> omega
        have hsub2 : ({st.nodesUsed + 1} ∪
            Set.Ico st8.nodesUsed st'.nodesUsed : Set Nat) ⊆
            {n} ∪ Set.Ico st.nodesUsed st'.nodesUsed := by
          intro x hx
          simp only [Set.mem_union, Set.mem_singleton_iff, Set.mem_Ico] at hx ⊢
          right
          rcases hx with hx | hx <;> omega
        refine ⟨1 + szL + szR, ?_⟩
        have hLfin : BVH.FittedIn st'
            ({n} ∪ Set.Ico st.nodesUsed st'.nodesUsed)
            st.nodesUsed F lc szL := BVH.FittedIn_mono hsub1 hBL
        have hRfin : BVH.FittedIn st'
            ({n} ∪ Set.Ico st.nodesUsed st'.nodesUsed)
            (st.nodesUsed + 1) (F + lc) (C - lc) szR :=
          BVH.FittedIn_mono hsub2 BR
        have hlf' : (st'.bvhNode n).leftFirst = st.nodesUsed := by
          rw [hchain]
        refine BVH.FittedIn.interior n F C lc szL szR ?_ ?_ ?_ hlcpos hlclt
          ?_ ?_ ?_ ?_
        · exact Set.mem_union_left _ rfl
        · rw [hchain]
        · rw [hchain]
          dsimp only
          exact hn
        · rw [hlf']
          exact hLfin
        · rw [hlf']
          exact hRfin
        · rw [hlf', hchain]
          dsimp only
          exact hminEq
        · rw [hlf', hchain]
          dsimp only
          exact hmaxEq

/-! ## Build produces a fitted tree -/

theorem BVH.build_fitted (m : Mesh) (st' : BVH) (h : BVH.build m = some st')
    (hm : 1 ≤ m.triCount) :
    (∀ j, j < st'.nodesUsed → j ≠ 1 → BVH.NodeFit st' j) ∧
    (∃ size, BVH.FittedIn st' ({0} ∪ Set.Ico 2 st'.nodesUsed) 0 0
      m.triCount size) := by
  unfold BVH.build BVH.buildS at h
  have hroot := BVH.buildSetup_root (BVH.mk0 m)
  have hmc : (BVH.mk0 m).mesh.triCount = m.triCount := rfl
  have hfd := BVH.subdivideF_fitted ((BVH.buildSetup (BVH.mk0 m)).mesh.triCount + 1)
    (BVH.buildSetup (BVH.mk0 m)) 0 st'
    (by rw [BVH.buildSetup_nodesUsed]; omega) h
    (by rw [hroot]; dsimp only; rw [hmc]; omega)
    (by rw [hroot])
  rw [hroot] at hfd
  dsimp only at hfd
  rw [BVH.buildSetup_nodesUsed, hmc] at hfd
  obtain ⟨hA, hB⟩ := hfd
  constructor
  · intro j hj hj1
    rcases Nat.eq_zero_or_pos j with hj0 | hjpos
    · exact (hA j (Or.inl hj0)).1
    · exact (hA j (Or.inr ⟨by omega, hj⟩)).1
  · exact hB

/-! ## Refit -/

theorem BVH.setNode_self (st : BVH) (i : Nat) :
    st.setNode i (st.bvhNode i) = st := by
  unfold BVH.setNode
  rw [Function.update_eq_self i st.bvhNode]

/-- `refitStep` written without `let` bindings. -/
theorem BVH.refitStep_eq (st : BVH) (i : Nat) :
    BVH.refitStep st i =
      if i = 1 then st
      else if (st.bvhNode i).isLeaf then st.UpdateNodeBounds i
      else st.setNode i { st.bvhNode i with
        aabbMin := float3.fminf (st.bvhNode (st.bvhNode i).leftFirst).aabbMin
          (st.bvhNode ((st.bvhNode i).leftFirst + 1)).aabbMin,
        aabbMax := float3.fmaxf (st.bvhNode (st.bvhNode i).leftFirst).aabbMax
          (st.bvhNode ((st.bvhNode i).leftFirst + 1)).aabbMax } := rfl

/-- `UpdateNodeBounds` written without `let` bindings. -/
theorem BVH.UpdateNodeBounds_eq (st : BVH) (i : Nat) :
    st.UpdateNodeBounds i = st.setNode i { st.bvhNode i with
      aabbMin := (BVH.boundsOf st.mesh.tri st.triIdx
        (st.bvhNode i).leftFirst (st.bvhNode i).triCount).1,
      aabbMax := (BVH.boundsOf st.mesh.tri st.triIdx
        (st.bvhNode i).leftFirst (st.bvhNode i).triCount).2 } := rfl

theorem BVH.refitStep_eq_of_fit (st : BVH) (i : Nat)
    (hfit : BVH.NodeFit st i) : BVH.refitStep st i = st := by
  rw [BVH.refitStep_eq]
  split_ifs with h1 hleaf
  · rfl
  · have hb := hfit.1 (of_decide_eq_true hleaf)
    rw [BVH.UpdateNodeBounds_eq, ← hb]
    exact BVH.setNode_self st i
  · have h0 : (st.bvhNode i).triCount = 0 := by
      have := of_decide_eq_false ((Bool.not_eq_true _).mp hleaf)
      omega
    obtain ⟨hlt, hlt2, hmin, hmax⟩ := hfit.2 h0
    rw [← hmin, ← hmax]
    exact BVH.setNode_self st i

theorem BVH.refitStep_frame (st : BVH) (i : Nat) :
    (BVH.refitStep st i).mesh = st.mesh ∧
    (BVH.refitStep st i).triIdx = st.triIdx ∧
    (BVH.refitStep st i).nodesUsed = st.nodesUsed ∧
    (∀ j, ((BVH.refitStep st i).bvhNode j).leftFirst =
        (st.bvhNode j).leftFirst ∧
      ((BVH.refitStep st i).bvhNode j).triCount = (st.bvhNode j).triCount) ∧
    (∀ j, j ≠ i → (BVH.refitStep st i).bvhNode j = st.bvhNode j) := by
  rw [BVH.refitStep_eq]
  split_ifs with h1 hleaf
  · exact ⟨rfl, rfl, rfl, fun j => ⟨rfl, rfl⟩, fun j _ => rfl⟩
  · refine ⟨BVH.UpdateNodeBounds_mesh st i, BVH.UpdateNodeBounds_triIdx st i,
      BVH.UpdateNodeBounds_nodesUsed st i, ?_, fun j hj =>
        BVH.UpdateNodeBounds_ne st i j hj⟩
    intro j
    by_cases hji : j = i
    · subst hji
      rw [BVH.UpdateNodeBounds_same]
      exact ⟨rfl, rfl⟩
    · rw [BVH.UpdateNodeBounds_ne st i j hji]
      exact ⟨rfl, rfl⟩
  · refine ⟨BVH.setNode_mesh _ _ _, BVH.setNode_triIdx _ _ _,
      BVH.setNode_nodesUsed _ _ _, ?_, fun j hj => BVH.setNode_ne _ _ _ j hj⟩
    intro j
    by_cases hji : j = i
    · subst hji
      rw [BVH.setNode_same]
      exact ⟨rfl, rfl⟩
    · rw [BVH.setNode_ne _ _ _ j hji]
      exact ⟨rfl, rfl⟩

theorem BVH.refitFold_frame (l : List Nat) :
    ∀ (st : BVH),
    (l.foldl BVH.refitStep st).mesh = st.mesh ∧
    (l.foldl BVH.refitStep st).triIdx = st.triIdx ∧
    (l.foldl BVH.refitStep st).nodesUsed = st.nodesUsed ∧
    (∀ j, ((l.foldl BVH.refitStep st).bvhNode j).leftFirst =
        (st.bvhNode j).leftFirst ∧
      ((l.foldl BVH.refitStep st).bvhNode j).triCount =
        (st.bvhNode j).triCount) := by
  induction l with
  | nil => exact fun st => ⟨rfl, rfl, rfl, fun j => ⟨rfl, rfl⟩⟩
  | cons x xs ih =>
    intro st
    rw [List.foldl_cons]
    obtain ⟨s1, s2, s3, s4, _⟩ := BVH.refitStep_frame st x
    obtain ⟨t1, t2, t3, t4⟩ := ih (BVH.refitStep st x)
    refine ⟨t1.trans s1, t2.trans s2, t3.trans s3, ?_⟩
    intro j
    obtain ⟨u1, u2⟩ := t4 j
    obtain ⟨v1, v2⟩ := s4 j
    exact ⟨u1.trans v1, u2.trans v2⟩

theorem foldl_fixed {α : Type} {β : Type} (g : α → β → α) (l : List β) (a : α)
    (h : ∀ b, b ∈ l → g a b = a) : l.foldl g a = a := by
  induction l with
  | nil => rfl
  | cons x xs ih =>
    rw [List.foldl_cons, h x (by simp)]
    exact ih (fun b hb => h b (by simp [hb]))

theorem BVH.Refit_frame (st : BVH) :
    st.Refit.mesh = st.mesh ∧
    st.Refit.triIdx = st.triIdx ∧
    st.Refit.nodesUsed = st.nodesUsed ∧
    (∀ j, (st.Refit.bvhNode j).leftFirst = (st.bvhNode j).leftFirst ∧
      (st.Refit.bvhNode j).triCount = (st.bvhNode j).triCount) :=
  BVH.refitFold_frame (List.range st.nodesUsed).reverse st

theorem BVH.Refit_eq_of_allfit (st : BVH)
    (hfits : ∀ j, j < st.nodesUsed → j ≠ 1 → BVH.NodeFit st j) :
    st.Refit = st := by
  unfold BVH.Refit
  apply foldl_fixed
  intro i hi
  rw [List.mem_reverse, List.mem_range] at hi
  by_cases h1 : i = 1
  · subst h1
    rw [BVH.refitStep_eq, if_pos rfl]
  · exact BVH.refitStep_eq_of_fit st i (hfits i hi h1)

theorem BVH.buildSetup_empty_root (m : Mesh) (h0 : m.triCount = 0) :
    (BVH.buildSetup (BVH.mk0 m)).bvhNode 0 =
      BVHNode.mk (float3.splat BIG) (float3.splat (-BIG)) 0 0 := by
  have hroot := BVH.buildSetup_root (BVH.mk0 m)
  have hT : (BVH.mk0 m).mesh.triCount = m.triCount := rfl
  rw [hT, h0] at hroot
  rw [hroot]
  rfl

theorem BVH.Refit_empty (st : BVH) (hU : st.nodesUsed = 2)
    (h0 : st.bvhNode 0 = BVHNode.mk (float3.splat BIG) (float3.splat (-BIG)) 0 0)
    (h1 : st.bvhNode 1 = BVHNode.mk ⟨0, 0, 0⟩ ⟨0, 0, 0⟩ 0 0) :
    st.Refit = st.setNode 0 (BVHNode.mk ⟨0, 0, 0⟩ ⟨0, 0, 0⟩ 0 0) := by
  unfold BVH.Refit
  rw [hU]
  rw [show (List.range 2).reverse = [1, 0] from rfl]
  rw [List.foldl_cons, List.foldl_cons, List.foldl_nil]
  rw [show BVH.refitStep st 1 = st from by rw [BVH.refitStep_eq, if_pos rfl]]
  rw [BVH.refitStep_eq]
  rw [if_neg (by omega)]
  rw [h0]
  rw [if_neg (by
    show ¬ ((BVHNode.mk (float3.splat BIG) (float3.splat (-BIG)) 0 0).isLeaf
      = true)
    unfold BVHNode.isLeaf
    norm_num)]
  rw [show (BVHNode.mk (float3.splat BIG) (float3.splat (-BIG)) 0 0).leftFirst
    = 0 from rfl]
  rw [show (0 : Nat) + 1 = 1 from rfl]
  rw [h0, h1]
  congr 1
  show BVHNode.mk
      (float3.fminf (float3.splat BIG) ⟨0, 0, 0⟩)
      (float3.fmaxf (float3.splat (-BIG)) ⟨0, 0, 0⟩) 0 0 =
    BVHNode.mk ⟨0, 0, 0⟩ ⟨0, 0, 0⟩ 0 0
  unfold float3.fminf float3.fmaxf float3.splat BIG
  simp only [BVHNode.mk.injEq, float3.mk.injEq]
  norm_num [min_def, max_def]

/-- Claim C6 counterexample: on a 0-triangle mesh the build completes, but
refitting immediately after building changes the root AABB: the inverted
root box `(+1e30, -1e30)` is replaced by `fminf`/`fmaxf` of slot 0 itself
and the untouched slot 1, giving `(0,0,0)`–`(0,0,0)`. -/
theorem c6_counterexample :
    BVH.build mesh0 = some stEmpty ∧
    (stEmpty.Refit.bvhNode 0).aabbMin ≠ (stEmpty.bvhNode 0).aabbMin := by
  have h1 : BVH.build mesh0 = some stEmpty := by rw [mesh0_build, stEmpty_eq]
  refine ⟨h1, ?_⟩
  have hr := BVH.Refit_empty stEmpty
    (by rw [stEmpty_eq, BVH.buildSetup_nodesUsed]) stEmpty_root
    (by rw [stEmpty_node1]; rfl)
  rw [hr, BVH.setNode_same, stEmpty_root]
  show (⟨0, 0, 0⟩ : float3) ≠ float3.splat BIG
  unfold float3.splat BIG
  simp only [float3.mk.injEq, ne_eq]
  norm_num

/-- Claim C6 (amended): for every mesh with at least one triangle,
building and then refitting with the mesh unchanged is the identity on
the whole BVH state — in particular every node's AABB is unchanged.  (For
the 0-triangle mesh this fails: see the counterexample.) -/
theorem c6_build_refit_identity (m : Mesh) (st : BVH)
    (h : BVH.build m = some st) (hm : 1 ≤ m.triCount) :
    st.Refit = st :=
  BVH.Refit_eq_of_allfit st (BVH.build_fitted m st h hm).1

theorem c6_build_refit_identity_witness :
    ((BVH.build mesh1).get (BVH.build_total mesh1)).Refit =
      (BVH.build mesh1).get (BVH.build_total mesh1) :=
  c6_build_refit_identity mesh1 ((BVH.build mesh1).get (BVH.build_total mesh1))
    (Option.some_get (BVH.build_total mesh1)).symm (by decide)

/-- Claim C5: `BVH::Refit` preserves topology on every built BLAS — the
`triIdx` array and every node's `leftFirst`/`triCount` are unchanged
(along with the mesh and `nodesUsed`) — and the walk (reverse index
order, skipping slot 1) leaves every walked leaf fitted to its triangle
slice and every walked interior node's AABB equal to the componentwise
`fminf`/`fmaxf` of its two children. -/
theorem c5_refit_topology (m : Mesh) (st : BVH) (h : BVH.build m = some st) :
    st.Refit.mesh = st.mesh ∧
    st.Refit.triIdx = st.triIdx ∧
    st.Refit.nodesUsed = st.nodesUsed ∧
    (∀ j, (st.Refit.bvhNode j).leftFirst = (st.bvhNode j).leftFirst ∧
      (st.Refit.bvhNode j).triCount = (st.bvhNode j).triCount) ∧
    (∀ j, j < st.nodesUsed → j ≠ 1 → 0 < (st.bvhNode j).triCount →
      ((st.Refit.bvhNode j).aabbMin, (st.Refit.bvhNode j).aabbMax) =
        BVH.boundsOf st.Refit.mesh.tri st.Refit.triIdx
          (st.bvhNode j).leftFirst (st.bvhNode j).triCount) ∧
    (∀ j, j < st.nodesUsed → j ≠ 1 → (st.bvhNode j).triCount = 0 →
      (st.Refit.bvhNode j).aabbMin =
        float3.fminf (st.Refit.bvhNode (st.bvhNode j).leftFirst).aabbMin
          (st.Refit.bvhNode ((st.bvhNode j).leftFirst + 1)).aabbMin ∧
      (st.Refit.bvhNode j).aabbMax =
        float3.fmaxf (st.Refit.bvhNode (st.bvhNode j).leftFirst).aabbMax
          (st.Refit.bvhNode ((st.bvhNode j).leftFirst + 1)).aabbMax) := by
  obtain ⟨f1, f2, f3, f4⟩ := BVH.Refit_frame st
  rcases Nat.eq_zero_or_pos m.triCount with h0 | hm
  · have hst : st = BVH.buildSetup (BVH.mk0 m) := by
      have hbe := BVH.build_empty m h0
      rw [hbe] at h
      exact (Option.some_inj.mp h).symm
    have hU : st.nodesUsed = 2 := by rw [hst, BVH.buildSetup_nodesUsed]
    have hr0 : st.bvhNode 0 =
        BVHNode.mk (float3.splat BIG) (float3.splat (-BIG)) 0 0 := by
      rw [hst]
      exact BVH.buildSetup_empty_root m h0
    have hr1 : st.bvhNode 1 = BVHNode.mk ⟨0, 0, 0⟩ ⟨0, 0, 0⟩ 0 0 := by
      rw [hst, BVH.buildSetup_node_ne _ 1 (by omega)]
      rfl
    have hr := BVH.Refit_empty st hU hr0 hr1
    refine ⟨f1, f2, f3, f4, ?_, ?_⟩
    · intro j hj hj1 hjpos
      have hj0 : j = 0 := by omega
      subst hj0
      rw [hr0] at hjpos
      exact absurd (show (0 : Nat) < 0 from hjpos) (by omega)
    · intro j hj hj1 hj0arg
      have hj0 : j = 0 := by omega
      subst hj0
      rw [hr, BVH.setNode_same, hr0]
      rw [show (BVHNode.mk (float3.splat BIG) (float3.splat (-BIG)) 0
        0).leftFirst = 0 from rfl]
      rw [show (0 : Nat) + 1 = 1 from rfl]
      rw [BVH.setNode_same, BVH.setNode_ne _ _ _ 1 (by omega), hr1]
      constructor
      · show (⟨0, 0, 0⟩ : float3) = float3.fminf ⟨0, 0, 0⟩ ⟨0, 0, 0⟩
        unfold float3.fminf
        norm_num
      · show (⟨0, 0, 0⟩ : float3) = float3.fmaxf ⟨0, 0, 0⟩ ⟨0, 0, 0⟩
        unfold float3.fmaxf
        norm_num
  · have hid : st.Refit = st :=
      BVH.Refit_eq_of_allfit st (BVH.build_fitted m st h hm).1
    refine ⟨f1, f2, f3, f4, ?_, ?_⟩
    · intro j hj hj1 hjpos
      rw [hid]
      exact ((BVH.build_fitted m st h hm).1 j hj hj1).1 hjpos
    · intro j hj hj1 hj0
      rw [hid]
      obtain ⟨_, _, hmin, hmax⟩ :=
        ((BVH.build_fitted m st h hm).1 j hj hj1).2 hj0
      exact ⟨hmin, hmax⟩

theorem c5_refit_topology_witness :
    ((BVH.build mesh1).get (BVH.build_total mesh1)).Refit.triIdx =
      ((BVH.build mesh1).get (BVH.build_total mesh1)).triIdx :=
  (c5_refit_topology mesh1 ((BVH.build mesh1).get (BVH.build_total mesh1))
    (Option.some_get (BVH.build_total mesh1)).symm).2.1

/-! ## `IntersectTri` through `candidate` -/

theorem IntersectTri_eq_candidate (r : Ray) (tri : Tri) (ip : Nat) :
    IntersectTri r tri ip =
      match candidate r.O r.D tri with
      | none => r
      | some c =>
          if c.1 < r.hit.t then { r with hit := ⟨c.1, c.2.1, c.2.2, ip⟩ }
          else r := by
  have key : IntersectTri r tri ip =
      if |MT.mtA r.D tri| < 0.00001 then r
      else if MT.mtU r.O r.D tri < 0 ∨ MT.mtU r.O r.D tri > 1 then r
      else if MT.mtV r.O r.D tri < 0 ∨
          MT.mtU r.O r.D tri + MT.mtV r.O r.D tri > 1 then r
      else if MT.mtT r.O r.D tri > 0.0001 ∧ MT.mtT r.O r.D tri < r.hit.t then
        { r with hit := ⟨MT.mtT r.O r.D tri, MT.mtU r.O r.D tri,
            MT.mtV r.O r.D tri, ip⟩ }
      else r := rfl
  rw [key]
  unfold candidate
  by_cases h1 : |MT.mtA r.D tri| < 0.00001
  · rw [if_pos h1, if_pos h1]
  · rw [if_neg h1, if_neg h1]
    by_cases h2 : MT.mtU r.O r.D tri < 0 ∨ MT.mtU r.O r.D tri > 1
    · rw [if_pos h2, if_pos h2]
    · rw [if_neg h2, if_neg h2]
      by_cases h3 : MT.mtV r.O r.D tri < 0 ∨
          MT.mtU r.O r.D tri + MT.mtV r.O r.D tri > 1
      · rw [if_pos h3, if_pos h3]
      · rw [if_neg h3, if_neg h3]
        by_cases h4 : MT.mtT r.O r.D tri > 0.0001
        · rw [if_pos h4]
          by_cases h5 : MT.mtT r.O r.D tri < r.hit.t
          · rw [if_pos ⟨h4, h5⟩]
            show _ = if _ < r.hit.t then _ else _
            rw [if_pos h5]
          · rw [if_neg (fun hand => h5 hand.2)]
            show _ = if _ < r.hit.t then _ else _
            rw [if_neg h5]
        · rw [if_neg h4, if_neg (fun hand => h4 hand.1)]

theorem IntersectTri_O (r : Ray) (tri : Tri) (ip : Nat) :
    (IntersectTri r tri ip).O = r.O := by
  rw [IntersectTri_eq_candidate]
  cases hc : candidate r.O r.D tri
  · rfl
  · dsimp only
    split_ifs <;> rfl

theorem IntersectTri_D (r : Ray) (tri : Tri) (ip : Nat) :
    (IntersectTri r tri ip).D = r.D := by
  rw [IntersectTri_eq_candidate]
  cases hc : candidate r.O r.D tri
  · rfl
  · dsimp only
    split_ifs <;> rfl

theorem IntersectTri_rD (r : Ray) (tri : Tri) (ip : Nat) :
    (IntersectTri r tri ip).rD = r.rD := by
  rw [IntersectTri_eq_candidate]
  cases hc : candidate r.O r.D tri
  · rfl
  · dsimp only
    split_ifs <;> rfl

theorem IntersectTri_hit_t (r : Ray) (tri : Tri) (ip : Nat) :
    (IntersectTri r tri ip).hit.t =
      match candidate r.O r.D tri with
      | some c => if c.1 < r.hit.t then c.1 else r.hit.t
      | none => r.hit.t := by
  rw [IntersectTri_eq_candidate]
  cases hc : candidate r.O r.D tri
  · rfl
  · dsimp only
    split_ifs <;> rfl

theorem IntersectTri_record (r : Ray) (tri : Tri) (ip : Nat) :
    (IntersectTri r tri ip).hit = r.hit ∨
    ∃ c, candidate r.O r.D tri = some c ∧ c.1 < r.hit.t ∧
      (IntersectTri r tri ip).hit = ⟨c.1, c.2.1, c.2.2, ip⟩ := by
  rw [IntersectTri_eq_candidate]
  cases hc : candidate r.O r.D tri with
  | none => exact Or.inl rfl
  | some c =>
    dsimp only
    split_ifs with h
    · exact Or.inr ⟨c, rfl, h, rfl⟩
    · exact Or.inl rfl

/-- `IntersectTri` reads only the vertices, never the cached centroid. -/
theorem IntersectTri_centroid (r : Ray) (tri : Tri) (c : float3) (ip : Nat) :
    IntersectTri r { tri with centroid := c } ip = IntersectTri r tri ip := rfl

theorem candidate_centroid (O D : float3) (tri : Tri) (c : float3) :
    candidate O D { tri with centroid := c } = candidate O D tri := rfl

/-! ## The `scanItems` fold -/

theorem bruteForceMesh_eq_scan (m : Mesh) (inst : Nat) (r : Ray) :
    bruteForceMesh m inst r = scanItems m inst r (List.range m.triCount) := rfl

theorem scanItems_O (m : Mesh) (inst : Nat) (l : List Nat) :
    ∀ r, (scanItems m inst r l).O = r.O := by
  induction l with
  | nil => exact fun r => rfl
  | cons j l ih =>
    intro r
    rw [scanItems, List.foldl_cons, ← scanItems]
    rw [ih, IntersectTri_O]

theorem scanItems_D (m : Mesh) (inst : Nat) (l : List Nat) :
    ∀ r, (scanItems m inst r l).D = r.D := by
  induction l with
  | nil => exact fun r => rfl
  | cons j l ih =>
    intro r
    rw [scanItems, List.foldl_cons, ← scanItems]
    rw [ih, IntersectTri_D]

theorem scanItems_rD (m : Mesh) (inst : Nat) (l : List Nat) :
    ∀ r, (scanItems m inst r l).rD = r.rD := by
  induction l with
  | nil => exact fun r => rfl
  | cons j l ih =>
    intro r
    rw [scanItems, List.foldl_cons, ← scanItems]
    rw [ih, IntersectTri_rD]

theorem scanItems_append (m : Mesh) (inst : Nat) (r : Ray) (l1 l2 : List Nat) :
    scanItems m inst r (l1 ++ l2) = scanItems m inst (scanItems m inst r l1) l2 := by
  unfold scanItems
  rw [List.foldl_append]

theorem scanItems_hit_t (m : Mesh) (inst : Nat) (l : List Nat) :
    ∀ r, (scanItems m inst r l).hit.t = bestT m r.O r.D r.hit.t l := by
  induction l with
  | nil => exact fun r => rfl
  | cons j l ih =>
    intro r
    rw [bestT, List.foldl_cons, ← bestT]
    rw [scanItems, List.foldl_cons, ← scanItems]
    rw [ih, IntersectTri_O, IntersectTri_D, IntersectTri_hit_t]

theorem bestT_append (m : Mesh) (O D : float3) (t0 : ℚ) (l1 l2 : List Nat) :
    bestT m O D t0 (l1 ++ l2) = bestT m O D (bestT m O D t0 l1) l2 := by
  unfold bestT
  rw [List.foldl_append]

theorem bestT_perm (m : Mesh) (O D : float3) (t0 : ℚ) {l l' : List Nat}
    (hp : List.Perm l l') : bestT m O D t0 l = bestT m O D t0 l' := by
  unfold bestT
  refine hp.foldl_eq' ?_ t0
  intro x _ y _ z
  rcases hc1 : candidate O D (m.tri x) with _ | c1 <;>
    rcases hc2 : candidate O D (m.tri y) with _ | c2 <;>
      dsimp only <;> split_ifs <;> first | rfl | linarith

theorem bestT_le_init (m : Mesh) (O D : float3) (l : List Nat) :
    ∀ t0, bestT m O D t0 l ≤ t0 := by
  induction l with
  | nil => exact fun t0 => le_refl t0
  | cons j l ih =>
    intro t0
    rw [bestT, List.foldl_cons, ← bestT]
    refine (ih _).trans ?_
    rcases hc : candidate O D (m.tri j) with _ | c
    · exact le_refl t0
    · dsimp only
      split_ifs with h
      · linarith
      · exact le_refl t0

theorem bestT_le_of_mem (m : Mesh) (O D : float3) (l : List Nat) :
    ∀ t0 j c, j ∈ l → candidate O D (m.tri j) = some c →
      bestT m O D t0 l ≤ c.1 := by
  induction l with
  | nil => intro t0 j c hj; exact absurd hj (List.not_mem_nil j)
  | cons x l ih =>
    intro t0 j c hj hc
    rw [bestT, List.foldl_cons, ← bestT]
    rcases List.mem_cons.mp hj with hj | hj
    · subst hj
      refine (bestT_le_init m O D l _).trans ?_
      rw [hc]
      dsimp only
      split_ifs with h
      · exact le_refl _
      · linarith
    · exact ih _ j c hj hc

theorem bestT_drop (m : Mesh) (O D : float3) (l : List Nat) :
    ∀ t0, (∀ j ∈ l, ∀ c, candidate O D (m.tri j) = some c → t0 ≤ c.1) →
      bestT m O D t0 l = t0 := by
  induction l with
  | nil => exact fun t0 _ => rfl
  | cons x l ih =>
    intro t0 h
    rw [bestT, List.foldl_cons, ← bestT]
    have hx : (match candidate O D (m.tri x) with
        | some c => if c.1 < t0 then c.1 else t0
        | none => t0) = t0 := by
      rcases hc : candidate O D (m.tri x) with _ | c
      · rfl
      · dsimp only
        rw [if_neg (by have := h x (by simp) c hc; linarith)]
    rw [hx]
    exact ih t0 (fun j hj c hc => h j (by simp [hj]) c hc)

theorem HitFrom_t_le {m : Mesh} {inst : Nat} {O D : float3} {h0 h : Hit}
    (hh : HitFrom m inst O D h0 h) : h.t ≤ h0.t := by
  rcases hh with rfl | ⟨hlt, _⟩
  · exact le_refl _
  · exact le_of_lt hlt

theorem HitFrom_refl (m : Mesh) (inst : Nat) (O D : float3) (h0 : Hit) :
    HitFrom m inst O D h0 h0 := Or.inl rfl

theorem scanItems_HitFrom (m : Mesh) (inst : Nat) (l : List Nat) :
    ∀ (r : Ray) (h0 : Hit), (∀ j ∈ l, j < m.triCount) →
      HitFrom m inst r.O r.D h0 r.hit →
      HitFrom m inst r.O r.D h0 (scanItems m inst r l).hit := by
  induction l with
  | nil => exact fun r h0 _ hr => hr
  | cons j l ih =>
    intro r h0 hsub hr
    rw [scanItems, List.foldl_cons, ← scanItems]
    have hO := IntersectTri_O r (m.tri j) (inst * 2 ^ 20 + j)
    have hD := IntersectTri_D r (m.tri j) (inst * 2 ^ 20 + j)
    have step : HitFrom m inst r.O r.D h0
        (IntersectTri r (m.tri j) (inst * 2 ^ 20 + j)).hit := by
      rcases IntersectTri_record r (m.tri j) (inst * 2 ^ 20 + j) with
        h | ⟨c, hc, hlt, hrec⟩
      · rw [h]
        exact hr
      · right
        refine ⟨?_, j, hsub j (by simp), ?_, by rw [hrec]⟩
        · rw [hrec]
          exact lt_of_lt_of_le hlt (HitFrom_t_le hr)
        · rw [hrec]
          exact hc
    have := ih (IntersectTri r (m.tri j) (inst * 2 ^ 20 + j)) h0
      (fun p hp => hsub p (by simp [hp]))
      (by rw [hO, hD]; exact step)
    rw [hO, hD] at this
    exact this

/-! ## Geometry: the Möller–Trumbore point identity, box enclosure and
the slab test -/

/-- Cramer identity behind Möller–Trumbore: the candidate point `O + tD`
is the barycentric combination of the triangle's vertices. -/
theorem MT.point_eq (O D : float3) (tri : Tri) (ha : MT.mtA D tri ≠ 0) :
    O + D.smul (MT.mtT O D tri) =
      tri.vertex0.smul (1 - MT.mtU O D tri - MT.mtV O D tri) +
        (tri.vertex1.smul (MT.mtU O D tri) + tri.vertex2.smul (MT.mtV O D tri)) := by
  obtain ⟨ox, oy, oz⟩ := O
  obtain ⟨dx, dy, dz⟩ := D
  obtain ⟨⟨ax, ay, az⟩, ⟨bx, b2, bz⟩, ⟨cx, cy, cz⟩, cen⟩ := tri
  simp only [MT.mtT, MT.mtU, MT.mtV, MT.mtA, float3.dot, float3.cross,
    float3.sub_def, float3.smul_def, float3.add_def] at ha ⊢
  simp only [float3.mk.injEq]
  refine ⟨?_, ?_, ?_⟩ <;>
    · field_simp
      ring
  
theorem candidate_some {O D : float3} {tri : Tri} {c : ℚ × ℚ × ℚ}
    (hc : candidate O D tri = some c) :
    MT.mtA D tri ≠ 0 ∧
    c = (MT.mtT O D tri, MT.mtU O D tri, MT.mtV O D tri) ∧
    0 ≤ c.2.1 ∧ 0 ≤ c.2.2 ∧ c.2.1 + c.2.2 ≤ 1 ∧ 0.0001 < c.1 := by
  unfold candidate at hc
  dsimp only at hc
  split_ifs at hc with h1 h2 h3 h4
  have hcc := Option.some.inj hc
  push_neg at h2 h3
  have hane : MT.mtA D tri ≠ 0 := by
    intro h0
    rw [h0, abs_zero] at h1
    norm_num at h1
  have e1 : c.1 = MT.mtT O D tri := by rw [← hcc]
  have e2 : c.2.1 = MT.mtU O D tri := by rw [← hcc]
  have e3 : c.2.2 = MT.mtV O D tri := by rw [← hcc]
  refine ⟨hane, hcc.symm, ?_, ?_, ?_, ?_⟩
  · rw [e2]; exact h2.1
  · rw [e3]; exact h3.1
  · rw [e2, e3]; exact h3.2
  · rw [e1]; exact h4

theorem convex_coord_bound (p a b c u v lo hi : ℚ) (hu : 0 ≤ u) (hv : 0 ≤ v)
    (huv : u + v ≤ 1) (hp : p = a * (1 - u - v) + (b * u + c * v))
    (hla : lo ≤ a) (hlb : lo ≤ b) (hlc : lo ≤ c)
    (hha : a ≤ hi) (hhb : b ≤ hi) (hhc : c ≤ hi) :
    lo ≤ p ∧ p ≤ hi := by
  subst hp
  have w1 : 0 ≤ (a - lo) * (1 - u - v) := mul_nonneg (by linarith) (by linarith)
  have w2 : 0 ≤ (b - lo) * u := mul_nonneg (by linarith) hu
  have w3 : 0 ≤ (c - lo) * v := mul_nonneg (by linarith) hv
  have w4 : 0 ≤ (hi - a) * (1 - u - v) := mul_nonneg (by linarith) (by linarith)
  have w5 : 0 ≤ (hi - b) * u := mul_nonneg (by linarith) hu
  have w6 : 0 ≤ (hi - c) * v := mul_nonneg (by linarith) hv
  constructor <;> nlinarith [w1, w2, w3, w4, w5, w6]

theorem candidate_point_in_box (O D : float3) (tri : Tri) (c : ℚ × ℚ × ℚ)
    (hc : candidate O D tri = some c) (bmin bmax : float3)
    (h0l : le3 bmin tri.vertex0) (h0h : le3 tri.vertex0 bmax)
    (h1l : le3 bmin tri.vertex1) (h1h : le3 tri.vertex1 bmax)
    (h2l : le3 bmin tri.vertex2) (h2h : le3 tri.vertex2 bmax) :
    le3 bmin (O + D.smul c.1) ∧ le3 (O + D.smul c.1) bmax := by
  obtain ⟨hane, hcf, hu, hv, huv, ht⟩ := candidate_some hc
  have hpt := MT.point_eq O D tri hane
  have e1 : c.1 = MT.mtT O D tri := by rw [hcf]
  have e2 : c.2.1 = MT.mtU O D tri := by rw [hcf]
  have e3 : c.2.2 = MT.mtV O D tri := by rw [hcf]
  rw [e2] at hu
  rw [e3] at hv
  rw [e2, e3] at huv
  have hx : O.x + D.x * MT.mtT O D tri =
      tri.vertex0.x * (1 - MT.mtU O D tri - MT.mtV O D tri) +
        (tri.vertex1.x * MT.mtU O D tri + tri.vertex2.x * MT.mtV O D tri) :=
    congrArg float3.x hpt
  have hy : O.y + D.y * MT.mtT O D tri =
      tri.vertex0.y * (1 - MT.mtU O D tri - MT.mtV O D tri) +
        (tri.vertex1.y * MT.mtU O D tri + tri.vertex2.y * MT.mtV O D tri) :=
    congrArg float3.y hpt
  have hz : O.z + D.z * MT.mtT O D tri =
      tri.vertex0.z * (1 - MT.mtU O D tri - MT.mtV O D tri) +
        (tri.vertex1.z * MT.mtU O D tri + tri.vertex2.z * MT.mtV O D tri) :=
    congrArg float3.z hpt
  rw [e1]
  have bx := convex_coord_bound _ _ _ _ _ _ bmin.x bmax.x hu hv huv hx
    h0l.1 h1l.1 h2l.1 h0h.1 h1h.1 h2h.1
  have bony := convex_coord_bound _ _ _ _ _ _ bmin.y bmax.y hu hv huv hy
    h0l.2.1 h1l.2.1 h2l.2.1 h0h.2.1 h1h.2.1 h2h.2.1
  have bz := convex_coord_bound _ _ _ _ _ _ bmin.z bmax.z hu hv huv hz
    h0l.2.2 h1l.2.2 h2l.2.2 h0h.2.2 h1h.2.2 h2h.2.2
  exact ⟨⟨bx.1, bony.1, bz.1⟩, ⟨bx.2, bony.2, bz.2⟩⟩

theorem slab_axis (o d lo hi t : ℚ) (hd : d ≠ 0)
    (hlo : lo ≤ o + d * t) (hhi : o + d * t ≤ hi) :
    min ((lo - o) * (1 / d)) ((hi - o) * (1 / d)) ≤ t ∧
    t ≤ max ((lo - o) * (1 / d)) ((hi - o) * (1 / d)) := by
  have hdd : d * (1 / d) = 1 := mul_one_div_cancel hd
  have hdt : d * t * (1 / d) = t := by
    rw [mul_comm d t, mul_assoc, hdd, mul_one]
  rcases lt_or_gt_of_ne hd with h | h
  · have hd1 : 1 / d < 0 := by
      rw [one_div_neg]
      exact h
    have hp1 : (hi - (o + d * t)) * (1 / d) ≤ 0 :=
      mul_nonpos_of_nonneg_of_nonpos (by linarith) (le_of_lt hd1)
    have hp2 : (o + d * t - lo) * (1 / d) ≤ 0 :=
      mul_nonpos_of_nonneg_of_nonpos (by linarith) (le_of_lt hd1)
    have h1 : (hi - o) * (1 / d) ≤ t := by nlinarith [hp1, hdt]
    have h2 : t ≤ (lo - o) * (1 / d) := by nlinarith [hp2, hdt]
    exact ⟨le_trans (min_le_right _ _) h1, le_trans h2 (le_max_left _ _)⟩
  · have hd1 : 0 < 1 / d := one_div_pos.mpr h
    have hp1 : 0 ≤ (hi - (o + d * t)) * (1 / d) :=
      mul_nonneg (by linarith) (le_of_lt hd1)
    have hp2 : 0 ≤ (o + d * t - lo) * (1 / d) :=
      mul_nonneg (by linarith) (le_of_lt hd1)
    have h1 : (lo - o) * (1 / d) ≤ t := by nlinarith [hp2, hdt]
    have h2 : t ≤ (hi - o) * (1 / d) := by nlinarith [hp1, hdt]
    exact ⟨le_trans (min_le_left _ _) h1, le_trans h2 (le_max_right _ _)⟩

/-- When the segment parameter `t` of a point inside the box satisfies
`0 < t < ray.hit.t ≤ 1e30`, the slab test cannot return the miss
sentinel. -/
theorem IntersectAABB_lt_BIG (r : Ray) (bmin bmax : float3) (t : ℚ)
    (hDx : r.D.x ≠ 0) (hDy : r.D.y ≠ 0) (hDz : r.D.z ≠ 0)
    (hrD : r.rD = float3.recip r.D)
    (ht0 : 0 < t) (htt : t < r.hit.t) (htB : r.hit.t ≤ BIG)
    (hlo : le3 bmin (r.O + r.D.smul t)) (hhi : le3 (r.O + r.D.smul t) bmax) :
    IntersectAABB r bmin bmax < BIG := by
  have hrx : r.rD.x = 1 / r.D.x := by rw [hrD]; rfl
  have hry : r.rD.y = 1 / r.D.y := by rw [hrD]; rfl
  have hrz : r.rD.z = 1 / r.D.z := by rw [hrD]; rfl
  have hx := slab_axis r.O.x r.D.x bmin.x bmax.x t hDx hlo.1 hhi.1
  have hy := slab_axis r.O.y r.D.y bmin.y bmax.y t hDy hlo.2.1 hhi.2.1
  have hz := slab_axis r.O.z r.D.z bmin.z bmax.z t hDz hlo.2.2 hhi.2.2
  unfold IntersectAABB
  rw [hrx, hry, hrz]
  dsimp only
  split_ifs with hg
  · exact lt_of_le_of_lt (max_le (max_le hx.1 hy.1) hz.1)
      (lt_of_lt_of_le htt htB)
  · exfalso
    apply hg
    have h1 := max_le (max_le hx.1 hy.1) hz.1
    have h2 := le_min (le_min hx.2 hy.2) hz.2
    exact ⟨le_trans h1 h2, lt_of_le_of_lt h1 htt, lt_of_lt_of_le ht0 h2⟩

theorem IntersectAABB_le_BIG (r : Ray) (bmin bmax : float3)
    (h : r.hit.t ≤ BIG) : IntersectAABB r bmin bmax ≤ BIG := by
  unfold IntersectAABB
  dsimp only
  split_ifs with hg
  · exact le_trans (le_of_lt hg.2.1) h
  · exact le_refl _

/-- Every triangle referenced by a fitted subtree has its three vertices
inside the subtree root's AABB. -/
theorem BVH.FittedIn_encloses {st : BVH} {S : Set Nat} {n first count size : Nat}
    (hf : BVH.FittedIn st S n first count size) :
    ∀ j ∈ sliceL st.triIdx first count,
      (le3 (st.bvhNode n).aabbMin (st.mesh.tri j).vertex0 ∧
       le3 (st.bvhNode n).aabbMin (st.mesh.tri j).vertex1 ∧
       le3 (st.bvhNode n).aabbMin (st.mesh.tri j).vertex2) ∧
      (le3 (st.mesh.tri j).vertex0 (st.bvhNode n).aabbMax ∧
       le3 (st.mesh.tri j).vertex1 (st.bvhNode n).aabbMax ∧
       le3 (st.mesh.tri j).vertex2 (st.bvhNode n).aabbMax) := by
  induction hf with
  | leaf n first count hmem hpos hlf htc hbb =>
    intro j hj
    have hmin : (st.bvhNode n).aabbMin =
        (BVH.boundsOf st.mesh.tri st.triIdx first count).1 := by rw [← hbb]
    have hmax : (st.bvhNode n).aabbMax =
        (BVH.boundsOf st.mesh.tri st.triIdx first count).2 := by rw [← hbb]
    rw [hmin, hmax, BVH.boundsOf_eq_slice]
    have henc := foldl_growTri_encloses st.mesh.tri
      (sliceL st.triIdx first count) (float3.splat BIG, float3.splat (-BIG)) j hj
    exact henc
  | interior n first count lc sL sR hmem htc0 hlt hlc0 hlcc hfL hfR hbmin hbmax ihL ihR =>
    intro j hj
    have hsplit := sliceL_append st.triIdx first lc count (le_of_lt hlcc)
    rw [hsplit] at hj
    rcases List.mem_append.mp hj with hjL | hjR
    · have hL := ihL j hjL
      have hpm : le3 (st.bvhNode n).aabbMin
          (st.bvhNode (st.bvhNode n).leftFirst).aabbMin := by
        rw [hbmin]
        exact fminf_le_left _ _
      have hpM : le3 (st.bvhNode (st.bvhNode n).leftFirst).aabbMax
          (st.bvhNode n).aabbMax := by
        rw [hbmax]
        exact le_fmaxf_left _ _
      exact ⟨⟨le3_trans hpm hL.1.1, le3_trans hpm hL.1.2.1,
              le3_trans hpm hL.1.2.2⟩,
             ⟨le3_trans hL.2.1 hpM, le3_trans hL.2.2.1 hpM,
              le3_trans hL.2.2.2 hpM⟩⟩
    · have hR := ihR j hjR
      have hpm : le3 (st.bvhNode n).aabbMin
          (st.bvhNode ((st.bvhNode n).leftFirst + 1)).aabbMin := by
        rw [hbmin]
        exact fminf_le_right _ _
      have hpM : le3 (st.bvhNode ((st.bvhNode n).leftFirst + 1)).aabbMax
          (st.bvhNode n).aabbMax := by
        rw [hbmax]
        exact le_fmaxf_right _ _
      exact ⟨⟨le3_trans hpm hR.1.1, le3_trans hpm hR.1.2.1,
              le3_trans hpm hR.1.2.2⟩,
             ⟨le3_trans hR.2.1 hpM, le3_trans hR.2.2.1 hpM,
              le3_trans hR.2.2.2 hpM⟩⟩

/-- Pruning soundness: when the slab test misses a fitted subtree, no
triangle of that subtree can beat the ray's current `hit.t`. -/
theorem BVH.prune_of_miss {st : BVH} {S : Set Nat} {n first count size : Nat}
    (hf : BVH.FittedIn st S n first count size) (r : Ray)
    (hDx : r.D.x ≠ 0) (hDy : r.D.y ≠ 0) (hDz : r.D.z ≠ 0)
    (hrD : r.rD = float3.recip r.D) (htB : r.hit.t ≤ BIG)
    (hmiss : IntersectAABB r (st.bvhNode n).aabbMin (st.bvhNode n).aabbMax = BIG) :
    ∀ j ∈ sliceL st.triIdx first count, ∀ c,
      candidate r.O r.D (st.mesh.tri j) = some c → r.hit.t ≤ c.1 := by
  intro j hj c hc
  by_contra hlt
  push_neg at hlt
  obtain ⟨hane, hcf, hu, hv, huv, ht⟩ := candidate_some hc
  have henc := BVH.FittedIn_encloses hf j hj
  have hbox := candidate_point_in_box r.O r.D (st.mesh.tri j) c hc
    (st.bvhNode n).aabbMin (st.bvhNode n).aabbMax
    henc.1.1 henc.2.1 henc.1.2.1 henc.2.2.1 henc.1.2.2 henc.2.2.2
  have hbig := IntersectAABB_lt_BIG r (st.bvhNode n).aabbMin
    (st.bvhNode n).aabbMax c.1 hDx hDy hDz hrD
    (lt_trans (by norm_num) ht) hlt htB hbox.1 hbox.2
  rw [hmiss] at hbig
  exact lt_irrefl _ hbig

/-! ## Stack invariant and `bestT` bookkeeping for the traversal loop -/

theorem foldl_congr_mem {α β : Type} (l : List α) (f g : β → α → β)
    (h : ∀ a ∈ l, ∀ b, f b a = g b a) : ∀ b, l.foldl f b = l.foldl g b := by
  induction l with
  | nil => intro b; rfl
  | cons x l ih =>
    intro b
    rw [List.foldl_cons, List.foldl_cons, h x (by simp)]
    exact ih (fun a ha b2 => h a (by simp [ha]) b2) _

theorem bestT_swap (m : Mesh) (O D : float3) (t0 : ℚ) (A B I : List Nat) :
    bestT m O D t0 (A ++ (B ++ I)) = bestT m O D t0 (B ++ (A ++ I)) := by
  rw [← List.append_assoc, ← List.append_assoc]
  exact bestT_perm m O D t0 (List.Perm.append_right I List.perm_append_comm)

theorem bestT_drop_mid (m : Mesh) (O D : float3) (t0 : ℚ) (A B I : List Nat)
    (hB : ∀ j ∈ B, ∀ c, candidate O D (m.tri j) = some c → t0 ≤ c.1) :
    bestT m O D t0 (A ++ (B ++ I)) = bestT m O D t0 (A ++ I) := by
  rw [bestT_append, bestT_append, bestT_append]
  have hmid : bestT m O D (bestT m O D t0 A) B = bestT m O D t0 A := by
    apply bestT_drop
    intro j hj c hc
    exact le_trans (bestT_le_init m O D A t0) (hB j hj c hc)
  rw [hmid]

theorem bestT_drop_front (m : Mesh) (O D : float3) (t0 : ℚ) (B I : List Nat)
    (hB : ∀ j ∈ B, ∀ c, candidate O D (m.tri j) = some c → t0 ≤ c.1) :
    bestT m O D t0 (B ++ I) = bestT m O D t0 I := by
  rw [bestT_append, bestT_drop m O D B t0 hB]

theorem slice_mem_lt (st : BVH) (first count : Nat)
    (hle : first + count ≤ st.mesh.triCount)
    (hmc : ∀ k, k < st.mesh.triCount → st.triIdx k < st.mesh.triCount) :
    ∀ j ∈ sliceL st.triIdx first count, j < st.mesh.triCount := by
  intro j hj
  rcases (sliceL_mem _ _ _ _).mp hj with ⟨p, hp1, hp2, rfl⟩
  exact hmc p (by omega)

theorem BVH.leafScan_eq_scan (st : BVH) (inst : Nat) (first count : Nat)
    (hm : ∀ k, k < first + count → st.triIdx k < 2 ^ 20) :
    ∀ r : Ray,
      (List.range count).foldl
        (fun r2 i =>
          IntersectTri r2
            (st.mesh.tri ((inst * 2 ^ 20 + st.triIdx (first + i)) % 2 ^ 20))
            (inst * 2 ^ 20 + st.triIdx (first + i))) r =
      scanItems st.mesh inst r (sliceL st.triIdx first count) := by
  intro r
  unfold scanItems sliceL
  rw [List.foldl_map]
  apply foldl_congr_mem
  intro i hi b
  rw [List.mem_range] at hi
  have hmod : (inst * 2 ^ 20 + st.triIdx (first + i)) % 2 ^ 20 =
      st.triIdx (first + i) := by
    rw [Nat.add_comm, Nat.add_mul_mod_self_right,
      Nat.mod_eq_of_lt (hm _ (by omega))]
  rw [hmod]

theorem BVHNode.isLeaf_true {n : BVHNode} (h : 0 < n.triCount) :
    n.isLeaf = true := by
  simp [BVHNode.isLeaf, h]

theorem BVHNode.isLeaf_false {n : BVHNode} (h : n.triCount = 0) :
    n.isLeaf = false := by
  simp [BVHNode.isLeaf, h]

/-- Main traversal invariant: a successful run of the `BVH::Intersect`
loop behaves on the hit record exactly like scanning the triangles of the
subtrees pending on the stack, in traversal order. -/
theorem BVH.intersectLoop_scan (st : BVH) (inst : Nat) (S : Set Nat)
    (hm20 : ∀ k, k < st.mesh.triCount → st.triIdx k < 2 ^ 20)
    (hmc : ∀ k, k < st.mesh.triCount → st.triIdx k < st.mesh.triCount) :
    ∀ fuel s items tsize r',
      StackFits st S (s.cur :: s.stack) items tsize →
      s.ray.rD = float3.recip s.ray.D →
      s.ray.D.x ≠ 0 → s.ray.D.y ≠ 0 → s.ray.D.z ≠ 0 →
      s.ray.hit.t ≤ BIG →
      BVH.intersectLoop st inst fuel s = some r' →
      r'.O = s.ray.O ∧ r'.D = s.ray.D ∧ r'.rD = s.ray.rD ∧
      r'.hit.t = bestT st.mesh s.ray.O s.ray.D s.ray.hit.t items ∧
      ∀ h0, HitFrom st.mesh inst s.ray.O s.ray.D h0 s.ray.hit →
        HitFrom st.mesh inst s.ray.O s.ray.D h0 r'.hit := by
  intro fuel
  induction fuel with
  | zero =>
    intro s items tsize r' _ _ _ _ _ _ hres
    exact Option.noConfusion hres
  | succ fuel ih =>
    intro s items tsize r' hsf hrD hDx hDy hDz hBIG hres
    unfold BVH.intersectLoop at hres
    cases hsf with
    | cons n first count size tsize2 ns items2 hfit hle hrest =>
      cases hfit with
      | leaf n2 f2 c2 hmem hpos hlf htc hbb =>
        have hleaf : (st.bvhNode s.cur).isLeaf = true :=
          BVHNode.isLeaf_true (by rw [htc]; exact hpos)
        unfold BVH.intersectStep at hres
        dsimp only at hres
        rw [if_pos hleaf, hlf, htc] at hres
        rw [BVH.leafScan_eq_scan st inst first count
          (fun k hk => hm20 k (by omega)) s.ray] at hres
        have hO := scanItems_O st.mesh inst (sliceL st.triIdx first count) s.ray
        have hD := scanItems_D st.mesh inst (sliceL st.triIdx first count) s.ray
        have hrD2 := scanItems_rD st.mesh inst (sliceL st.triIdx first count) s.ray
        have ht2 := scanItems_hit_t st.mesh inst (sliceL st.triIdx first count) s.ray
        cases hstack : s.stack with
        | nil =>
          rw [hstack] at hres hrest
          cases hrest
          dsimp only at hres
          have hre := Option.some.inj hres
          subst hre
          refine ⟨hO, hD, hrD2, ?_, ?_⟩
          · rw [List.append_nil, ht2]
          · intro h0 hh
            exact scanItems_HitFrom st.mesh inst (sliceL st.triIdx first count)
              s.ray h0 (slice_mem_lt st first count hle hmc) hh
        | cons q rest =>
          rw [hstack] at hres hrest
          dsimp only at hres
          have hIH := ih ⟨scanItems st.mesh inst s.ray (sliceL st.triIdx first count),
              q, rest⟩ items2 tsize2 r' hrest
            (by show (scanItems st.mesh inst s.ray (sliceL st.triIdx first count)).rD =
                  float3.recip (scanItems st.mesh inst s.ray (sliceL st.triIdx first count)).D
                rw [hrD2, hD]
                exact hrD)
            (by show (scanItems st.mesh inst s.ray (sliceL st.triIdx first count)).D.x ≠ 0
                rw [hD]
                exact hDx)
            (by show (scanItems st.mesh inst s.ray (sliceL st.triIdx first count)).D.y ≠ 0
                rw [hD]
                exact hDy)
            (by show (scanItems st.mesh inst s.ray (sliceL st.triIdx first count)).D.z ≠ 0
                rw [hD]
                exact hDz)
            (by show (scanItems st.mesh inst s.ray (sliceL st.triIdx first count)).hit.t ≤ BIG
                rw [ht2]
                exact le_trans (bestT_le_init st.mesh s.ray.O s.ray.D
                  (sliceL st.triIdx first count) s.ray.hit.t) hBIG)
            hres
          dsimp only at hIH
          refine ⟨hIH.1.trans hO, hIH.2.1.trans hD, hIH.2.2.1.trans hrD2, ?_, ?_⟩
          · rw [hIH.2.2.2.1, hO, hD, ht2, ← bestT_append]
          · intro h0 hh
            have hstep := scanItems_HitFrom st.mesh inst
              (sliceL st.triIdx first count) s.ray h0
              (slice_mem_lt st first count hle hmc) hh
            have hcl := hIH.2.2.2.2 h0
            rw [hO, hD] at hcl
            exact hcl hstep
      | interior n2 f2 c2 lc sL sR hmem htc0 hlt hlc0 hlcc hfL hfR hbmin hbmax =>
        have hleaf : (st.bvhNode s.cur).isLeaf = false := BVHNode.isLeaf_false htc0
        have hsp := sliceL_append st.triIdx first lc count (le_of_lt hlcc)
        unfold BVH.intersectStep at hres
        dsimp only at hres
        rw [if_neg (by rw [hleaf]; exact Bool.false_ne_true)] at hres
        obtain ⟨d1, hd1def⟩ : ∃ x, IntersectAABB s.ray
            (st.bvhNode ((st.bvhNode s.cur).leftFirst)).aabbMin
            (st.bvhNode ((st.bvhNode s.cur).leftFirst)).aabbMax = x := ⟨_, rfl⟩
        obtain ⟨d2, hd2def⟩ : ∃ x, IntersectAABB s.ray
            (st.bvhNode ((st.bvhNode s.cur).leftFirst + 1)).aabbMin
            (st.bvhNode ((st.bvhNode s.cur).leftFirst + 1)).aabbMax = x := ⟨_, rfl⟩
        rw [hd1def, hd2def] at hres
        have hd1le : d1 ≤ BIG := by
          rw [← hd1def]
          exact IntersectAABB_le_BIG s.ray _ _ hBIG
        have hd2le : d2 ≤ BIG := by
          rw [← hd2def]
          exact IntersectAABB_le_BIG s.ray _ _ hBIG
        have hprA : d1 = BIG → ∀ j ∈ sliceL st.triIdx first lc, ∀ c,
            candidate s.ray.O s.ray.D (st.mesh.tri j) = some c →
            s.ray.hit.t ≤ c.1 := by
          intro hmiss
          exact BVH.prune_of_miss hfL s.ray hDx hDy hDz hrD hBIG
            (by rw [hd1def]; exact hmiss)
        have hprB : d2 = BIG → ∀ j ∈ sliceL st.triIdx (first + lc) (count - lc),
            ∀ c, candidate s.ray.O s.ray.D (st.mesh.tri j) = some c →
            s.ray.hit.t ≤ c.1 := by
          intro hmiss
          exact BVH.prune_of_miss hfR s.ray hDx hDy hDz hrD hBIG
            (by rw [hd2def]; exact hmiss)
        by_cases hgt : d1 > d2
        · rw [if_pos hgt, if_pos hgt, if_pos hgt, if_pos hgt] at hres
          by_cases hB1 : d2 = BIG
          · exfalso
            rw [hB1] at hgt
            exact absurd hd1le (not_le.mpr hgt)
          · rw [if_neg hB1] at hres
            by_cases hB2 : d1 ≠ BIG
            · rw [if_pos hB2] at hres
              dsimp only at hres
              have hsf2 : StackFits st S
                  (((st.bvhNode s.cur).leftFirst + 1) ::
                    (st.bvhNode s.cur).leftFirst :: s.stack)
                  (sliceL st.triIdx (first + lc) (count - lc) ++
                    (sliceL st.triIdx first lc ++ items2)) (sR + (sL + tsize2)) :=
                StackFits.cons _ _ _ _ _ _ _ hfR (by omega)
                  (StackFits.cons _ _ _ _ _ _ _ hfL (by omega) hrest)
              have hIH := ih ⟨s.ray, (st.bvhNode s.cur).leftFirst + 1,
                  (st.bvhNode s.cur).leftFirst :: s.stack⟩ _ _ r' hsf2
                hrD hDx hDy hDz hBIG hres
              dsimp only at hIH
              refine ⟨hIH.1, hIH.2.1, hIH.2.2.1, ?_, hIH.2.2.2.2⟩
              rw [hIH.2.2.2.1, bestT_swap, hsp, List.append_assoc]
            · rw [if_neg hB2] at hres
              dsimp only at hres
              have hB2e : d1 = BIG := not_not.mp hB2
              have hsf2 : StackFits st S
                  (((st.bvhNode s.cur).leftFirst + 1) :: s.stack)
                  (sliceL st.triIdx (first + lc) (count - lc) ++ items2)
                  (sR + tsize2) :=
                StackFits.cons _ _ _ _ _ _ _ hfR (by omega) hrest
              have hIH := ih ⟨s.ray, (st.bvhNode s.cur).leftFirst + 1, s.stack⟩
                _ _ r' hsf2 hrD hDx hDy hDz hBIG hres
              dsimp only at hIH
              refine ⟨hIH.1, hIH.2.1, hIH.2.2.1, ?_, hIH.2.2.2.2⟩
              rw [hIH.2.2.2.1, hsp, List.append_assoc]
              exact (bestT_drop_front st.mesh s.ray.O s.ray.D s.ray.hit.t
                (sliceL st.triIdx first lc)
                (sliceL st.triIdx (first + lc) (count - lc) ++ items2)
                (hprA hB2e)).symm
        · rw [if_neg hgt, if_neg hgt, if_neg hgt, if_neg hgt] at hres
          by_cases hB1 : d1 = BIG
          · rw [if_pos hB1] at hres
            have hB2e : d2 = BIG :=
              le_antisymm hd2le (by rw [← hB1]; exact not_lt.mp hgt)
            cases hstack : s.stack with
            | nil =>
              rw [hstack] at hres hrest
              cases hrest
              dsimp only at hres
              have hre := Option.some.inj hres
              subst hre
              refine ⟨rfl, rfl, rfl, ?_, fun h0 hh => hh⟩
              rw [List.append_nil, hsp]
              exact ((bestT_drop_front st.mesh s.ray.O s.ray.D s.ray.hit.t
                  (sliceL st.triIdx first lc)
                  (sliceL st.triIdx (first + lc) (count - lc)) (hprA hB1)).trans
                (bestT_drop st.mesh s.ray.O s.ray.D
                  (sliceL st.triIdx (first + lc) (count - lc)) s.ray.hit.t
                  (hprB hB2e))).symm
            | cons q rest =>
              rw [hstack] at hres hrest
              dsimp only at hres
              have hIH := ih ⟨s.ray, q, rest⟩ items2 tsize2 r' hrest
                hrD hDx hDy hDz hBIG hres
              dsimp only at hIH
              refine ⟨hIH.1, hIH.2.1, hIH.2.2.1, ?_, hIH.2.2.2.2⟩
              rw [hIH.2.2.2.1, hsp, List.append_assoc]
              rw [bestT_drop_front st.mesh s.ray.O s.ray.D s.ray.hit.t
                (sliceL st.triIdx first lc)
                (sliceL st.triIdx (first + lc) (count - lc) ++ items2) (hprA hB1)]
              rw [bestT_drop_front st.mesh s.ray.O s.ray.D s.ray.hit.t
                (sliceL st.triIdx (first + lc) (count - lc)) items2 (hprB hB2e)]
          · rw [if_neg hB1] at hres
            by_cases hB2 : d2 ≠ BIG
            · rw [if_pos hB2] at hres
              dsimp only at hres
              have hsf2 : StackFits st S
                  ((st.bvhNode s.cur).leftFirst ::
                    ((st.bvhNode s.cur).leftFirst + 1) :: s.stack)
                  (sliceL st.triIdx first lc ++
                    (sliceL st.triIdx (first + lc) (count - lc) ++ items2))
                  (sL + (sR + tsize2)) :=
                StackFits.cons _ _ _ _ _ _ _ hfL (by omega)
                  (StackFits.cons _ _ _ _ _ _ _ hfR (by omega) hrest)
              have hIH := ih ⟨s.ray, (st.bvhNode s.cur).leftFirst,
                  ((st.bvhNode s.cur).leftFirst + 1) :: s.stack⟩ _ _ r' hsf2
                hrD hDx hDy hDz hBIG hres
              dsimp only at hIH
              refine ⟨hIH.1, hIH.2.1, hIH.2.2.1, ?_, hIH.2.2.2.2⟩
              rw [hIH.2.2.2.1, hsp, List.append_assoc]
            · rw [if_neg hB2] at hres
              dsimp only at hres
              have hB2e : d2 = BIG := not_not.mp hB2
              have hsf2 : StackFits st S
                  ((st.bvhNode s.cur).leftFirst :: s.stack)
                  (sliceL st.triIdx first lc ++ items2) (sL + tsize2) :=
                StackFits.cons _ _ _ _ _ _ _ hfL (by omega) hrest
              have hIH := ih ⟨s.ray, (st.bvhNode s.cur).leftFirst, s.stack⟩
                _ _ r' hsf2 hrD hDx hDy hDz hBIG hres
              dsimp only at hIH
              refine ⟨hIH.1, hIH.2.1, hIH.2.2.1, ?_, hIH.2.2.2.2⟩
              rw [hIH.2.2.2.1, hsp, List.append_assoc]
              exact (bestT_drop_mid st.mesh s.ray.O s.ray.D s.ray.hit.t
                (sliceL st.triIdx first lc)
                (sliceL st.triIdx (first + lc) (count - lc)) items2
                (hprB hB2e)).symm

/-! ## Termination of the traversal on fitted trees -/

theorem BVH.FittedIn_size_pos {st : BVH} {S : Set Nat} {n f c size : Nat}
    (hf : BVH.FittedIn st S n f c size) : 0 < size := by
  cases hf with
  | leaf _ _ _ _ _ _ _ _ => exact Nat.one_pos
  | interior _ _ _ _ _ _ _ _ _ _ _ _ _ _ _ => omega

theorem BVH.intersectLoop_total (st : BVH) (inst : Nat) (S : Set Nat) :
    ∀ fuel s items tsize,
      StackFits st S (s.cur :: s.stack) items tsize →
      tsize ≤ fuel →
      (BVH.intersectLoop st inst fuel s).isSome := by
  intro fuel
  induction fuel with
  | zero =>
    intro s items tsize hsf hfu
    cases hsf with
    | cons n first count size tsize2 ns items2 hfit hle2 hrest =>
      have := BVH.FittedIn_size_pos hfit
      omega
  | succ fuel ih =>
    intro s items tsize hsf hfu
    unfold BVH.intersectLoop
    cases hsf with
    | cons n first count size tsize2 ns items2 hfit hle2 hrest =>
      cases hfit with
      | leaf n2 f2 c2 hmem hpos hlf htc hbb =>
        have hleaf : (st.bvhNode s.cur).isLeaf = true :=
          BVHNode.isLeaf_true (by rw [htc]; exact hpos)
        unfold BVH.intersectStep
        dsimp only
        rw [if_pos hleaf]
        cases hstack : s.stack with
        | nil =>
          dsimp only
          rfl
        | cons q rest =>
          rw [hstack] at hrest
          dsimp only
          exact ih ⟨_, q, rest⟩ items2 tsize2 hrest (by omega)
      | interior n2 f2 c2 lc sL sR hmem htc0 hlt hlc0 hlcc hfL hfR hbmin hbmax =>
        have hleaf : (st.bvhNode s.cur).isLeaf = false := BVHNode.isLeaf_false htc0
        unfold BVH.intersectStep
        dsimp only
        rw [if_neg (by rw [hleaf]; exact Bool.false_ne_true)]
        obtain ⟨d1, hd1def⟩ : ∃ x, IntersectAABB s.ray
            (st.bvhNode ((st.bvhNode s.cur).leftFirst)).aabbMin
            (st.bvhNode ((st.bvhNode s.cur).leftFirst)).aabbMax = x := ⟨_, rfl⟩
        obtain ⟨d2, hd2def⟩ : ∃ x, IntersectAABB s.ray
            (st.bvhNode ((st.bvhNode s.cur).leftFirst + 1)).aabbMin
            (st.bvhNode ((st.bvhNode s.cur).leftFirst + 1)).aabbMax = x := ⟨_, rfl⟩
        rw [hd1def, hd2def]
        have hsL := BVH.FittedIn_size_pos hfL
        have hsR := BVH.FittedIn_size_pos hfR
        by_cases hgt : d1 > d2
        · rw [if_pos hgt, if_pos hgt, if_pos hgt, if_pos hgt]
          by_cases hB1 : d2 = BIG
          · rw [if_pos hB1]
            cases hstack : s.stack with
            | nil =>
              dsimp only
              rfl
            | cons q rest =>
              rw [hstack] at hrest
              dsimp only
              exact ih ⟨s.ray, q, rest⟩ items2 tsize2 hrest (by omega)
          · rw [if_neg hB1]
            by_cases hB2 : d1 ≠ BIG
            · rw [if_pos hB2]
              dsimp only
              exact ih ⟨s.ray, (st.bvhNode s.cur).leftFirst + 1,
                  (st.bvhNode s.cur).leftFirst :: s.stack⟩ _ _
                (StackFits.cons _ _ _ _ _ _ _ hfR (by omega)
                  (StackFits.cons _ _ _ _ _ _ _ hfL (by omega) hrest))
                (by omega)
            · rw [if_neg hB2]
              dsimp only
              exact ih ⟨s.ray, (st.bvhNode s.cur).leftFirst + 1, s.stack⟩ _ _
                (StackFits.cons _ _ _ _ _ _ _ hfR (by omega) hrest) (by omega)
        · rw [if_neg hgt, if_neg hgt, if_neg hgt, if_neg hgt]
          by_cases hB1 : d1 = BIG
          · rw [if_pos hB1]
            cases hstack : s.stack with
            | nil =>
              dsimp only
              rfl
            | cons q rest =>
              rw [hstack] at hrest
              dsimp only
              exact ih ⟨s.ray, q, rest⟩ items2 tsize2 hrest (by omega)
          · rw [if_neg hB1]
            by_cases hB2 : d2 ≠ BIG
            · rw [if_pos hB2]
              dsimp only
              exact ih ⟨s.ray, (st.bvhNode s.cur).leftFirst,
                  ((st.bvhNode s.cur).leftFirst + 1) :: s.stack⟩ _ _
                (StackFits.cons _ _ _ _ _ _ _ hfL (by omega)
                  (StackFits.cons _ _ _ _ _ _ _ hfR (by omega) hrest))
                (by omega)
            · rw [if_neg hB2]
              dsimp only
              exact ih ⟨s.ray, (st.bvhNode s.cur).leftFirst, s.stack⟩ _ _
                (StackFits.cons _ _ _ _ _ _ _ hfL (by omega) hrest) (by omega)

/-! ## Builds over a single triangle -/

theorem BVH.FBSPaxis_singleton (st : BVH) (node : BVHNode) (best : ℚ × Nat × ℚ)
    (a : Nat) (h1 : node.triCount = 1)
    (hb : |(st.mesh.tri (st.triIdx (node.leftFirst + 0))).centroid.nth a| ≤ BIG) :
    st.FBSPaxis node best a = best := by
  obtain ⟨hlo, hhi⟩ := abs_le.mp hb
  unfold BVH.FBSPaxis
  have hcb : BVH.centroidBounds st node a =
      ((st.mesh.tri (st.triIdx (node.leftFirst + 0))).centroid.nth a,
       (st.mesh.tri (st.triIdx (node.leftFirst + 0))).centroid.nth a) := by
    unfold BVH.centroidBounds
    rw [h1, show List.range 1 = [0] from rfl, List.foldl_cons, List.foldl_nil]
    dsimp only
    rw [min_eq_right hhi, max_eq_right hlo]
  rw [hcb]
  dsimp only
  rw [if_pos rfl]

theorem BVH.build_one (m : Mesh) (h1 : m.triCount = 1)
    (hb : ∀ a, |((BVH.buildSetup (BVH.mk0 m)).mesh.tri
        ((BVH.buildSetup (BVH.mk0 m)).triIdx
          (((BVH.buildSetup (BVH.mk0 m)).bvhNode 0).leftFirst + 0))).centroid.nth a|
      ≤ BIG)
    (hcost : ((BVH.buildSetup (BVH.mk0 m)).bvhNode 0).CalculateNodeCost ≤ BIG) :
    BVH.build m = some (BVH.buildSetup (BVH.mk0 m)) := by
  unfold BVH.build BVH.buildS
  obtain ⟨S, hS⟩ : ∃ S, S = BVH.buildSetup (BVH.mk0 m) := ⟨_, rfl⟩
  rw [← hS]
  have hfuel : S.mesh.triCount + 1 = 1 + 1 := by
    rw [hS, BVH.buildSetup_mesh_triCount]
    show m.triCount + 1 = 1 + 1
    omega
  rw [hfuel]
  simp only [BVH.subdivideF]
  have hroot1 : (S.bvhNode 0).triCount = 1 := by
    rw [hS, BVH.buildSetup_root]
    show (BVH.mk0 m).mesh.triCount = 1
    exact h1
  have hFB : S.FindBestSplitPlane (S.bvhNode 0) = (BIG, 0, 0) := by
    unfold BVH.FindBestSplitPlane
    rw [show List.range 3 = [0, 1, 2] from rfl, List.foldl_cons, List.foldl_cons,
      List.foldl_cons, List.foldl_nil]
    rw [BVH.FBSPaxis_singleton S (S.bvhNode 0) _ 0 hroot1 (by rw [hS]; exact hb 0)]
    rw [BVH.FBSPaxis_singleton S (S.bvhNode 0) _ 1 hroot1 (by rw [hS]; exact hb 1)]
    rw [BVH.FBSPaxis_singleton S (S.bvhNode 0) _ 2 hroot1 (by rw [hS]; exact hb 2)]
  rw [hFB]
  dsimp only
  rw [if_pos (show BIG ≥ (S.bvhNode 0).CalculateNodeCost from by rw [hS]; exact hcost)]

/-! ## Pinning the hit record at a unique closest hit -/

theorem bestT_cases (m : Mesh) (O D : float3) (l : List Nat) :
    ∀ t0, bestT m O D t0 l = t0 ∨
      ∃ j ∈ l, ∃ c, candidate O D (m.tri j) = some c ∧ bestT m O D t0 l = c.1 := by
  induction l with
  | nil => intro t0; exact Or.inl rfl
  | cons x l ih =>
    intro t0
    rw [bestT, List.foldl_cons, ← bestT]
    rcases hc : candidate O D (m.tri x) with _ | cx
    · dsimp only
      rcases ih t0 with h | ⟨j, hj, c, hcc, hbt⟩
      · exact Or.inl h
      · exact Or.inr ⟨j, by simp [hj], c, hcc, hbt⟩
    · dsimp only
      by_cases hlt : cx.1 < t0
      · rw [if_pos hlt]
        rcases ih cx.1 with h | ⟨j, hj, c, hcc, hbt⟩
        · exact Or.inr ⟨x, by simp, cx, hc, h⟩
        · exact Or.inr ⟨j, by simp [hj], c, hcc, hbt⟩
      · rw [if_neg hlt]
        rcases ih t0 with h | ⟨j, hj, c, hcc, hbt⟩
        · exact Or.inl h
        · exact Or.inr ⟨j, by simp [hj], c, hcc, hbt⟩

theorem HitFrom_unique {m : Mesh} {inst : Nat} {O D : float3} {h0 h : Hit}
    (hh : HitFrom m inst O D h0 h) (jb : Nat) (cb : ℚ × ℚ × ℚ)
    (hjb : jb < m.triCount) (hcb : candidate O D (m.tri jb) = some cb)
    (hbeat : cb.1 < h0.t)
    (huni : ∀ j c, j < m.triCount → j ≠ jb →
      candidate O D (m.tri j) = some c → cb.1 < c.1)
    (hts : h.t = cb.1) :
    h = ⟨cb.1, cb.2.1, cb.2.2, inst * 2 ^ 20 + jb⟩ := by
  rcases hh with rfl | ⟨hlt, j, hjm, hcj, hip⟩
  · rw [hts] at hbeat
    exact absurd hbeat (lt_irrefl _)
  · by_cases hjj : j = jb
    · rw [hjj] at hcj hip
      rw [hcb] at hcj
      have hinj := Option.some.inj hcj
      obtain ⟨t1, u1, v1, ip1⟩ := h
      have hip2 : ip1 = inst * 2 ^ 20 + jb := hip
      rw [hinj, hip2]
    · exfalso
      have hx := huni j (h.t, h.u, h.v) hjm hjj hcj
      rw [hts] at hx
      exact lt_irrefl _ hx

theorem HitFrom_eq_of_no_beat {m : Mesh} {inst : Nat} {O D : float3} {h0 h : Hit}
    (hh : HitFrom m inst O D h0 h) (hts : h.t = h0.t) : h = h0 := by
  rcases hh with rfl | ⟨hlt, _⟩
  · rfl
  · rw [hts] at hlt
    exact absurd hlt (lt_irrefl _)

/-- The BLAS half of the refinement: for a BLAS built over a non-empty mesh
of at most `2^20` triangles and a well-formed ray, the stack traversal
`BVH::Intersect` terminates given enough fuel, every successful run reports
exactly the brute-force scan's closest `hit.t`, and the full hit record
(including `instPrim`) coincides with the brute-force scan's whenever no
triangle beats the incoming hit or the closest candidate is unique. -/
theorem BLAS_refines (m : Mesh) (st : BVH) (ray : Ray)
    (inst : Nat) (hbuild : BVH.build m = some st)
    (h1 : 1 ≤ m.triCount) (h20 : m.triCount ≤ 2 ^ 20)
    (hrD : ray.rD = float3.recip ray.D)
    (hDx : ray.D.x ≠ 0) (hDy : ray.D.y ≠ 0) (hDz : ray.D.z ≠ 0)
    (hBIG : ray.hit.t ≤ BIG) :
    (∃ fuel r', st.Intersect ray inst fuel = some r') ∧
    (∀ fuel r', st.Intersect ray inst fuel = some r' →
      r'.O = ray.O ∧ r'.D = ray.D ∧
      r'.hit.t = (bruteForceMesh m inst ray).hit.t ∧
      ((∀ j c, j < m.triCount → candidate ray.O ray.D (m.tri j) = some c →
          ray.hit.t ≤ c.1) →
        r'.hit = (bruteForceMesh m inst ray).hit) ∧
      (∀ jb cb, jb < m.triCount →
        candidate ray.O ray.D (m.tri jb) = some cb →
        cb.1 < ray.hit.t →
        (∀ j c, j < m.triCount → j ≠ jb →
          candidate ray.O ray.D (m.tri j) = some c → cb.1 < c.1) →
        r'.hit = (bruteForceMesh m inst ray).hit)) := by
  obtain ⟨stm, htri, _, _, _, _, _, hperm⟩ := BVH.build_spec m st hbuild
  obtain ⟨hnf, size, hfit0⟩ := BVH.build_fitted m st hbuild h1
  have hmem20 : ∀ k, k < st.mesh.triCount → st.triIdx k < 2 ^ 20 := by
    intro k hk
    rw [stm] at hk
    have hmem : st.triIdx k ∈ sliceL st.triIdx 0 m.triCount :=
      (sliceL_mem _ _ _ _).mpr ⟨k, Nat.zero_le k, by omega, rfl⟩
    have hrg := hperm.mem_iff.mp hmem
    rw [List.mem_range] at hrg
    omega
  have hmemc : ∀ k, k < st.mesh.triCount → st.triIdx k < st.mesh.triCount := by
    intro k hk
    rw [stm] at hk ⊢
    have hmem : st.triIdx k ∈ sliceL st.triIdx 0 m.triCount :=
      (sliceL_mem _ _ _ _).mpr ⟨k, Nat.zero_le k, by omega, rfl⟩
    have hrg := hperm.mem_iff.mp hmem
    rw [List.mem_range] at hrg
    exact hrg
  have hcand : ∀ j, j < m.triCount →
      candidate ray.O ray.D (st.mesh.tri j) = candidate ray.O ray.D (m.tri j) := by
    intro j hj
    rw [htri j, if_pos hj]
    exact candidate_centroid ray.O ray.D (m.tri j) _
  have hbfe : bruteForceMesh st.mesh inst ray = bruteForceMesh m inst ray := by
    unfold bruteForceMesh
    rw [stm]
    apply foldl_congr_mem
    intro i hi b
    rw [List.mem_range] at hi
    rw [htri i, if_pos hi]
    exact IntersectTri_centroid b (m.tri i) _ _
  have hsf : StackFits st ({0} ∪ Set.Ico 2 st.nodesUsed) (0 :: ([] : List Nat))
      (sliceL st.triIdx 0 m.triCount ++ []) (size + 0) :=
    StackFits.cons _ _ _ _ _ _ _ hfit0 (by omega) StackFits.nil
  have hbrt : (bruteForceMesh m inst ray).hit.t =
      bestT st.mesh ray.O ray.D ray.hit.t (List.range st.mesh.triCount) := by
    rw [← hbfe, bruteForceMesh_eq_scan, scanItems_hit_t]
  constructor
  · have hiso := BVH.intersectLoop_total st inst ({0} ∪ Set.Ico 2 st.nodesUsed)
      (size + 0) ⟨ray, 0, []⟩ (sliceL st.triIdx 0 m.triCount ++ []) (size + 0)
      hsf (le_refl _)
    rcases Option.isSome_iff_exists.mp hiso with ⟨r', hr'⟩
    exact ⟨size + 0, r', hr'⟩
  · intro fuel r' hres
    unfold BVH.Intersect at hres
    have hmain := BVH.intersectLoop_scan st inst ({0} ∪ Set.Ico 2 st.nodesUsed)
      hmem20 hmemc fuel ⟨ray, 0, []⟩ (sliceL st.triIdx 0 m.triCount ++ [])
      (size + 0) r' hsf hrD hDx hDy hDz hBIG hres
    dsimp only at hmain
    obtain ⟨hO, hD, hrD', ht, hHF⟩ := hmain
    have htb : r'.hit.t = bestT st.mesh ray.O ray.D ray.hit.t
        (List.range st.mesh.triCount) := by
      rw [ht, List.append_nil, stm]
      exact bestT_perm st.mesh ray.O ray.D ray.hit.t hperm
    have hsh : HitFrom st.mesh inst ray.O ray.D ray.hit
        (bruteForceMesh st.mesh inst ray).hit := by
      rw [bruteForceMesh_eq_scan]
      exact scanItems_HitFrom st.mesh inst _ ray ray.hit
        (fun j hj => by rw [List.mem_range] at hj; exact hj)
        (HitFrom_refl _ _ _ _ _)
    refine ⟨hO, hD, by rw [htb, hbrt], ?_, ?_⟩
    · intro hnone
      have hval : bestT st.mesh ray.O ray.D ray.hit.t
          (List.range st.mesh.triCount) = ray.hit.t := by
        apply bestT_drop
        intro j hj c hc
        rw [List.mem_range, stm] at hj
        rw [hcand j hj] at hc
        exact hnone j c hj hc
      have hrfix : r'.hit = ray.hit := by
        apply HitFrom_eq_of_no_beat (hHF ray.hit (HitFrom_refl _ _ _ _ _))
        rw [htb, hval]
      have hbfix : (bruteForceMesh m inst ray).hit = ray.hit := by
        rw [← hbfe]
        apply HitFrom_eq_of_no_beat hsh
        rw [hbfe, hbrt, hval]
      rw [hrfix, hbfix]
    · intro jb cb hjb hcb hbeat huni
      have hjb2 : jb < st.mesh.triCount := by omega
      have hcb2 : candidate ray.O ray.D (st.mesh.tri jb) = some cb := by
        rw [hcand jb hjb]
        exact hcb
      have hle1 : bestT st.mesh ray.O ray.D ray.hit.t
          (List.range st.mesh.triCount) ≤ cb.1 :=
        bestT_le_of_mem st.mesh ray.O ray.D _ ray.hit.t jb cb
          (by rw [List.mem_range]; exact hjb2) hcb2
      have hval : bestT st.mesh ray.O ray.D ray.hit.t
          (List.range st.mesh.triCount) = cb.1 := by
        rcases bestT_cases st.mesh ray.O ray.D (List.range st.mesh.triCount)
            ray.hit.t with h | ⟨j, hj, c, hcc, hbt⟩
        · exfalso
          rw [h] at hle1
          exact absurd hbeat (not_lt.mpr hle1)
        · rw [List.mem_range, stm] at hj
          by_cases hjj : j = jb
          · rw [hjj, hcand jb hjb, hcb] at hcc
            rw [hbt, Option.some.inj hcc]
          · exfalso
            rw [hcand j hj] at hcc
            have hx := huni j c hj hjj hcc
            linarith [hbt, hle1]
      have huni2 : ∀ j c, j < st.mesh.triCount → j ≠ jb →
          candidate ray.O ray.D (st.mesh.tri j) = some c → cb.1 < c.1 := by
        intro j c hj hjj hc
        rw [stm] at hj
        rw [hcand j hj] at hc
        exact huni j c hj hjj hc
      have hr2 : r'.hit = ⟨cb.1, cb.2.1, cb.2.2, inst * 2 ^ 20 + jb⟩ :=
        HitFrom_unique (hHF ray.hit (HitFrom_refl _ _ _ _ _)) jb cb hjb2 hcb2
          hbeat huni2 (by rw [htb, hval])
      have hbt2 : (bruteForceMesh st.mesh inst ray).hit.t = cb.1 := by
        rw [hbfe, hbrt, hval]
      have hbrec : (bruteForceMesh m inst ray).hit =
          ⟨cb.1, cb.2.1, cb.2.2, inst * 2 ^ 20 + jb⟩ := by
        rw [← hbfe]
        exact HitFrom_unique hsh jb cb hjb2 hcb2 hbeat huni2 hbt2
      rw [hr2, hbrec]

/-! ## A concrete one-triangle build for the traversal witness -/

theorem buildM1 : BVH.build mesh1 = some (BVH.buildSetup (BVH.mk0 mesh1)) := by
  apply BVH.build_one mesh1 rfl
  · intro a
    have e1 : ((BVH.buildSetup (BVH.mk0 mesh1)).bvhNode 0).leftFirst + 0 = 0 := by
      rw [BVH.buildSetup_root]
    rw [e1]
    have e2 : (BVH.buildSetup (BVH.mk0 mesh1)).triIdx 0 = 0 := by
      rw [BVH.buildSetup_triIdx]
      rfl
    rw [e2]
    rw [BVH.buildSetup_tri,
      if_pos (show 0 < (BVH.mk0 mesh1).mesh.triCount from Nat.one_pos)]
    show |(((⟨0, 0, 0⟩ : float3) + ⟨1, 0, 0⟩ + ⟨0, 1, 0⟩).smul 0.3333).nth a| ≤ BIG
    rw [float3.add_def, float3.add_def, float3.smul_def]
    unfold float3.nth
    dsimp only
    split_ifs <;>
      · rw [abs_le]
        constructor <;> norm_num [BIG]
  · rw [BVH.buildSetup_root]
    have hbb : BVH.boundsOf (BVH.buildSetup (BVH.mk0 mesh1)).mesh.tri
        (BVH.buildSetup (BVH.mk0 mesh1)).triIdx 0 (BVH.mk0 mesh1).mesh.triCount =
        (⟨0, 0, 0⟩, ⟨1, 1, 0⟩) := by
      rw [show (BVH.mk0 mesh1).mesh.triCount = 1 from rfl]
      unfold BVH.boundsOf
      rw [show List.range 1 = [0] from rfl, List.foldl_cons, List.foldl_nil]
      have e2 : (BVH.buildSetup (BVH.mk0 mesh1)).triIdx (0 + 0) = 0 := by
        rw [BVH.buildSetup_triIdx]
        rfl
      rw [e2]
      rw [BVH.buildSetup_tri,
        if_pos (show 0 < (BVH.mk0 mesh1).mesh.triCount from Nat.one_pos)]
      unfold BVH.growTri
      refine Prod.ext ?_ ?_ <;>
        · show float3.mk _ _ _ = _
          norm_num [float3.fminf, float3.fmaxf, float3.splat, float3.mk.injEq,
            BIG, min_def, max_def, BVH.mk0, mesh1, triUnit, mkTri]
    unfold BVHNode.CalculateNodeCost
    dsimp only
    rw [hbb]
    rw [show (BVH.mk0 mesh1).mesh.triCount = 1 from rfl]
    rw [float3.sub_def]
    dsimp only
    norm_num [BIG]

/-! (The C1 counterexample is stated at the end of the file, after the
concrete tie-scene evaluations it cites.) -/

/-! ## Concrete facts about the tie-scene builds -/

theorem flatSetup_root :
    (BVH.buildSetup (BVH.mk0 meshFlat)).bvhNode 0 = ⟨⟨0, 0, 1⟩, ⟨4, 4, 1⟩, 0, 1⟩ := by
  rw [BVH.buildSetup_root]
  have hbb : BVH.boundsOf (BVH.buildSetup (BVH.mk0 meshFlat)).mesh.tri
      (BVH.buildSetup (BVH.mk0 meshFlat)).triIdx 0 (BVH.mk0 meshFlat).mesh.triCount =
      (⟨0, 0, 1⟩, ⟨4, 4, 1⟩) := by
    rw [show (BVH.mk0 meshFlat).mesh.triCount = 1 from rfl]
    unfold BVH.boundsOf
    rw [show List.range 1 = [0] from rfl, List.foldl_cons, List.foldl_nil]
    have e2 : (BVH.buildSetup (BVH.mk0 meshFlat)).triIdx (0 + 0) = 0 := by
      rw [BVH.buildSetup_triIdx]
      rfl
    rw [e2, BVH.buildSetup_tri,
      if_pos (show 0 < (BVH.mk0 meshFlat).mesh.triCount from Nat.one_pos)]
    unfold BVH.growTri
    refine Prod.ext ?_ ?_ <;>
      · show float3.mk _ _ _ = _
        norm_num [float3.fminf, float3.fmaxf, float3.splat, float3.mk.injEq,
          BIG, min_def, max_def, BVH.mk0, meshFlat, triFlat, mkTri]
  rw [hbb]
  rfl

theorem slantSetup_root :
    (BVH.buildSetup (BVH.mk0 meshSlant)).bvhNode 0 =
      ⟨⟨0, 0, 1/2⟩, ⟨2, 2, 3/2⟩, 0, 1⟩ := by
  rw [BVH.buildSetup_root]
  have hbb : BVH.boundsOf (BVH.buildSetup (BVH.mk0 meshSlant)).mesh.tri
      (BVH.buildSetup (BVH.mk0 meshSlant)).triIdx 0 (BVH.mk0 meshSlant).mesh.triCount =
      (⟨0, 0, 1/2⟩, ⟨2, 2, 3/2⟩) := by
    rw [show (BVH.mk0 meshSlant).mesh.triCount = 1 from rfl]
    unfold BVH.boundsOf
    rw [show List.range 1 = [0] from rfl, List.foldl_cons, List.foldl_nil]
    have e2 : (BVH.buildSetup (BVH.mk0 meshSlant)).triIdx (0 + 0) = 0 := by
      rw [BVH.buildSetup_triIdx]
      rfl
    rw [e2, BVH.buildSetup_tri,
      if_pos (show 0 < (BVH.mk0 meshSlant).mesh.triCount from Nat.one_pos)]
    unfold BVH.growTri
    refine Prod.ext ?_ ?_ <;>
      · show float3.mk _ _ _ = _
        norm_num [float3.fminf, float3.fmaxf, float3.splat, float3.mk.injEq,
          BIG, min_def, max_def, BVH.mk0, meshSlant, triSlant, mkTri]
  rw [hbb]
  rfl

theorem buildFlat : BVH.build meshFlat = some stFlat := by
  apply BVH.build_one meshFlat rfl
  · intro a
    have e1 : ((BVH.buildSetup (BVH.mk0 meshFlat)).bvhNode 0).leftFirst + 0 = 0 := by
      rw [BVH.buildSetup_root]
    rw [e1]
    have e2 : (BVH.buildSetup (BVH.mk0 meshFlat)).triIdx 0 = 0 := by
      rw [BVH.buildSetup_triIdx]
      rfl
    rw [e2]
    rw [BVH.buildSetup_tri,
      if_pos (show 0 < (BVH.mk0 meshFlat).mesh.triCount from Nat.one_pos)]
    show |(((⟨0, 0, 1⟩ : float3) + ⟨4, 0, 1⟩ + ⟨0, 4, 1⟩).smul 0.3333).nth a| ≤ BIG
    rw [float3.add_def, float3.add_def, float3.smul_def]
    unfold float3.nth
    dsimp only
    split_ifs <;>
      · rw [abs_le]
        constructor <;> norm_num [BIG]
  · rw [flatSetup_root]
    unfold BVHNode.CalculateNodeCost
    rw [float3.sub_def]
    dsimp only
    norm_num [BIG]

theorem buildSlant : BVH.build meshSlant = some stSlant := by
  apply BVH.build_one meshSlant rfl
  · intro a
    have e1 : ((BVH.buildSetup (BVH.mk0 meshSlant)).bvhNode 0).leftFirst + 0 = 0 := by
      rw [BVH.buildSetup_root]
    rw [e1]
    have e2 : (BVH.buildSetup (BVH.mk0 meshSlant)).triIdx 0 = 0 := by
      rw [BVH.buildSetup_triIdx]
      rfl
    rw [e2]
    rw [BVH.buildSetup_tri,
      if_pos (show 0 < (BVH.mk0 meshSlant).mesh.triCount from Nat.one_pos)]
    show |(((⟨0, 0, 1⟩ : float3) + ⟨2, 0, 1/2⟩ + ⟨0, 2, 3/2⟩).smul 0.3333).nth a| ≤ BIG
    rw [float3.add_def, float3.add_def, float3.smul_def]
    unfold float3.nth
    dsimp only
    split_ifs <;>
      · rw [abs_le]
        constructor <;> norm_num [BIG]
  · rw [slantSetup_root]
    unfold BVHNode.CalculateNodeCost
    rw [float3.sub_def]
    dsimp only
    norm_num [BIG]

theorem TLAS.extEq (a b : TLAS) (h1 : a.blas = b.blas) (h2 : a.blasCount = b.blasCount)
    (h3 : a.tlasNode = b.tlasNode) (h4 : a.nodeIdx = b.nodeIdx)
    (h5 : a.nodesUsed = b.nodesUsed) : a = b := by
  cases a
  cases b
  cases h1
  cases h2
  cases h3
  cases h4
  cases h5
  rfl

theorem instFlat_eq :
    instFlat = ⟨stFlat, mat4.identity, mat4.identity, ⟨⟨0, 0, 1⟩, ⟨4, 4, 1⟩⟩, 0⟩ := by
  unfold instFlat BVHInstance.SetTransform
  simp only [show stFlat.bvhNode 0 = ⟨⟨0, 0, 1⟩, ⟨4, 4, 1⟩, 0, 1⟩ from flatSetup_root]
  rw [show List.range 8 = [0, 1, 2, 3, 4, 5, 6, 7] from rfl]
  simp only [List.foldl_cons, List.foldl_nil]
  norm_num [aabb.growP, TransformPosition, mat4.identity, aabb.empty,
    float3.fminf, float3.fmaxf, float3.splat, BIG, min_def, max_def,
    BVHInstance.mk.injEq, aabb.mk.injEq, float3.mk.injEq]

theorem instSlant_eq :
    instSlant = ⟨stSlant, mat4.identity, mat4.identity, ⟨⟨0, 0, 1/2⟩, ⟨2, 2, 3/2⟩⟩, 1⟩ := by
  unfold instSlant BVHInstance.SetTransform
  simp only [show stSlant.bvhNode 0 = ⟨⟨0, 0, 1/2⟩, ⟨2, 2, 3/2⟩, 0, 1⟩ from slantSetup_root]
  rw [show List.range 8 = [0, 1, 2, 3, 4, 5, 6, 7] from rfl]
  simp only [List.foldl_cons, List.foldl_nil]
  norm_num [aabb.growP, TransformPosition, mat4.identity, aabb.empty,
    float3.fminf, float3.fmaxf, float3.splat, BIG, min_def, max_def,
    BVHInstance.mk.injEq, aabb.mk.injEq, float3.mk.injEq]

theorem tlL_eq :
    ((List.range tlTie0.blasCount).foldl
      (fun (tl : TLAS) i =>
        let tl1 : TLAS := { tl with
          nodeIdx := Function.update tl.nodeIdx i tl.nodesUsed }
        let tl2 := tl1.setTlasNode tl1.nodesUsed
          { tl1.tlasNode tl1.nodesUsed with
            aabbMin := (tl1.blas i).bounds.bmin,
            aabbMax := (tl1.blas i).bounds.bmax,
            BLAS := i, leftRight := 0 }
        { tl2 with nodesUsed := tl2.nodesUsed + 1 })
      { tlTie0 with nodesUsed := 1 }) = tlLX := by
  rw [show List.range tlTie0.blasCount = [0, 1] from rfl]
  simp only [List.foldl_cons, List.foldl_nil, TLAS.setTlasNode]
  refine TLAS.extEq _ _ rfl rfl ?_ ?_ rfl
  · funext i
    simp only [Function.update_apply]
    show (if i = 2 then _ else if i = 1 then _ else (fun _ => (default : TLASNode)) i) = _
    have hb0 : (tlTie0.blas 0).bounds = ⟨⟨0, 0, 1⟩, ⟨4, 4, 1⟩⟩ := by
      show (tieBlas 0).bounds = _
      rw [show tieBlas 0 = instFlat from rfl, instFlat_eq]
    have hb1 : (tlTie0.blas 1).bounds = ⟨⟨0, 0, 1/2⟩, ⟨2, 2, 3/2⟩⟩ := by
      show (tieBlas 1).bounds = _
      rw [show tieBlas 1 = instSlant from rfl, instSlant_eq]
    by_cases h2 : i = 2
    · subst h2
      simp only [if_pos rfl]
      rw [hb1]
      rfl
    · rw [if_neg h2]
      by_cases h1 : i = 1
      · subst h1
        simp only [if_pos rfl]
        rw [hb0]
        rfl
      · rw [if_neg h1]
        show default = tlLX.tlasNode i
        show default = (if i = 1 then nodeF else if i = 2 then nodeS else default)
        rw [if_neg h1, if_neg h2]
  · funext i
    simp only [Function.update_apply]
    show (if i = 1 then 2 else if i = 0 then 1 else tlTie0.nodeIdx i) = tlLX.nodeIdx i
    show _ = (if i = 0 then 1 else if i = 1 then 2 else 0)
    by_cases h1 : i = 1
    · subst h1
      rfl
    · rw [if_neg h1, if_neg h1]
      by_cases h0 : i = 0
      · rw [if_pos h0, if_pos h0]
      · rw [if_neg h0, if_neg h0]
        rfl

theorem fbm_tlLX_0 : TLAS.FindBestMatch tlLX 2 0 = 1 := by
  unfold TLAS.FindBestMatch
  rw [show List.range 2 = [0, 1] from rfl]
  simp only [List.foldl_cons, List.foldl_nil]
  norm_num [tlLX, nodeF, nodeS, float3.fminf, float3.fmaxf, float3.sub_def,
    BIG, min_def, max_def]

theorem fbm_tlLX_1 : TLAS.FindBestMatch tlLX 2 1 = 0 := by
  unfold TLAS.FindBestMatch
  rw [show List.range 2 = [0, 1] from rfl]
  simp only [List.foldl_cons, List.foldl_nil]
  norm_num [tlLX, nodeF, nodeS, float3.fminf, float3.fmaxf, float3.sub_def,
    BIG, min_def, max_def]

theorem tlTie_build : TLAS.Build tlTie0 8 = some tlTieX := by
  unfold TLAS.Build
  simp only []
  rw [tlL_eq]
  rw [show tlLX.blasCount = 2 from rfl, fbm_tlLX_0]
  rw [show (8 : Nat) = 7 + 1 from rfl]
  rw [TLAS.buildLoop]
  rw [if_pos (show 1 < 2 by norm_num)]
  rw [show ((1 : Int)).toNat = 1 from rfl]
  rw [fbm_tlLX_1]
  simp only []
  rw [if_pos (show ((0 : Nat) : Int) = (0 : Int) from rfl)]
  rw [TLAS.buildLoop]
  rw [if_neg (show ¬ (1 < 2 - 1) by norm_num)]
  simp only [TLAS.setTlasNode]
  have hM :
      ({ aabbMin := float3.fminf (tlLX.tlasNode (tlLX.nodeIdx 0)).aabbMin (tlLX.tlasNode (tlLX.nodeIdx 1)).aabbMin,
         aabbMax := float3.fmaxf (tlLX.tlasNode (tlLX.nodeIdx 0)).aabbMax (tlLX.tlasNode (tlLX.nodeIdx 1)).aabbMax,
         leftRight := tlLX.nodeIdx 0 + tlLX.nodeIdx 1 * 2 ^ 16,
         BLAS := (tlLX.tlasNode tlLX.nodesUsed).BLAS } : TLASNode) = nodeR := by
    have e0 : tlLX.tlasNode (tlLX.nodeIdx 0) = nodeF := rfl
    have e1 : tlLX.tlasNode (tlLX.nodeIdx 1) = nodeS := rfl
    have e2 : (tlLX.tlasNode tlLX.nodesUsed).BLAS = 0 := rfl
    have e3 : tlLX.nodeIdx 0 + tlLX.nodeIdx 1 * 2 ^ 16 = 131073 := rfl
    rw [e0, e1, e2, e3]
    norm_num [nodeF, nodeS, nodeR, float3.fminf, float3.fmaxf, min_def, max_def,
      TLASNode.mk.injEq, float3.mk.injEq]
  rw [hM]
  show some _ = some tlTieX
  congr 1
  refine TLAS.extEq _ _ rfl rfl ?_ ?_ rfl
  · funext i
    by_cases h0 : i = 0
    · subst h0
      rfl
    · by_cases h1 : i = 1
      · subst h1
        rfl
      · by_cases h2 : i = 2
        · subst h2
          rfl
        · by_cases h3 : i = 3
          · subst h3
            rfl
          · show Function.update (Function.update tlLX.tlasNode tlLX.nodesUsed nodeR) 0
                _ i = tlTieX.tlasNode i
            rw [Function.update_noteq h0, Function.update_noteq
              (show i ≠ tlLX.nodesUsed from h3)]
            show (if i = 1 then nodeF else if i = 2 then nodeS else default) = _
            show _ = (if i = 0 then nodeR else if i = 1 then nodeF
              else if i = 2 then nodeS else if i = 3 then nodeR else default)
            rw [if_neg h1, if_neg h1, if_neg h2, if_neg h2, if_neg h0, if_neg h3]
  · funext i
    by_cases h0 : i = 0
    · subst h0
      rfl
    · by_cases h1 : i = 1
      · subst h1
        rfl
      · show Function.update (Function.update tlLX.nodeIdx 0 tlLX.nodesUsed) 1 _ i =
          tlTieX.nodeIdx i
        rw [Function.update_noteq h1, Function.update_noteq h0]
        show (if i = 0 then 1 else if i = 1 then 2 else 0) = _
        show _ = (if i = 0 then 3 else if i = 1 then 2 else 0)
        rw [if_neg h0, if_neg h0, if_neg h1]

/-! ## Evaluating the tie scene: candidates, leaf visits and the trace -/

theorem TransformPosition_id (p : float3) : TransformPosition p mat4.identity = p := by
  unfold TransformPosition mat4.identity
  cases p with
  | mk x y z =>
    simp only [float3.mk.injEq]
    refine ⟨by ring, by ring, by ring⟩

theorem TransformVector_id (v : float3) : TransformVector v mat4.identity = v := by
  unfold TransformVector mat4.identity
  cases v with
  | mk x y z =>
    simp only [float3.mk.injEq]
    refine ⟨by ring, by ring, by ring⟩

theorem candFlatVal :
    candidate tieRay.O tieRay.D triFlat = some (1, 1/32, 1/32) := by
  show candidate ⟨0, 0, 0⟩ ⟨1/8, 1/8, 1⟩ triFlat = some (1, 1/32, 1/32)
  have hA : MT.mtA ⟨1/8, 1/8, 1⟩ triFlat = -16 := by
    unfold MT.mtA triFlat mkTri
    simp only [float3.sub_def]
    unfold float3.dot float3.cross
    norm_num
  have hU : MT.mtU ⟨0, 0, 0⟩ ⟨1/8, 1/8, 1⟩ triFlat = 1/32 := by
    unfold MT.mtU
    rw [hA]
    unfold triFlat mkTri
    simp only [float3.sub_def]
    unfold float3.dot float3.cross
    norm_num
  have hV : MT.mtV ⟨0, 0, 0⟩ ⟨1/8, 1/8, 1⟩ triFlat = 1/32 := by
    unfold MT.mtV
    rw [hA]
    unfold triFlat mkTri
    simp only [float3.sub_def]
    unfold float3.dot float3.cross
    norm_num
  have hT : MT.mtT ⟨0, 0, 0⟩ ⟨1/8, 1/8, 1⟩ triFlat = 1 := by
    unfold MT.mtT
    rw [hA]
    unfold triFlat mkTri
    simp only [float3.sub_def]
    unfold float3.dot float3.cross
    norm_num
  unfold candidate
  rw [hA, hU, hV, hT]
  norm_num

theorem candSlantVal :
    candidate tieRay.O tieRay.D triSlant = some (1, 1/16, 1/16) := by
  show candidate ⟨0, 0, 0⟩ ⟨1/8, 1/8, 1⟩ triSlant = some (1, 1/16, 1/16)
  have hA : MT.mtA ⟨1/8, 1/8, 1⟩ triSlant = -4 := by
    unfold MT.mtA triSlant mkTri
    simp only [float3.sub_def]
    unfold float3.dot float3.cross
    norm_num
  have hU : MT.mtU ⟨0, 0, 0⟩ ⟨1/8, 1/8, 1⟩ triSlant = 1/16 := by
    unfold MT.mtU
    rw [hA]
    unfold triSlant mkTri
    simp only [float3.sub_def]
    unfold float3.dot float3.cross
    norm_num
  have hV : MT.mtV ⟨0, 0, 0⟩ ⟨1/8, 1/8, 1⟩ triSlant = 1/16 := by
    unfold MT.mtV
    rw [hA]
    unfold triSlant mkTri
    simp only [float3.sub_def]
    unfold float3.dot float3.cross
    norm_num
  have hT : MT.mtT ⟨0, 0, 0⟩ ⟨1/8, 1/8, 1⟩ triSlant = 1 := by
    unfold MT.mtT
    rw [hA]
    unfold triSlant mkTri
    simp only [float3.sub_def]
    unfold float3.dot float3.cross
    norm_num
  unfold candidate
  rw [hA, hU, hV, hT]
  norm_num

theorem stFlat_tri0 :
    stFlat.mesh.tri 0 = { triFlat with
      centroid := ((⟨0, 0, 1⟩ : float3) + ⟨4, 0, 1⟩ + ⟨0, 4, 1⟩).smul 0.3333 } := by
  show (BVH.buildSetup (BVH.mk0 meshFlat)).mesh.tri 0 = _
  rw [BVH.buildSetup_tri,
    if_pos (show 0 < (BVH.mk0 meshFlat).mesh.triCount from Nat.one_pos)]
  rfl

theorem stSlant_tri0 :
    stSlant.mesh.tri 0 = { triSlant with
      centroid := ((⟨0, 0, 1⟩ : float3) + ⟨2, 0, 1/2⟩ + ⟨0, 2, 3/2⟩).smul 0.3333 } := by
  show (BVH.buildSetup (BVH.mk0 meshSlant)).mesh.tri 0 = _
  rw [BVH.buildSetup_tri,
    if_pos (show 0 < (BVH.mk0 meshSlant).mesh.triCount from Nat.one_pos)]
  rfl

theorem stSlant_intersect :
    BVH.Intersect stSlant tieRay1 1 1 =
      some { tieRay1 with hit := ⟨1, 1/16, 1/16, 2 ^ 20⟩ } := by
  have htix : stSlant.triIdx 0 = 0 := by
    show (BVH.buildSetup (BVH.mk0 meshSlant)).triIdx 0 = 0
    rw [BVH.buildSetup_triIdx]
    rfl
  have hstep : BVH.intersectStep stSlant 1 ⟨tieRay1, 0, []⟩ =
      Sum.inl { tieRay1 with hit := ⟨1, 1/16, 1/16, 2 ^ 20⟩ } := by
    simp only [BVH.intersectStep]
    rw [show stSlant.bvhNode 0 = ⟨⟨0, 0, 1/2⟩, ⟨2, 2, 3/2⟩, 0, 1⟩ from slantSetup_root]
    rw [if_pos (show BVHNode.isLeaf ⟨⟨0, 0, 1/2⟩, ⟨2, 2, 3/2⟩, 0, 1⟩ = true from rfl)]
    dsimp only
    rw [show List.range 1 = [0] from rfl]
    simp only [List.foldl_cons, List.foldl_nil]
    norm_num [htix]
    rw [stSlant_tri0, IntersectTri_centroid, IntersectTri_eq_candidate]
    rw [show tieRay1.O = tieRay.O from rfl, show tieRay1.D = tieRay.D from rfl,
      candSlantVal]
    dsimp only
    rw [if_pos (show (1 : ℚ) < tieRay1.hit.t by
      show (1 : ℚ) < BIG
      norm_num [BIG])]
  show BVH.intersectLoop stSlant 1 (0 + 1) ⟨tieRay1, 0, []⟩ = _
  rw [BVH.intersectLoop, hstep]

theorem stFlat_keep :
    BVH.Intersect stFlat tieRay2 0 1 = some tieRay2 := by
  have htix : stFlat.triIdx 0 = 0 := by
    show (BVH.buildSetup (BVH.mk0 meshFlat)).triIdx 0 = 0
    rw [BVH.buildSetup_triIdx]
    rfl
  have hstep : BVH.intersectStep stFlat 0 ⟨tieRay2, 0, []⟩ = Sum.inl tieRay2 := by
    simp only [BVH.intersectStep]
    rw [show stFlat.bvhNode 0 = ⟨⟨0, 0, 1⟩, ⟨4, 4, 1⟩, 0, 1⟩ from flatSetup_root]
    rw [if_pos (show BVHNode.isLeaf ⟨⟨0, 0, 1⟩, ⟨4, 4, 1⟩, 0, 1⟩ = true from rfl)]
    dsimp only
    rw [show List.range 1 = [0] from rfl]
    simp only [List.foldl_cons, List.foldl_nil]
    norm_num [htix]
    rw [stFlat_tri0, IntersectTri_centroid, IntersectTri_eq_candidate]
    rw [show tieRay2.O = tieRay.O from rfl, show tieRay2.D = tieRay.D from rfl,
      candFlatVal]
    dsimp only
    rw [if_neg (show ¬ ((1 : ℚ) < tieRay2.hit.t) by
      show ¬ ((1 : ℚ) < 1)
      norm_num)]
  show BVH.intersectLoop stFlat 0 (0 + 1) ⟨tieRay2, 0, []⟩ = _
  rw [BVH.intersectLoop, hstep]

theorem instSlant_visit :
    BVHInstance.Intersect instSlant tieRay1 1 = some tieRay2 := by
  simp only [BVHInstance.Intersect]
  rw [show instSlant.invTransform = mat4.identity from rfl]
  rw [TransformPosition_id, TransformVector_id]
  rw [show instSlant.bvh = stSlant from rfl, show instSlant.idx = 1 from rfl]
  rw [show ({ tieRay1 with O := tieRay1.O, D := tieRay1.D, rD := float3.recip tieRay1.D } : Ray) = tieRay1 from rfl]
  rw [stSlant_intersect]
  rfl

theorem instFlat_keep :
    BVHInstance.Intersect instFlat tieRay2 1 = some tieRay2 := by
  simp only [BVHInstance.Intersect]
  rw [show instFlat.invTransform = mat4.identity from rfl]
  rw [TransformPosition_id, TransformVector_id]
  rw [show instFlat.bvh = stFlat from rfl, show instFlat.idx = 0 from rfl]
  rw [show ({ tieRay2 with O := tieRay2.O, D := tieRay2.D, rD := float3.recip tieRay2.D } : Ray) = tieRay2 from rfl]
  rw [stFlat_keep]
  rfl

theorem dFlatVal : IntersectAABB tieRay1 nodeF.aabbMin nodeF.aabbMax = 1 := by
  unfold IntersectAABB
  norm_num [tieRay1, tieRay, nodeF, float3.recip, BIG, min_def, max_def]

theorem dSlantVal : IntersectAABB tieRay1 nodeS.aabbMin nodeS.aabbMax = 1/2 := by
  unfold IntersectAABB
  norm_num [tieRay1, tieRay, nodeS, float3.recip, BIG, min_def, max_def]

theorem tieStep0 : TLAS.intersectStep tlTieX 1 ⟨tieRay1, 0, []⟩ =
    some (Sum.inr ⟨tieRay1, 2, [1]⟩) := by
  simp only [TLAS.intersectStep]
  rw [show tlTieX.tlasNode 0 = nodeR from rfl]
  rw [if_neg (show ¬ (nodeR.isLeaf = true) by decide)]
  rw [show nodeR.leftRight % 2 ^ 16 = 1 from rfl]
  rw [show nodeR.leftRight / 2 ^ 16 = 2 from rfl]
  rw [show tlTieX.tlasNode 1 = nodeF from rfl]
  rw [show tlTieX.tlasNode 2 = nodeS from rfl]
  rw [dFlatVal, dSlantVal]
  rw [if_pos (show (1 : ℚ) > 1/2 by norm_num),
    if_pos (show (1 : ℚ) > 1/2 by norm_num),
    if_pos (show (1 : ℚ) > 1/2 by norm_num),
    if_pos (show (1 : ℚ) > 1/2 by norm_num)]
  rw [if_neg (show ¬ ((1 : ℚ)/2 = BIG) by norm_num [BIG])]
  rw [if_pos (show (1 : ℚ) ≠ BIG by norm_num [BIG])]

theorem tieStep1 : TLAS.intersectStep tlTieX 1 ⟨tieRay1, 2, [1]⟩ =
    some (Sum.inr ⟨tieRay2, 1, []⟩) := by
  simp only [TLAS.intersectStep]
  rw [show tlTieX.tlasNode 2 = nodeS from rfl]
  rw [if_pos (show nodeS.isLeaf = true from rfl)]
  rw [show tlTieX.blas nodeS.BLAS = instSlant from rfl]
  rw [instSlant_visit]

theorem tieStep2 : TLAS.intersectStep tlTieX 1 ⟨tieRay2, 1, []⟩ =
    some (Sum.inl tieRay2) := by
  simp only [TLAS.intersectStep]
  rw [show tlTieX.tlasNode 1 = nodeF from rfl]
  rw [if_pos (show nodeF.isLeaf = true from rfl)]
  rw [show tlTieX.blas nodeF.BLAS = instFlat from rfl]
  rw [instFlat_keep]

theorem tlTie_intersect : TLAS.Intersect tlTieX tieRay 3 1 = some tieRay2 := by
  show TLAS.intersectLoop tlTieX 1 (2 + 1) ⟨tieRay1, 0, []⟩ = some tieRay2
  rw [TLAS.intersectLoop, tieStep0]
  show TLAS.intersectLoop tlTieX 1 (1 + 1) ⟨tieRay1, 2, [1]⟩ = some tieRay2
  rw [TLAS.intersectLoop, tieStep1]
  show TLAS.intersectLoop tlTieX 1 (0 + 1) ⟨tieRay2, 1, []⟩ = some tieRay2
  rw [TLAS.intersectLoop, tieStep2]

theorem bruteFlat : bruteForceInstance instFlat tieRay = tieRayB := by
  simp only [bruteForceInstance]
  rw [show instFlat.invTransform = mat4.identity from rfl]
  rw [TransformPosition_id, TransformVector_id]
  rw [show instFlat.bvh = stFlat from rfl, show instFlat.idx = 0 from rfl]
  rw [show ({ tieRay with O := tieRay.O, D := tieRay.D, rD := float3.recip tieRay.D } : Ray) = tieRay1 from rfl]
  have htix : stFlat.triIdx 0 = 0 := by
    show (BVH.buildSetup (BVH.mk0 meshFlat)).triIdx 0 = 0
    rw [BVH.buildSetup_triIdx]
    rfl
  have hbm : bruteForceMesh stFlat.mesh 0 tieRay1 =
      { tieRay1 with hit := ⟨1, 1/32, 1/32, 0⟩ } := by
    unfold bruteForceMesh
    rw [show stFlat.mesh.triCount = 1 from rfl]
    rw [show List.range 1 = [0] from rfl]
    simp only [List.foldl_cons, List.foldl_nil]
    rw [stFlat_tri0, IntersectTri_centroid, IntersectTri_eq_candidate]
    rw [show tieRay1.O = tieRay.O from rfl, show tieRay1.D = tieRay.D from rfl,
      candFlatVal]
    dsimp only
    rw [if_pos (show (1 : ℚ) < tieRay1.hit.t by
      show (1 : ℚ) < BIG
      norm_num [BIG])]
    norm_num
  rw [hbm]
  rfl

theorem bruteSlantKeep : bruteForceInstance instSlant tieRayB = tieRayB := by
  simp only [bruteForceInstance]
  rw [show instSlant.invTransform = mat4.identity from rfl]
  rw [TransformPosition_id, TransformVector_id]
  rw [show instSlant.bvh = stSlant from rfl, show instSlant.idx = 1 from rfl]
  rw [show ({ tieRayB with O := tieRayB.O, D := tieRayB.D, rD := float3.recip tieRayB.D } : Ray) = tieRay1B from rfl]
  have htix : stSlant.triIdx 0 = 0 := by
    show (BVH.buildSetup (BVH.mk0 meshSlant)).triIdx 0 = 0
    rw [BVH.buildSetup_triIdx]
    rfl
  have hbm : bruteForceMesh stSlant.mesh 1 tieRay1B = tieRay1B := by
    unfold bruteForceMesh
    rw [show stSlant.mesh.triCount = 1 from rfl]
    rw [show List.range 1 = [0] from rfl]
    simp only [List.foldl_cons, List.foldl_nil]
    rw [stSlant_tri0, IntersectTri_centroid, IntersectTri_eq_candidate]
    rw [show tieRay1B.O = tieRay.O from rfl, show tieRay1B.D = tieRay.D from rfl,
      candSlantVal]
    dsimp only
    rw [if_neg (show ¬ ((1 : ℚ) < tieRay1B.hit.t) by
      show ¬ ((1 : ℚ) < 1)
      norm_num)]
  rw [hbm]
  rfl

theorem tlTie_brute : bruteForceTLAS tlTieX tieRay = tieRayB := by
  unfold bruteForceTLAS
  rw [show List.range tlTieX.blasCount = [0, 1] from rfl]
  simp only [List.foldl_cons, List.foldl_nil]
  rw [show tlTieX.blas 0 = instFlat from rfl, bruteFlat]
  rw [show tlTieX.blas 1 = instSlant from rfl, bruteSlantKeep]

/-- C1 counterexample, two parts. (1) Over the 0-triangle mesh the original
claim fails outright: the build succeeds, the brute-force scan returns the
ray unchanged, but the stack traversal never terminates, so it never
reports the brute-force hit. (2) On the two-instance tie scene both
builds and the TLAS build succeed, both triangles are hit at exactly
`t = 1` (an exact tie, also exact in IEEE floats since every intermediate
is a small dyadic rational), and `TLAS::Intersect` keeps the record of the
instance the traversal visits first (`instPrim = 1 * 2^20`) while the
index-order brute-force scan keeps instance 0's record (`instPrim = 0`):
the closest `t` agrees but the full hit records differ, so on exact ties
the record-equality half of the claim is false and the strict-uniqueness
hypothesis of the amended statement cannot be dropped. -/
theorem c1_counterexample :
    (BVH.build mesh0 = some stEmpty ∧
     (¬ BVH.IntersectTerminates stEmpty 0 rayC) ∧
     bruteForceMesh mesh0 0 rayC = rayC) ∧
    (BVH.build meshFlat = some stFlat ∧
     BVH.build meshSlant = some stSlant ∧
     TLAS.Build tlTie0 8 = some tlTieX ∧
     candidate tieRay.O tieRay.D triFlat = some (1, 1/32, 1/32) ∧
     candidate tieRay.O tieRay.D triSlant = some (1, 1/16, 1/16) ∧
     TLAS.Intersect tlTieX tieRay 3 1 = some tieRay2 ∧
     bruteForceTLAS tlTieX tieRay = tieRayB ∧
     tieRay2.hit.t = tieRayB.hit.t ∧
     tieRay2.hit.instPrim ≠ tieRayB.hit.instPrim) := by
  refine ⟨⟨?_, ?_, rfl⟩, buildFlat, buildSlant, tlTie_build, candFlatVal,
    candSlantVal, tlTie_intersect, tlTie_brute, rfl, by decide⟩
  · rw [stEmpty_eq]
    exact BVH.build_empty mesh0 rfl
  · rintro ⟨fuel, r, hr⟩
    unfold BVH.Intersect at hr
    rw [stEmpty_loop_none fuel] at hr
    exact Option.noConfusion hr

/-! ## Scene-level `bestTI`, pair lists and `HitFromI` -/

theorem bestTI_append (tl : TLAS) (O D : float3) (t0 : ℚ)
    (l1 l2 : List (Nat × Nat)) :
    bestTI tl O D t0 (l1 ++ l2) = bestTI tl O D (bestTI tl O D t0 l1) l2 := by
  unfold bestTI
  rw [List.foldl_append]

theorem bestTI_perm (tl : TLAS) (O D : float3) (t0 : ℚ)
    {l l' : List (Nat × Nat)} (hp : List.Perm l l') :
    bestTI tl O D t0 l = bestTI tl O D t0 l' := by
  unfold bestTI
  refine hp.foldl_eq' ?_ t0
  intro x _ y _ z
  rcases hc1 : candidateI tl O D x with _ | c1 <;>
    rcases hc2 : candidateI tl O D y with _ | c2 <;>
      dsimp only <;> split_ifs <;> first | rfl | linarith

theorem bestTI_le_init (tl : TLAS) (O D : float3) (l : List (Nat × Nat)) :
    ∀ t0, bestTI tl O D t0 l ≤ t0 := by
  induction l with
  | nil => exact fun t0 => le_refl t0
  | cons p l ih =>
    intro t0
    rw [bestTI, List.foldl_cons, ← bestTI]
    refine (ih _).trans ?_
    rcases hc : candidateI tl O D p with _ | c
    · exact le_refl t0
    · dsimp only
      split_ifs with h
      · linarith
      · exact le_refl t0

theorem bestTI_le_of_mem (tl : TLAS) (O D : float3) (l : List (Nat × Nat)) :
    ∀ t0 p c, p ∈ l → candidateI tl O D p = some c →
      bestTI tl O D t0 l ≤ c.1 := by
  induction l with
  | nil => intro t0 p c hp; exact absurd hp (List.not_mem_nil p)
  | cons x l ih =>
    intro t0 p c hp hc
    rw [bestTI, List.foldl_cons, ← bestTI]
    rcases List.mem_cons.mp hp with hp | hp
    · subst hp
      refine (bestTI_le_init tl O D l _).trans ?_
      rw [hc]
      dsimp only
      split_ifs with h
      · exact le_refl _
      · linarith
    · exact ih _ p c hp hc

theorem bestTI_drop (tl : TLAS) (O D : float3) (l : List (Nat × Nat)) :
    ∀ t0, (∀ p ∈ l, ∀ c, candidateI tl O D p = some c → t0 ≤ c.1) →
      bestTI tl O D t0 l = t0 := by
  induction l with
  | nil => exact fun t0 _ => rfl
  | cons x l ih =>
    intro t0 h
    rw [bestTI, List.foldl_cons, ← bestTI]
    have hx : (match candidateI tl O D x with
        | some c => if c.1 < t0 then c.1 else t0
        | none => t0) = t0 := by
      rcases hc : candidateI tl O D x with _ | c
      · rfl
      · dsimp only
        rw [if_neg (by have := h x (by simp) c hc; linarith)]
    rw [hx]
    exact ih t0 (fun p hp c hc => h p (by simp [hp]) c hc)

theorem bestTI_swap (tl : TLAS) (O D : float3) (t0 : ℚ)
    (A B I : List (Nat × Nat)) :
    bestTI tl O D t0 (A ++ (B ++ I)) = bestTI tl O D t0 (B ++ (A ++ I)) := by
  rw [← List.append_assoc, ← List.append_assoc]
  exact bestTI_perm tl O D t0 (List.Perm.append_right I List.perm_append_comm)

theorem bestTI_drop_mid (tl : TLAS) (O D : float3) (t0 : ℚ)
    (A B I : List (Nat × Nat))
    (hB : ∀ p ∈ B, ∀ c, candidateI tl O D p = some c → t0 ≤ c.1) :
    bestTI tl O D t0 (A ++ (B ++ I)) = bestTI tl O D t0 (A ++ I) := by
  rw [bestTI_append, bestTI_append, bestTI_append]
  have hmid : bestTI tl O D (bestTI tl O D t0 A) B = bestTI tl O D t0 A := by
    apply bestTI_drop
    intro p hp c hc
    exact le_trans (bestTI_le_init tl O D A t0) (hB p hp c hc)
  rw [hmid]

theorem bestTI_drop_front (tl : TLAS) (O D : float3) (t0 : ℚ)
    (B I : List (Nat × Nat))
    (hB : ∀ p ∈ B, ∀ c, candidateI tl O D p = some c → t0 ≤ c.1) :
    bestTI tl O D t0 (B ++ I) = bestTI tl O D t0 I := by
  rw [bestTI_append, bestTI_drop tl O D B t0 hB]

theorem bestTI_cases (tl : TLAS) (O D : float3) (l : List (Nat × Nat)) :
    ∀ t0, bestTI tl O D t0 l = t0 ∨
      ∃ p ∈ l, ∃ c, candidateI tl O D p = some c ∧ bestTI tl O D t0 l = c.1 := by
  induction l with
  | nil => intro t0; exact Or.inl rfl
  | cons x l ih =>
    intro t0
    rw [bestTI, List.foldl_cons, ← bestTI]
    rcases hc : candidateI tl O D x with _ | cx
    · dsimp only
      rcases ih t0 with h | ⟨p, hp, c, hcc, hbt⟩
      · exact Or.inl h
      · exact Or.inr ⟨p, by simp [hp], c, hcc, hbt⟩
    · dsimp only
      by_cases hlt : cx.1 < t0
      · rw [if_pos hlt]
        rcases ih cx.1 with h | ⟨p, hp, c, hcc, hbt⟩
        · exact Or.inr ⟨x, by simp, cx, hc, h⟩
        · exact Or.inr ⟨p, by simp [hp], c, hcc, hbt⟩
      · rw [if_neg hlt]
        rcases ih t0 with h | ⟨p, hp, c, hcc, hbt⟩
        · exact Or.inl h
        · exact Or.inr ⟨p, by simp [hp], c, hcc, hbt⟩

theorem bestTI_pairsOf (tl : TLAS) (O D : float3) (t0 : ℚ) (i : Nat) :
    bestTI tl O D t0 (pairsOf tl i) =
      bestT (tl.blas i).bvh.mesh (objO (tl.blas i) O) (objD (tl.blas i) D) t0
        (List.range (tl.blas i).bvh.mesh.triCount) := by
  unfold bestTI pairsOf bestT
  rw [List.foldl_map]
  rfl

theorem pairsOfL_append (tl : TLAS) (l1 l2 : List Nat) :
    pairsOfL tl (l1 ++ l2) = pairsOfL tl l1 ++ pairsOfL tl l2 := by
  induction l1 with
  | nil => rfl
  | cons x l ih =>
    show pairsOf tl x ++ pairsOfL tl (l ++ l2) =
      (pairsOf tl x ++ pairsOfL tl l) ++ pairsOfL tl l2
    rw [ih, List.append_assoc]

theorem pairsOfL_perm (tl : TLAS) {l l' : List Nat} (hp : List.Perm l l') :
    List.Perm (pairsOfL tl l) (pairsOfL tl l') := by
  induction hp with
  | nil => exact List.Perm.refl _
  | cons x h ih => exact List.Perm.append_left (pairsOf tl x) ih
  | swap x y l =>
    show List.Perm (pairsOf tl y ++ (pairsOf tl x ++ pairsOfL tl l))
      (pairsOf tl x ++ (pairsOf tl y ++ pairsOfL tl l))
    rw [← List.append_assoc, ← List.append_assoc]
    exact List.Perm.append_right _ List.perm_append_comm
  | trans h1 h2 ih1 ih2 => exact ih1.trans ih2

theorem pairsOf_mem {tl : TLAS} {i : Nat} {p : Nat × Nat} (hp : p ∈ pairsOf tl i) :
    p.1 = i ∧ p.2 < (tl.blas i).bvh.mesh.triCount := by
  unfold pairsOf at hp
  rcases List.mem_map.mp hp with ⟨j, hj, hpe⟩
  rw [List.mem_range] at hj
  rw [← hpe]
  exact ⟨rfl, hj⟩

theorem pairsOfL_mem {tl : TLAS} {l : List Nat} {p : Nat × Nat} :
    p ∈ pairsOfL tl l → p.1 ∈ l ∧ p.2 < (tl.blas p.1).bvh.mesh.triCount := by
  induction l with
  | nil => intro hp; exact absurd hp (List.not_mem_nil p)
  | cons x l ih =>
    intro hp
    rcases List.mem_append.mp hp with hp | hp
    · obtain ⟨h1, h2⟩ := pairsOf_mem hp
      subst h1
      exact ⟨by simp, h2⟩
    · obtain ⟨h1, h2⟩ := ih hp
      exact ⟨by simp [h1], h2⟩

theorem pairsOf_mem_of (tl : TLAS) (i j : Nat)
    (hj : j < (tl.blas i).bvh.mesh.triCount) : (i, j) ∈ pairsOf tl i := by
  unfold pairsOf
  exact List.mem_map.mpr ⟨j, List.mem_range.mpr hj, rfl⟩

theorem HitFromI_refl (tl : TLAS) (O D : float3) (h0 : Hit) :
    HitFromI tl O D h0 h0 := Or.inl rfl

theorem HitFromI_t_le {tl : TLAS} {O D : float3} {h0 h : Hit}
    (hh : HitFromI tl O D h0 h) : h.t ≤ h0.t := by
  rcases hh with rfl | ⟨hlt, _⟩
  · exact le_refl _
  · exact le_of_lt hlt

theorem HitFromI_trans {tl : TLAS} {O D : float3} {h0 h1 h2 : Hit}
    (h01 : HitFromI tl O D h0 h1) (h12 : HitFromI tl O D h1 h2) :
    HitFromI tl O D h0 h2 := by
  rcases h12 with rfl | ⟨hlt, i, j, hi, hj, hc, hip⟩
  · exact h01
  · exact Or.inr ⟨lt_of_lt_of_le hlt (HitFromI_t_le h01), i, j, hi, hj, hc, hip⟩

theorem HitFromI_eq_of_no_beat {tl : TLAS} {O D : float3} {h0 h : Hit}
    (hh : HitFromI tl O D h0 h) (hts : h.t = h0.t) : h = h0 := by
  rcases hh with rfl | ⟨hlt, _⟩
  · rfl
  · rw [hts] at hlt
    exact absurd hlt (lt_irrefl _)

theorem HitFromI_unique {tl : TLAS} {O D : float3} {h0 h : Hit}
    (hh : HitFromI tl O D h0 h) (pb : Nat × Nat) (cb : ℚ × ℚ × ℚ)
    (hpb1 : pb.1 < tl.blasCount)
    (hpb2 : pb.2 < (tl.blas pb.1).bvh.mesh.triCount)
    (hcb : candidateI tl O D pb = some cb) (hbeat : cb.1 < h0.t)
    (huni : ∀ p c, p.1 < tl.blasCount →
      p.2 < (tl.blas p.1).bvh.mesh.triCount → p ≠ pb →
      candidateI tl O D p = some c → cb.1 < c.1)
    (hts : h.t = cb.1) :
    h = ⟨cb.1, cb.2.1, cb.2.2, (tl.blas pb.1).idx * 2 ^ 20 + pb.2⟩ := by
  obtain ⟨pb1, pb2⟩ := pb
  rcases hh with rfl | ⟨hlt, i, j, hi, hj, hcj, hip⟩
  · rw [hts] at hbeat
    exact absurd hbeat (lt_irrefl _)
  · by_cases hjj : (i, j) = (pb1, pb2)
    · obtain ⟨he1, he2⟩ := Prod.mk.injEq i j pb1 pb2 ▸ hjj
      subst he1
      subst he2
      rw [hcb] at hcj
      have hinj := Option.some.inj hcj
      obtain ⟨t1, u1, v1, ip1⟩ := h
      have hip2 : ip1 = (tl.blas i).idx * 2 ^ 20 + j := hip
      rw [hinj, hip2]
    · exfalso
      have hx := huni (i, j) (h.t, h.u, h.v) hi hj hjj hcj
      rw [hts] at hx
      exact lt_irrefl _ hx

theorem HitFrom_to_HitFromI (tl : TLAS) (O D : float3) (i : Nat)
    (hi : i < tl.blasCount) {h0 h : Hit}
    (hh : HitFrom (tl.blas i).bvh.mesh (tl.blas i).idx
      (objO (tl.blas i) O) (objD (tl.blas i) D) h0 h) :
    HitFromI tl O D h0 h := by
  rcases hh with rfl | ⟨hlt, j, hj, hc, hip⟩
  · exact Or.inl rfl
  · exact Or.inr ⟨hlt, i, j, hi, hj, hc, hip⟩

/-! ## World-space enclosure: the 8-corner AABB of an affine image -/

theorem affine_corner_max (m0 m1 m2 m3 px py pz lx ly lz hx hy hz a : ℚ)
    (h1 : lx ≤ px) (h2 : px ≤ hx) (h3 : ly ≤ py) (h4 : py ≤ hy)
    (h5 : lz ≤ pz) (h6 : pz ≤ hz) :
    m0 * px + m1 * py + m2 * pz + m3 ≤
      max (max (max (max (max (max (max (max a
        (m0 * lx + m1 * ly + m2 * lz + m3))
        (m0 * hx + m1 * ly + m2 * lz + m3))
        (m0 * lx + m1 * hy + m2 * lz + m3))
        (m0 * hx + m1 * hy + m2 * lz + m3))
        (m0 * lx + m1 * ly + m2 * hz + m3))
        (m0 * hx + m1 * ly + m2 * hz + m3))
        (m0 * lx + m1 * hy + m2 * hz + m3))
        (m0 * hx + m1 * hy + m2 * hz + m3) := by
  have e1 : m0 * px ≤ max (m0 * lx) (m0 * hx) := by
    rcases le_or_lt 0 m0 with h | h
    · exact le_max_of_le_right (mul_le_mul_of_nonneg_left h2 h)
    · exact le_max_of_le_left (mul_le_mul_of_nonpos_left h1 (le_of_lt h))
  have e2 : m1 * py ≤ max (m1 * ly) (m1 * hy) := by
    rcases le_or_lt 0 m1 with h | h
    · exact le_max_of_le_right (mul_le_mul_of_nonneg_left h4 h)
    · exact le_max_of_le_left (mul_le_mul_of_nonpos_left h3 (le_of_lt h))
  have e3 : m2 * pz ≤ max (m2 * lz) (m2 * hz) := by
    rcases le_or_lt 0 m2 with h | h
    · exact le_max_of_le_right (mul_le_mul_of_nonneg_left h6 h)
    · exact le_max_of_le_left (mul_le_mul_of_nonpos_left h5 (le_of_lt h))
  rcases max_cases (m0 * lx) (m0 * hx) with ⟨hm1, _⟩ | ⟨hm1, _⟩ <;>
    rcases max_cases (m1 * ly) (m1 * hy) with ⟨hm2, _⟩ | ⟨hm2, _⟩ <;>
      rcases max_cases (m2 * lz) (m2 * hz) with ⟨hm3, _⟩ | ⟨hm3, _⟩
  · apply le_max_of_le_left; apply le_max_of_le_left; apply le_max_of_le_left
    apply le_max_of_le_left; apply le_max_of_le_left; apply le_max_of_le_left
    apply le_max_of_le_left; apply le_max_of_le_right
    linarith [e1, e2, e3]
  · apply le_max_of_le_left; apply le_max_of_le_left; apply le_max_of_le_left
    apply le_max_of_le_right
    linarith [e1, e2, e3]
  · apply le_max_of_le_left; apply le_max_of_le_left; apply le_max_of_le_left
    apply le_max_of_le_left; apply le_max_of_le_left; apply le_max_of_le_right
    linarith [e1, e2, e3]
  · apply le_max_of_le_left; apply le_max_of_le_right
    linarith [e1, e2, e3]
  · apply le_max_of_le_left; apply le_max_of_le_left; apply le_max_of_le_left
    apply le_max_of_le_left; apply le_max_of_le_left; apply le_max_of_le_left
    apply le_max_of_le_right
    linarith [e1, e2, e3]
  · apply le_max_of_le_left; apply le_max_of_le_left; apply le_max_of_le_right
    linarith [e1, e2, e3]
  · apply le_max_of_le_left; apply le_max_of_le_left; apply le_max_of_le_left
    apply le_max_of_le_left; apply le_max_of_le_right
    linarith [e1, e2, e3]
  · apply le_max_of_le_right
    linarith [e1, e2, e3]

theorem affine_corner_min (m0 m1 m2 m3 px py pz lx ly lz hx hy hz a : ℚ)
    (h1 : lx ≤ px) (h2 : px ≤ hx) (h3 : ly ≤ py) (h4 : py ≤ hy)
    (h5 : lz ≤ pz) (h6 : pz ≤ hz) :
    min (min (min (min (min (min (min (min a
        (m0 * lx + m1 * ly + m2 * lz + m3))
        (m0 * hx + m1 * ly + m2 * lz + m3))
        (m0 * lx + m1 * hy + m2 * lz + m3))
        (m0 * hx + m1 * hy + m2 * lz + m3))
        (m0 * lx + m1 * ly + m2 * hz + m3))
        (m0 * hx + m1 * ly + m2 * hz + m3))
        (m0 * lx + m1 * hy + m2 * hz + m3))
        (m0 * hx + m1 * hy + m2 * hz + m3) ≤
      m0 * px + m1 * py + m2 * pz + m3 := by
  have e1 : min (m0 * lx) (m0 * hx) ≤ m0 * px := by
    rcases le_or_lt 0 m0 with h | h
    · exact min_le_of_left_le (mul_le_mul_of_nonneg_left h1 h)
    · exact min_le_of_right_le (mul_le_mul_of_nonpos_left h2 (le_of_lt h))
  have e2 : min (m1 * ly) (m1 * hy) ≤ m1 * py := by
    rcases le_or_lt 0 m1 with h | h
    · exact min_le_of_left_le (mul_le_mul_of_nonneg_left h3 h)
    · exact min_le_of_right_le (mul_le_mul_of_nonpos_left h4 (le_of_lt h))
  have e3 : min (m2 * lz) (m2 * hz) ≤ m2 * pz := by
    rcases le_or_lt 0 m2 with h | h
    · exact min_le_of_left_le (mul_le_mul_of_nonneg_left h5 h)
    · exact min_le_of_right_le (mul_le_mul_of_nonpos_left h6 (le_of_lt h))
  rcases min_cases (m0 * lx) (m0 * hx) with ⟨hm1, _⟩ | ⟨hm1, _⟩ <;>
    rcases min_cases (m1 * ly) (m1 * hy) with ⟨hm2, _⟩ | ⟨hm2, _⟩ <;>
      rcases min_cases (m2 * lz) (m2 * hz) with ⟨hm3, _⟩ | ⟨hm3, _⟩
  · apply min_le_of_left_le; apply min_le_of_left_le; apply min_le_of_left_le
    apply min_le_of_left_le; apply min_le_of_left_le; apply min_le_of_left_le
    apply min_le_of_left_le; apply min_le_of_right_le
    linarith [e1, e2, e3]
  · apply min_le_of_left_le; apply min_le_of_left_le; apply min_le_of_left_le
    apply min_le_of_right_le
    linarith [e1, e2, e3]
  · apply min_le_of_left_le; apply min_le_of_left_le; apply min_le_of_left_le
    apply min_le_of_left_le; apply min_le_of_left_le; apply min_le_of_right_le
    linarith [e1, e2, e3]
  · apply min_le_of_left_le; apply min_le_of_right_le
    linarith [e1, e2, e3]
  · apply min_le_of_left_le; apply min_le_of_left_le; apply min_le_of_left_le
    apply min_le_of_left_le; apply min_le_of_left_le; apply min_le_of_left_le
    apply min_le_of_right_le
    linarith [e1, e2, e3]
  · apply min_le_of_left_le; apply min_le_of_left_le; apply min_le_of_right_le
    linarith [e1, e2, e3]
  · apply min_le_of_left_le; apply min_le_of_left_le; apply min_le_of_left_le
    apply min_le_of_left_le; apply min_le_of_right_le
    linarith [e1, e2, e3]
  · apply min_le_of_right_le
    linarith [e1, e2, e3]

theorem worldBoundsOf_encloses (b : BVH) (T : mat4) (p : float3)
    (hl : le3 (b.bvhNode 0).aabbMin p) (hh : le3 p (b.bvhNode 0).aabbMax) :
    le3 (worldBoundsOf b T).bmin (TransformPosition p T) ∧
    le3 (TransformPosition p T) (worldBoundsOf b T).bmax := by
  obtain ⟨hlx, hly, hlz⟩ := hl
  obtain ⟨hhx, hhy, hhz⟩ := hh
  obtain ⟨lo, hlo⟩ : ∃ v, (b.bvhNode 0).aabbMin = v := ⟨_, rfl⟩
  obtain ⟨hi, hhi⟩ : ∃ v, (b.bvhNode 0).aabbMax = v := ⟨_, rfl⟩
  rw [hlo] at hlx hly hlz
  rw [hhi] at hhx hhy hhz
  unfold worldBoundsOf
  rw [hlo, hhi]
  rw [show List.range 8 = [0, 1, 2, 3, 4, 5, 6, 7] from rfl]
  simp only [List.foldl_cons, List.foldl_nil]
  norm_num
  simp only [aabb.growP, float3.fminf, float3.fmaxf, float3.splat,
    TransformPosition]
  unfold le3
  dsimp only
  refine ⟨⟨?_, ?_, ?_⟩, ?_, ?_, ?_⟩
  · exact affine_corner_min _ _ _ _ _ _ _ _ _ _ _ _ _ _ hlx hhx hly hhy hlz hhz
  · exact affine_corner_min _ _ _ _ _ _ _ _ _ _ _ _ _ _ hlx hhx hly hhy hlz hhz
  · exact affine_corner_min _ _ _ _ _ _ _ _ _ _ _ _ _ _ hlx hhx hly hhy hlz hhz
  · exact affine_corner_max _ _ _ _ _ _ _ _ _ _ _ _ _ _ hlx hhx hly hhy hlz hhz
  · exact affine_corner_max _ _ _ _ _ _ _ _ _ _ _ _ _ _ hlx hhx hly hhy hlz hhz
  · exact affine_corner_max _ _ _ _ _ _ _ _ _ _ _ _ _ _ hlx hhx hly hhy hlz hhz

theorem TransformPosition_affine (p v : float3) (t : ℚ) (T : mat4) :
    TransformPosition (p + v.smul t) T =
      TransformPosition p T + (TransformVector v T).smul t := by
  obtain ⟨px, py, pz⟩ := p
  obtain ⟨vx, vy, vz⟩ := v
  simp only [float3.smul_def, float3.add_def]
  unfold TransformPosition TransformVector
  simp only [float3.smul_def, float3.add_def]
  simp only [float3.mk.injEq]
  refine ⟨by ring, by ring, by ring⟩

theorem SetTransform_bounds (inst : BVHInstance) (T Tinv : mat4) :
    (BVHInstance.SetTransform inst T Tinv).bounds = worldBoundsOf inst.bvh T := rfl

theorem built_candidate_in_root (st : BVH) (m : Mesh)
    (hb : BVH.build m = some st) (h1 : 1 ≤ m.triCount) (O D : float3)
    (j : Nat) (hj : j < st.mesh.triCount) (c : ℚ × ℚ × ℚ)
    (hc : candidate O D (st.mesh.tri j) = some c) :
    le3 (st.bvhNode 0).aabbMin (O + D.smul c.1) ∧
    le3 (O + D.smul c.1) (st.bvhNode 0).aabbMax := by
  obtain ⟨stm, _, _, _, _, _, _, hperm⟩ := BVH.build_spec m st hb
  obtain ⟨_, size, hfit⟩ := BVH.build_fitted m st hb h1
  have hjs : j ∈ sliceL st.triIdx 0 m.triCount := by
    rw [hperm.mem_iff, List.mem_range]
    rw [stm] at hj
    exact hj
  have henc := BVH.FittedIn_encloses hfit j hjs
  exact candidate_point_in_box O D (st.mesh.tri j) c hc _ _
    henc.1.1 henc.2.1 henc.1.2.1 henc.2.2.1 henc.1.2.2 henc.2.2.2

/-! ## Fitted TLAS subtrees: membership, enclosure and pruning -/

theorem FittedT_size_pos {tl : TLAS} {S : Set Nat} {n : Nat} {insts : List Nat}
    {size : Nat} (hf : FittedT tl S n insts size) : 0 < size := by
  cases hf with
  | leaf n h1 h2 h3 h4 h5 => exact Nat.one_pos
  | interior n I1 I2 s1 s2 h1 h2 h3 h4 h5 h6 => omega

theorem FittedT_mem_lt {tl : TLAS} {S : Set Nat} {n : Nat} {insts : List Nat}
    {size : Nat} (hf : FittedT tl S n insts size) :
    ∀ i ∈ insts, i < tl.blasCount := by
  induction hf with
  | leaf n hmem hlf hblas hbmin hbmax =>
    intro i hi
    rw [List.mem_singleton] at hi
    subst hi
    exact hblas
  | interior n I1 I2 s1 s2 hmem hne hf1 hf2 hbmin hbmax ih1 ih2 =>
    intro i hi
    rcases List.mem_append.mp hi with h | h
    · exact ih1 i h
    · exact ih2 i h

theorem FittedT_encloses {tl : TLAS} {S : Set Nat} {n : Nat} {insts : List Nat}
    {size : Nat} (hf : FittedT tl S n insts size) (O D : float3)
    (hok : ∀ i, i < tl.blasCount → InstOK (tl.blas i) D) :
    ∀ p ∈ pairsOfL tl insts, ∀ c, candidateI tl O D p = some c →
      le3 (tl.tlasNode n).aabbMin (O + D.smul c.1) ∧
      le3 (O + D.smul c.1) (tl.tlasNode n).aabbMax := by
  induction hf with
  | leaf n hmem hlf hblas hbmin hbmax =>
    intro p hp c hc
    rw [show pairsOfL tl [(tl.tlasNode n).BLAS] =
      pairsOf tl (tl.tlasNode n).BLAS ++ [] from rfl, List.append_nil] at hp
    obtain ⟨hp1, hplt⟩ := pairsOf_mem hp
    obtain ⟨⟨m, hb, h1, h20⟩, hDx, hDy, hDz, hinvP, hinvV, hbounds⟩ :=
      hok (tl.tlasNode n).BLAS hblas
    obtain ⟨p1, p2⟩ := p
    dsimp only at hp1 hplt
    subst hp1
    have hc2 : candidate (objO (tl.blas (tl.tlasNode n).BLAS) O)
        (objD (tl.blas (tl.tlasNode n).BLAS) D)
        ((tl.blas (tl.tlasNode n).BLAS).bvh.mesh.tri p2) = some c := hc
    have hin := built_candidate_in_root (tl.blas (tl.tlasNode n).BLAS).bvh m hb h1
      (objO (tl.blas (tl.tlasNode n).BLAS) O)
      (objD (tl.blas (tl.tlasNode n).BLAS) D) p2 hplt c hc2
    have hw := worldBoundsOf_encloses (tl.blas (tl.tlasNode n).BLAS).bvh
      (tl.blas (tl.tlasNode n).BLAS).transform _ hin.1 hin.2
    have haff : TransformPosition (objO (tl.blas (tl.tlasNode n).BLAS) O +
        (objD (tl.blas (tl.tlasNode n).BLAS) D).smul c.1)
        (tl.blas (tl.tlasNode n).BLAS).transform = O + D.smul c.1 := by
      rw [TransformPosition_affine]
      unfold objO objD
      rw [hinvP O, hinvV D]
    rw [haff] at hw
    rw [hbmin, hbmax, hbounds]
    exact hw
  | interior n I1 I2 s1 s2 hmem hne hf1 hf2 hbmin hbmax ih1 ih2 =>
    intro p hp c hc
    rw [pairsOfL_append] at hp
    rcases List.mem_append.mp hp with h | h
    · have hL := ih1 p h c hc
      exact ⟨le3_trans (by rw [hbmin]; exact fminf_le_left _ _) hL.1,
        le3_trans hL.2 (by rw [hbmax]; exact le_fmaxf_left _ _)⟩
    · have hR := ih2 p h c hc
      exact ⟨le3_trans (by rw [hbmin]; exact fminf_le_right _ _) hR.1,
        le3_trans hR.2 (by rw [hbmax]; exact le_fmaxf_right _ _)⟩

theorem pruneT_of_miss {tl : TLAS} {S : Set Nat} {n : Nat} {insts : List Nat}
    {size : Nat} (hf : FittedT tl S n insts size) (r : Ray) (O D : float3)
    (hO : r.O = O) (hD : r.D = D)
    (hok : ∀ i, i < tl.blasCount → InstOK (tl.blas i) D)
    (hDx : D.x ≠ 0) (hDy : D.y ≠ 0) (hDz : D.z ≠ 0)
    (hrD : r.rD = float3.recip D) (htB : r.hit.t ≤ BIG)
    (hmiss : IntersectAABB r (tl.tlasNode n).aabbMin
      (tl.tlasNode n).aabbMax = BIG) :
    ∀ p ∈ pairsOfL tl insts, ∀ c, candidateI tl O D p = some c →
      r.hit.t ≤ c.1 := by
  intro p hp c hc
  by_contra hlt
  push_neg at hlt
  have henc := FittedT_encloses hf O D hok p hp c hc
  obtain ⟨hane, hcf, hu, hv, huv, ht⟩ := candidate_some
    (show candidate (objO (tl.blas p.1) O) (objD (tl.blas p.1) D)
      ((tl.blas p.1).bvh.mesh.tri p.2) = some c from hc)
  have hbig := IntersectAABB_lt_BIG r (tl.tlasNode n).aabbMin
    (tl.tlasNode n).aabbMax c.1
    (by rw [hD]; exact hDx) (by rw [hD]; exact hDy) (by rw [hD]; exact hDz)
    (by rw [hrD, hD]) (lt_trans (by norm_num) ht) hlt htB
    (by rw [hO, hD]; exact henc.1) (by rw [hO, hD]; exact henc.2)
  rw [hmiss] at hbig
  exact lt_irrefl _ hbig

/-! ## The brute-force scene scan, characterized -/

theorem bruteFold_spec (tl : TLAS) (O D : float3) (l : List Nat)
    (hl : ∀ i ∈ l, i < tl.blasCount) :
    ∀ r : Ray, r.O = O → r.D = D →
      (l.foldl (fun r2 i => bruteForceInstance (tl.blas i) r2) r).O = O ∧
      (l.foldl (fun r2 i => bruteForceInstance (tl.blas i) r2) r).D = D ∧
      (l.foldl (fun r2 i => bruteForceInstance (tl.blas i) r2) r).hit.t =
        bestTI tl O D r.hit.t (pairsOfL tl l) ∧
      ∀ h0, HitFromI tl O D h0 r.hit →
        HitFromI tl O D h0
          (l.foldl (fun r2 i => bruteForceInstance (tl.blas i) r2) r).hit := by
  induction l with
  | nil =>
    intro r hO hD
    exact ⟨hO, hD, rfl, fun h0 hh => hh⟩
  | cons i l ih =>
    intro r hO hD
    simp only [List.foldl_cons]
    have hstep_O : (bruteForceInstance (tl.blas i) r).O = r.O := rfl
    have hstep_D : (bruteForceInstance (tl.blas i) r).D = r.D := rfl
    have hstep_hit : (bruteForceInstance (tl.blas i) r).hit =
        (bruteForceMesh (tl.blas i).bvh.mesh (tl.blas i).idx
          { r with
            O := objO (tl.blas i) r.O, D := objD (tl.blas i) r.D,
            rD := float3.recip (objD (tl.blas i) r.D) }).hit := rfl
    have hstep_t : (bruteForceInstance (tl.blas i) r).hit.t =
        bestTI tl O D r.hit.t (pairsOf tl i) := by
      rw [hstep_hit, bruteForceMesh_eq_scan, scanItems_hit_t, bestTI_pairsOf]
      dsimp only
      rw [hO, hD]
    have hstep_H : ∀ h0, HitFromI tl O D h0 r.hit →
        HitFromI tl O D h0 (bruteForceInstance (tl.blas i) r).hit := by
      intro h0 hh
      have hsc := scanItems_HitFrom (tl.blas i).bvh.mesh (tl.blas i).idx
        (List.range (tl.blas i).bvh.mesh.triCount)
        { r with
          O := objO (tl.blas i) r.O, D := objD (tl.blas i) r.D,
          rD := float3.recip (objD (tl.blas i) r.D) } r.hit
        (fun j hj => List.mem_range.mp hj)
        (HitFrom_refl _ _ _ _ _)
      dsimp only at hsc
      rw [hO, hD] at hsc
      have hstep := HitFrom_to_HitFromI tl O D i (hl i (by simp)) hsc
      rw [hstep_hit, bruteForceMesh_eq_scan, hO, hD]
      exact HitFromI_trans hh hstep
    have hIH := ih (fun j hj => hl j (by simp [hj]))
      (bruteForceInstance (tl.blas i) r) (hstep_O.trans hO) (hstep_D.trans hD)
    refine ⟨hIH.1, hIH.2.1, ?_, ?_⟩
    · rw [hIH.2.2.1, hstep_t]
      rw [show pairsOfL tl (i :: l) = pairsOf tl i ++ pairsOfL tl l from rfl]
      rw [bestTI_append]
    · intro h0 hh
      exact hIH.2.2.2 h0 (hstep_H h0 hh)

theorem bruteForceTLAS_spec (tl : TLAS) (ray : Ray) :
    (bruteForceTLAS tl ray).O = ray.O ∧
    (bruteForceTLAS tl ray).D = ray.D ∧
    (bruteForceTLAS tl ray).hit.t =
      bestTI tl ray.O ray.D ray.hit.t (pairsOfL tl (List.range tl.blasCount)) ∧
    HitFromI tl ray.O ray.D ray.hit (bruteForceTLAS tl ray).hit := by
  have h := bruteFold_spec tl ray.O ray.D (List.range tl.blasCount)
    (fun i hi => List.mem_range.mp hi) ray rfl rfl
  exact ⟨h.1, h.2.1, h.2.2.1, h.2.2.2 ray.hit (HitFromI_refl _ _ _ _)⟩

/-! ## One BLAS leaf visit, characterized -/

theorem BLAS_visit (inst : BVHInstance) (m : Mesh)
    (hb : BVH.build m = some inst.bvh) (h1 : 1 ≤ m.triCount)
    (h20 : m.triCount ≤ 2 ^ 20) (rayT : Ray) (bfuel : Nat) (rb : Ray)
    (hDx : rayT.D.x ≠ 0) (hDy : rayT.D.y ≠ 0) (hDz : rayT.D.z ≠ 0)
    (hrD : rayT.rD = float3.recip rayT.D) (hBIG : rayT.hit.t ≤ BIG)
    (hres : inst.bvh.Intersect rayT inst.idx bfuel = some rb) :
    rb.O = rayT.O ∧ rb.D = rayT.D ∧
    rb.hit.t = bestT inst.bvh.mesh rayT.O rayT.D rayT.hit.t
      (List.range inst.bvh.mesh.triCount) ∧
    ∀ h0, HitFrom inst.bvh.mesh inst.idx rayT.O rayT.D h0 rayT.hit →
      HitFrom inst.bvh.mesh inst.idx rayT.O rayT.D h0 rb.hit := by
  obtain ⟨stm, htri, _, _, _, _, _, hperm⟩ := BVH.build_spec m inst.bvh hb
  obtain ⟨hnf, size, hfit0⟩ := BVH.build_fitted m inst.bvh hb h1
  have hmem20 : ∀ k, k < inst.bvh.mesh.triCount → inst.bvh.triIdx k < 2 ^ 20 := by
    intro k hk
    rw [stm] at hk
    have hmem : inst.bvh.triIdx k ∈ sliceL inst.bvh.triIdx 0 m.triCount :=
      (sliceL_mem _ _ _ _).mpr ⟨k, Nat.zero_le k, by omega, rfl⟩
    have hrg := hperm.mem_iff.mp hmem
    rw [List.mem_range] at hrg
    omega
  have hmemc : ∀ k, k < inst.bvh.mesh.triCount →
      inst.bvh.triIdx k < inst.bvh.mesh.triCount := by
    intro k hk
    rw [stm] at hk ⊢
    have hmem : inst.bvh.triIdx k ∈ sliceL inst.bvh.triIdx 0 m.triCount :=
      (sliceL_mem _ _ _ _).mpr ⟨k, Nat.zero_le k, by omega, rfl⟩
    have hrg := hperm.mem_iff.mp hmem
    rw [List.mem_range] at hrg
    exact hrg
  have hsf : StackFits inst.bvh ({0} ∪ Set.Ico 2 inst.bvh.nodesUsed)
      (0 :: ([] : List Nat)) (sliceL inst.bvh.triIdx 0 m.triCount ++ [])
      (size + 0) :=
    StackFits.cons _ _ _ _ _ _ _ hfit0 (by omega) StackFits.nil
  unfold BVH.Intersect at hres
  have hmain := BVH.intersectLoop_scan inst.bvh inst.idx
    ({0} ∪ Set.Ico 2 inst.bvh.nodesUsed) hmem20 hmemc bfuel ⟨rayT, 0, []⟩
    (sliceL inst.bvh.triIdx 0 m.triCount ++ []) (size + 0) rb hsf
    hrD hDx hDy hDz hBIG hres
  dsimp only at hmain
  obtain ⟨hO, hD, _, ht, hHF⟩ := hmain
  refine ⟨hO, hD, ?_, hHF⟩
  rw [ht, List.append_nil, stm]
  exact bestT_perm inst.bvh.mesh rayT.O rayT.D rayT.hit.t hperm

theorem BLAS_total (inst : BVHInstance) (m : Mesh)
    (hb : BVH.build m = some inst.bvh) (h1 : 1 ≤ m.triCount) :
    ∃ B, ∀ bfuel, B ≤ bfuel → ∀ rayT : Ray,
      (inst.bvh.Intersect rayT inst.idx bfuel).isSome := by
  obtain ⟨stm, _, _, _, _, _, _, _⟩ := BVH.build_spec m inst.bvh hb
  obtain ⟨hnf, size, hfit0⟩ := BVH.build_fitted m inst.bvh hb h1
  refine ⟨size + 0, fun bfuel hbf rayT => ?_⟩
  have hsf : StackFits inst.bvh ({0} ∪ Set.Ico 2 inst.bvh.nodesUsed)
      (0 :: ([] : List Nat)) (sliceL inst.bvh.triIdx 0 m.triCount ++ [])
      (size + 0) :=
    StackFits.cons _ _ _ _ _ _ _ hfit0 (by omega) StackFits.nil
  exact BVH.intersectLoop_total inst.bvh inst.idx
    ({0} ∪ Set.Ico 2 inst.bvh.nodesUsed) bfuel ⟨rayT, 0, []⟩
    (sliceL inst.bvh.triIdx 0 m.triCount ++ []) (size + 0) hsf hbf

/-! ## Main TLAS traversal invariant -/

theorem TLAS.tlasLoop_scan (tl : TLAS) (S : Set Nat) (O D : float3)
    (hok : ∀ i, i < tl.blasCount → InstOK (tl.blas i) D)
    (hDx : D.x ≠ 0) (hDy : D.y ≠ 0) (hDz : D.z ≠ 0) :
    ∀ fuel bfuel s items tsize r',
      StackFitsT tl S (s.cur :: s.stack) items tsize →
      s.ray.O = O → s.ray.D = D → s.ray.rD = float3.recip D →
      s.ray.hit.t ≤ BIG →
      TLAS.intersectLoop tl bfuel fuel s = some r' →
      r'.O = O ∧ r'.D = D ∧ r'.rD = float3.recip D ∧
      r'.hit.t = bestTI tl O D s.ray.hit.t items ∧
      ∀ h0, HitFromI tl O D h0 s.ray.hit → HitFromI tl O D h0 r'.hit := by
  intro fuel
  induction fuel with
  | zero =>
    intro bfuel s items tsize r' _ _ _ _ _ hres
    exact Option.noConfusion hres
  | succ fuel ih =>
    intro bfuel s items tsize r' hsf hsO hsD hsrD hBIG hres
    unfold TLAS.intersectLoop at hres
    cases hsf with
    | cons n size tsize2 insts ns items2 hfit hrest =>
      cases hfit with
      | leaf n2 hmem hlf hblas hbmin hbmax =>
        have hleaf : (tl.tlasNode s.cur).isLeaf = true := by
          simp [TLASNode.isLeaf, hlf]
        unfold TLAS.intersectStep at hres
        dsimp only at hres
        rw [if_pos hleaf] at hres
        cases hbi : BVHInstance.Intersect
            (tl.blas (tl.tlasNode s.cur).BLAS) s.ray bfuel with
        | none =>
          rw [hbi] at hres
          exact Option.noConfusion hres
        | some ray2 =>
          rw [hbi] at hres
          dsimp only at hres
          unfold BVHInstance.Intersect at hbi
          rcases Option.map_eq_some'.mp hbi with ⟨rb, hrb, hray2⟩
          have hr2O : ray2.O = s.ray.O := by rw [← hray2]
          have hr2D : ray2.D = s.ray.D := by rw [← hray2]
          have hr2rD : ray2.rD = s.ray.rD := by rw [← hray2]
          have hr2hit : ray2.hit = rb.hit := by rw [← hray2]
          obtain ⟨⟨m, hb, h1, h20⟩, hDx2, hDy2, hDz2, hinvP, hinvV, hbounds⟩ :=
            hok (tl.tlasNode s.cur).BLAS hblas
          have hvisit := BLAS_visit (tl.blas (tl.tlasNode s.cur).BLAS) m hb h1 h20
            { s.ray with
              O := TransformPosition s.ray.O
                (tl.blas (tl.tlasNode s.cur).BLAS).invTransform,
              D := TransformVector s.ray.D
                (tl.blas (tl.tlasNode s.cur).BLAS).invTransform,
              rD := float3.recip (TransformVector s.ray.D
                (tl.blas (tl.tlasNode s.cur).BLAS).invTransform) }
            bfuel rb
            (by show (objD (tl.blas (tl.tlasNode s.cur).BLAS) s.ray.D).x ≠ 0
                rw [hsD]
                exact hDx2)
            (by show (objD (tl.blas (tl.tlasNode s.cur).BLAS) s.ray.D).y ≠ 0
                rw [hsD]
                exact hDy2)
            (by show (objD (tl.blas (tl.tlasNode s.cur).BLAS) s.ray.D).z ≠ 0
                rw [hsD]
                exact hDz2)
            rfl
            (show s.ray.hit.t ≤ BIG from hBIG)
            hrb
          dsimp only at hvisit
          have hbest : ray2.hit.t = bestTI tl O D s.ray.hit.t
              (pairsOf tl (tl.tlasNode s.cur).BLAS) := by
            rw [hr2hit, hvisit.2.2.1, bestTI_pairsOf, hsO, hsD]
            rfl
          have hstep_H : ∀ h0, HitFromI tl O D h0 s.ray.hit →
              HitFromI tl O D h0 ray2.hit := by
            intro h0 hh
            have h1step := hvisit.2.2.2 s.ray.hit (HitFrom_refl _ _ _ _ _)
            rw [hsO, hsD] at h1step
            have h2 := HitFrom_to_HitFromI tl O D (tl.tlasNode s.cur).BLAS
              hblas h1step
            rw [hr2hit]
            exact HitFromI_trans hh h2
          have hray2BIG : ray2.hit.t ≤ BIG := by
            rw [hbest]
            exact le_trans (bestTI_le_init tl O D _ s.ray.hit.t) hBIG
          cases hstack : s.stack with
          | nil =>
            rw [hstack] at hres hrest
            cases hrest
            dsimp only at hres
            have hre := Option.some.inj hres
            subst hre
            refine ⟨hr2O.trans hsO, hr2D.trans hsD, hr2rD.trans hsrD, ?_, ?_⟩
            · rw [List.append_nil, hbest]
              rw [show pairsOfL tl [(tl.tlasNode s.cur).BLAS] =
                pairsOf tl (tl.tlasNode s.cur).BLAS ++ [] from rfl,
                List.append_nil]
            · exact hstep_H
          | cons q rest =>
            rw [hstack] at hres hrest
            dsimp only at hres
            have hIH := ih bfuel ⟨ray2, q, rest⟩ items2 tsize2 r' hrest
              (hr2O.trans hsO) (hr2D.trans hsD) (hr2rD.trans hsrD)
              hray2BIG hres
            dsimp only at hIH
            refine ⟨hIH.1, hIH.2.1, hIH.2.2.1, ?_, ?_⟩
            · rw [hIH.2.2.2.1, hbest]
              rw [show pairsOfL tl [(tl.tlasNode s.cur).BLAS] =
                pairsOf tl (tl.tlasNode s.cur).BLAS ++ [] from rfl,
                List.append_nil, bestTI_append]
            · intro h0 hh
              exact hIH.2.2.2.2 h0 (hstep_H h0 hh)
      | interior n2 I1 I2 s1 s2 hmem hne hf1 hf2 hbmin hbmax =>
        have hleaf : (tl.tlasNode s.cur).isLeaf = false := by
          simp [TLASNode.isLeaf, hne]
        have hsp := pairsOfL_append tl I1 I2
        unfold TLAS.intersectStep at hres
        dsimp only at hres
        rw [if_neg (by rw [hleaf]; exact Bool.false_ne_true)] at hres
        obtain ⟨d1, hd1def⟩ : ∃ x, IntersectAABB s.ray
            (tl.tlasNode ((tl.tlasNode s.cur).leftRight % 2 ^ 16)).aabbMin
            (tl.tlasNode ((tl.tlasNode s.cur).leftRight % 2 ^ 16)).aabbMax = x :=
          ⟨_, rfl⟩
        obtain ⟨d2, hd2def⟩ : ∃ x, IntersectAABB s.ray
            (tl.tlasNode ((tl.tlasNode s.cur).leftRight / 2 ^ 16)).aabbMin
            (tl.tlasNode ((tl.tlasNode s.cur).leftRight / 2 ^ 16)).aabbMax = x :=
          ⟨_, rfl⟩
        rw [hd1def, hd2def] at hres
        have hd1le : d1 ≤ BIG := by
          rw [← hd1def]
          exact IntersectAABB_le_BIG s.ray _ _ hBIG
        have hd2le : d2 ≤ BIG := by
          rw [← hd2def]
          exact IntersectAABB_le_BIG s.ray _ _ hBIG
        have hprA : d1 = BIG → ∀ p ∈ pairsOfL tl I1, ∀ c,
            candidateI tl O D p = some c → s.ray.hit.t ≤ c.1 := by
          intro hmiss
          exact pruneT_of_miss hf1 s.ray O D hsO hsD hok hDx hDy hDz hsrD hBIG
            (by rw [hd1def]; exact hmiss)
        have hprB : d2 = BIG → ∀ p ∈ pairsOfL tl I2, ∀ c,
            candidateI tl O D p = some c → s.ray.hit.t ≤ c.1 := by
          intro hmiss
          exact pruneT_of_miss hf2 s.ray O D hsO hsD hok hDx hDy hDz hsrD hBIG
            (by rw [hd2def]; exact hmiss)
        by_cases hgt : d1 > d2
        · rw [if_pos hgt, if_pos hgt, if_pos hgt, if_pos hgt] at hres
          by_cases hB1 : d2 = BIG
          · exfalso
            rw [hB1] at hgt
            exact absurd hd1le (not_le.mpr hgt)
          · rw [if_neg hB1] at hres
            by_cases hB2 : d1 ≠ BIG
            · rw [if_pos hB2] at hres
              dsimp only at hres
              have hsf2 : StackFitsT tl S
                  (((tl.tlasNode s.cur).leftRight / 2 ^ 16) ::
                    ((tl.tlasNode s.cur).leftRight % 2 ^ 16) :: s.stack)
                  (pairsOfL tl I2 ++ (pairsOfL tl I1 ++ items2))
                  (s2 + (s1 + tsize2)) :=
                StackFitsT.cons _ _ _ _ _ _ hf2
                  (StackFitsT.cons _ _ _ _ _ _ hf1 hrest)
              have hIH := ih bfuel ⟨s.ray, (tl.tlasNode s.cur).leftRight / 2 ^ 16,
                  ((tl.tlasNode s.cur).leftRight % 2 ^ 16) :: s.stack⟩ _ _ r' hsf2
                hsO hsD hsrD hBIG hres
              dsimp only at hIH
              refine ⟨hIH.1, hIH.2.1, hIH.2.2.1, ?_, hIH.2.2.2.2⟩
              rw [hIH.2.2.2.1, bestTI_swap, hsp, List.append_assoc]
            · rw [if_neg hB2] at hres
              dsimp only at hres
              have hB2e : d1 = BIG := not_not.mp hB2
              have hsf2 : StackFitsT tl S
                  (((tl.tlasNode s.cur).leftRight / 2 ^ 16) :: s.stack)
                  (pairsOfL tl I2 ++ items2) (s2 + tsize2) :=
                StackFitsT.cons _ _ _ _ _ _ hf2 hrest
              have hIH := ih bfuel ⟨s.ray, (tl.tlasNode s.cur).leftRight / 2 ^ 16,
                  s.stack⟩ _ _ r' hsf2 hsO hsD hsrD hBIG hres
              dsimp only at hIH
              refine ⟨hIH.1, hIH.2.1, hIH.2.2.1, ?_, hIH.2.2.2.2⟩
              rw [hIH.2.2.2.1, hsp, List.append_assoc]
              exact (bestTI_drop_front tl O D s.ray.hit.t (pairsOfL tl I1)
                (pairsOfL tl I2 ++ items2) (hprA hB2e)).symm
        · rw [if_neg hgt, if_neg hgt, if_neg hgt, if_neg hgt] at hres
          by_cases hB1 : d1 = BIG
          · rw [if_pos hB1] at hres
            have hB2e : d2 = BIG :=
              le_antisymm hd2le (by rw [← hB1]; exact not_lt.mp hgt)
            cases hstack : s.stack with
            | nil =>
              rw [hstack] at hres hrest
              cases hrest
              dsimp only at hres
              have hre := Option.some.inj hres
              subst hre
              refine ⟨hsO, hsD, hsrD, ?_, fun h0 hh => hh⟩
              rw [List.append_nil, hsp]
              exact ((bestTI_drop_front tl O D s.ray.hit.t (pairsOfL tl I1)
                  (pairsOfL tl I2) (hprA hB1)).trans
                (bestTI_drop tl O D (pairsOfL tl I2) s.ray.hit.t
                  (hprB hB2e))).symm
            | cons q rest =>
              rw [hstack] at hres hrest
              dsimp only at hres
              have hIH := ih bfuel ⟨s.ray, q, rest⟩ items2 tsize2 r' hrest
                hsO hsD hsrD hBIG hres
              dsimp only at hIH
              refine ⟨hIH.1, hIH.2.1, hIH.2.2.1, ?_, hIH.2.2.2.2⟩
              rw [hIH.2.2.2.1, hsp, List.append_assoc]
              rw [bestTI_drop_front tl O D s.ray.hit.t (pairsOfL tl I1)
                (pairsOfL tl I2 ++ items2) (hprA hB1)]
              rw [bestTI_drop_front tl O D s.ray.hit.t (pairsOfL tl I2)
                items2 (hprB hB2e)]
          · rw [if_neg hB1] at hres
            by_cases hB2 : d2 ≠ BIG
            · rw [if_pos hB2] at hres
              dsimp only at hres
              have hsf2 : StackFitsT tl S
                  (((tl.tlasNode s.cur).leftRight % 2 ^ 16) ::
                    ((tl.tlasNode s.cur).leftRight / 2 ^ 16) :: s.stack)
                  (pairsOfL tl I1 ++ (pairsOfL tl I2 ++ items2))
                  (s1 + (s2 + tsize2)) :=
                StackFitsT.cons _ _ _ _ _ _ hf1
                  (StackFitsT.cons _ _ _ _ _ _ hf2 hrest)
              have hIH := ih bfuel ⟨s.ray, (tl.tlasNode s.cur).leftRight % 2 ^ 16,
                  ((tl.tlasNode s.cur).leftRight / 2 ^ 16) :: s.stack⟩ _ _ r' hsf2
                hsO hsD hsrD hBIG hres
              dsimp only at hIH
              refine ⟨hIH.1, hIH.2.1, hIH.2.2.1, ?_, hIH.2.2.2.2⟩
              rw [hIH.2.2.2.1, hsp, List.append_assoc]
            · rw [if_neg hB2] at hres
              dsimp only at hres
              have hB2e : d2 = BIG := not_not.mp hB2
              have hsf2 : StackFitsT tl S
                  (((tl.tlasNode s.cur).leftRight % 2 ^ 16) :: s.stack)
                  (pairsOfL tl I1 ++ items2) (s1 + tsize2) :=
                StackFitsT.cons _ _ _ _ _ _ hf1 hrest
              have hIH := ih bfuel ⟨s.ray, (tl.tlasNode s.cur).leftRight % 2 ^ 16,
                  s.stack⟩ _ _ r' hsf2 hsO hsD hsrD hBIG hres
              dsimp only at hIH
              refine ⟨hIH.1, hIH.2.1, hIH.2.2.1, ?_, hIH.2.2.2.2⟩
              rw [hIH.2.2.2.1, hsp, List.append_assoc]
              exact (bestTI_drop_mid tl O D s.ray.hit.t (pairsOfL tl I1)
                (pairsOfL tl I2) items2 (hprB hB2e)).symm

theorem pairsOfL_mem_of (tl : TLAS) (l : List Nat) (p : Nat × Nat)
    (h1 : p.1 ∈ l) (h2 : p.2 < (tl.blas p.1).bvh.mesh.triCount) :
    p ∈ pairsOfL tl l := by
  induction l with
  | nil => exact absurd h1 (List.not_mem_nil p.1)
  | cons x l ih =>
    rcases List.mem_cons.mp h1 with h | h
    · apply List.mem_append.mpr
      left
      obtain ⟨p1, p2⟩ := p
      dsimp only at h h2
      subst h
      exact pairsOf_mem_of tl p1 p2 h2
    · exact List.mem_append.mpr (Or.inr (ih h))

/-! ## Termination of the TLAS traversal on fitted trees -/

theorem TLAS.tlasLoop_total (tl : TLAS) (S : Set Nat) :
    ∀ fuel bfuel s items tsize,
      (∀ i, i < tl.blasCount → ∀ rayT : Ray,
        ((tl.blas i).bvh.Intersect rayT (tl.blas i).idx bfuel).isSome) →
      StackFitsT tl S (s.cur :: s.stack) items tsize →
      tsize ≤ fuel →
      (TLAS.intersectLoop tl bfuel fuel s).isSome := by
  intro fuel
  induction fuel with
  | zero =>
    intro bfuel s items tsize hbf hsf hfu
    cases hsf with
    | cons n size tsize2 insts ns items2 hfit hrest =>
      have := FittedT_size_pos hfit
      omega
  | succ fuel ih =>
    intro bfuel s items tsize hbf hsf hfu
    unfold TLAS.intersectLoop
    cases hsf with
    | cons n size tsize2 insts ns items2 hfit hrest =>
      cases hfit with
      | leaf n2 hmem hlf hblas hbmin hbmax =>
        have hleaf : (tl.tlasNode s.cur).isLeaf = true := by
          simp [TLASNode.isLeaf, hlf]
        unfold TLAS.intersectStep
        dsimp only
        rw [if_pos hleaf]
        have hin := hbf (tl.tlasNode s.cur).BLAS hblas
          { s.ray with
            O := TransformPosition s.ray.O
              (tl.blas (tl.tlasNode s.cur).BLAS).invTransform,
            D := TransformVector s.ray.D
              (tl.blas (tl.tlasNode s.cur).BLAS).invTransform,
            rD := float3.recip (TransformVector s.ray.D
              (tl.blas (tl.tlasNode s.cur).BLAS).invTransform) }
        rcases Option.isSome_iff_exists.mp hin with ⟨rb, hrb⟩
        have hsome : BVHInstance.Intersect (tl.blas (tl.tlasNode s.cur).BLAS)
            s.ray bfuel = some { s.ray with hit := rb.hit } := by
          simp only [BVHInstance.Intersect]
          rw [hrb]
          rfl
        rw [hsome]
        cases hstack : s.stack with
        | nil =>
          dsimp only
          rfl
        | cons q rest =>
          rw [hstack] at hrest
          dsimp only
          exact ih bfuel ⟨_, q, rest⟩ items2 tsize2 hbf hrest (by omega)
      | interior n2 I1 I2 s1 s2 hmem hne hf1 hf2 hbmin hbmax =>
        have hleaf : (tl.tlasNode s.cur).isLeaf = false := by
          simp [TLASNode.isLeaf, hne]
        unfold TLAS.intersectStep
        dsimp only
        rw [if_neg (by rw [hleaf]; exact Bool.false_ne_true)]
        obtain ⟨d1, hd1def⟩ : ∃ x, IntersectAABB s.ray
            (tl.tlasNode ((tl.tlasNode s.cur).leftRight % 2 ^ 16)).aabbMin
            (tl.tlasNode ((tl.tlasNode s.cur).leftRight % 2 ^ 16)).aabbMax = x :=
          ⟨_, rfl⟩
        obtain ⟨d2, hd2def⟩ : ∃ x, IntersectAABB s.ray
            (tl.tlasNode ((tl.tlasNode s.cur).leftRight / 2 ^ 16)).aabbMin
            (tl.tlasNode ((tl.tlasNode s.cur).leftRight / 2 ^ 16)).aabbMax = x :=
          ⟨_, rfl⟩
        rw [hd1def, hd2def]
        have hs1 := FittedT_size_pos hf1
        have hs2 := FittedT_size_pos hf2
        by_cases hgt : d1 > d2
        · rw [if_pos hgt, if_pos hgt, if_pos hgt, if_pos hgt]
          by_cases hB1 : d2 = BIG
          · rw [if_pos hB1]
            cases hstack : s.stack with
            | nil =>
              dsimp only
              rfl
            | cons q rest =>
              rw [hstack] at hrest
              dsimp only
              exact ih bfuel ⟨s.ray, q, rest⟩ items2 tsize2 hbf hrest (by omega)
          · rw [if_neg hB1]
            by_cases hB2 : d1 ≠ BIG
            · rw [if_pos hB2]
              dsimp only
              exact ih bfuel ⟨s.ray, (tl.tlasNode s.cur).leftRight / 2 ^ 16,
                  ((tl.tlasNode s.cur).leftRight % 2 ^ 16) :: s.stack⟩ _ _ hbf
                (StackFitsT.cons _ _ _ _ _ _ hf2
                  (StackFitsT.cons _ _ _ _ _ _ hf1 hrest)) (by omega)
            · rw [if_neg hB2]
              dsimp only
              exact ih bfuel ⟨s.ray, (tl.tlasNode s.cur).leftRight / 2 ^ 16,
                  s.stack⟩ _ _ hbf
                (StackFitsT.cons _ _ _ _ _ _ hf2 hrest) (by omega)
        · rw [if_neg hgt, if_neg hgt, if_neg hgt, if_neg hgt]
          by_cases hB1 : d1 = BIG
          · rw [if_pos hB1]
            cases hstack : s.stack with
            | nil =>
              dsimp only
              rfl
            | cons q rest =>
              rw [hstack] at hrest
              dsimp only
              exact ih bfuel ⟨s.ray, q, rest⟩ items2 tsize2 hbf hrest (by omega)
          · rw [if_neg hB1]
            by_cases hB2 : d2 ≠ BIG
            · rw [if_pos hB2]
              dsimp only
              exact ih bfuel ⟨s.ray, (tl.tlasNode s.cur).leftRight % 2 ^ 16,
                  ((tl.tlasNode s.cur).leftRight / 2 ^ 16) :: s.stack⟩ _ _ hbf
                (StackFitsT.cons _ _ _ _ _ _ hf1
                  (StackFitsT.cons _ _ _ _ _ _ hf2 hrest)) (by omega)
            · rw [if_neg hB2]
              dsimp only
              exact ih bfuel ⟨s.ray, (tl.tlasNode s.cur).leftRight % 2 ^ 16,
                  s.stack⟩ _ _ hbf
                (StackFitsT.cons _ _ _ _ _ _ hf1 hrest) (by omega)

theorem exists_uniform_bfuel (tl : TLAS) (D : float3)
    (hok : ∀ i, i < tl.blasCount → InstOK (tl.blas i) D) :
    ∃ B, ∀ bfuel, B ≤ bfuel → ∀ i, i < tl.blasCount → ∀ rayT : Ray,
      ((tl.blas i).bvh.Intersect rayT (tl.blas i).idx bfuel).isSome := by
  suffices h : ∀ n, n ≤ tl.blasCount → ∃ B, ∀ bfuel, B ≤ bfuel → ∀ i, i < n →
      ∀ rayT : Ray,
        ((tl.blas i).bvh.Intersect rayT (tl.blas i).idx bfuel).isSome by
    exact h tl.blasCount (le_refl _)
  intro n
  induction n with
  | zero => exact fun _ => ⟨0, fun bfuel _ i hi => absurd hi (Nat.not_lt_zero i)⟩
  | succ k ih =>
    intro hk
    obtain ⟨B1, hB1⟩ := ih (by omega)
    obtain ⟨⟨m, hb, h1, h20⟩, _⟩ := hok k (by omega)
    obtain ⟨B2, hB2⟩ := BLAS_total (tl.blas k) m hb h1
    refine ⟨max B1 B2, fun bfuel hbf i hi rayT => ?_⟩
    by_cases hik : i = k
    · subst hik
      exact hB2 bfuel (le_trans (le_max_right _ _) hbf) rayT
    · exact hB1 bfuel (le_trans (le_max_left _ _) hbf) i (by omega) rayT

/-! ## Well-formedness of the tie scene for the witness -/

theorem tieObjD_flat : objD (tieBlas 0) tieRay1.D = tieRay1.D := by
  show TransformVector tieRay1.D instFlat.invTransform = tieRay1.D
  rw [show instFlat.invTransform = mat4.identity from rfl, TransformVector_id]

theorem tieObjD_slant : objD (tieBlas 1) tieRay1.D = tieRay1.D := by
  show TransformVector tieRay1.D instSlant.invTransform = tieRay1.D
  rw [show instSlant.invTransform = mat4.identity from rfl, TransformVector_id]

theorem tieInstOK : ∀ i, i < tlTieX.blasCount →
    InstOK (tlTieX.blas i) tieRay1.D := by
  intro i hi
  have hi2 : i < 2 := hi
  unfold InstOK
  by_cases h0 : i = 0
  · subst h0
    refine ⟨⟨meshFlat, buildFlat, le_refl 1,
      by show (1 : Nat) ≤ 2 ^ 20; norm_num⟩, ?_, ?_, ?_, ?_, ?_, ?_⟩
    · rw [show objD (tlTieX.blas 0) tieRay1.D = tieRay1.D from tieObjD_flat]
      show (1/8 : ℚ) ≠ 0
      norm_num
    · rw [show objD (tlTieX.blas 0) tieRay1.D = tieRay1.D from tieObjD_flat]
      show (1/8 : ℚ) ≠ 0
      norm_num
    · rw [show objD (tlTieX.blas 0) tieRay1.D = tieRay1.D from tieObjD_flat]
      show (1 : ℚ) ≠ 0
      norm_num
    · intro p
      rw [show (tlTieX.blas 0).invTransform = mat4.identity from rfl,
        show (tlTieX.blas 0).transform = mat4.identity from rfl,
        TransformPosition_id, TransformPosition_id]
    · intro v
      rw [show (tlTieX.blas 0).invTransform = mat4.identity from rfl,
        show (tlTieX.blas 0).transform = mat4.identity from rfl,
        TransformVector_id, TransformVector_id]
    · exact SetTransform_bounds
        ⟨stFlat, mat4.identity, mat4.identity, ⟨⟨0, 0, 0⟩, ⟨0, 0, 0⟩⟩, 0⟩
        mat4.identity mat4.identity
  · have h1 : i = 1 := by omega
    subst h1
    refine ⟨⟨meshSlant, buildSlant, le_refl 1,
      by show (1 : Nat) ≤ 2 ^ 20; norm_num⟩, ?_, ?_, ?_, ?_, ?_, ?_⟩
    · rw [show objD (tlTieX.blas 1) tieRay1.D = tieRay1.D from tieObjD_slant]
      show (1/8 : ℚ) ≠ 0
      norm_num
    · rw [show objD (tlTieX.blas 1) tieRay1.D = tieRay1.D from tieObjD_slant]
      show (1/8 : ℚ) ≠ 0
      norm_num
    · rw [show objD (tlTieX.blas 1) tieRay1.D = tieRay1.D from tieObjD_slant]
      show (1 : ℚ) ≠ 0
      norm_num
    · intro p
      rw [show (tlTieX.blas 1).invTransform = mat4.identity from rfl,
        show (tlTieX.blas 1).transform = mat4.identity from rfl,
        TransformPosition_id, TransformPosition_id]
    · intro v
      rw [show (tlTieX.blas 1).invTransform = mat4.identity from rfl,
        show (tlTieX.blas 1).transform = mat4.identity from rfl,
        TransformVector_id, TransformVector_id]
    · exact SetTransform_bounds
        ⟨stSlant, mat4.identity, mat4.identity, ⟨⟨0, 0, 0⟩, ⟨0, 0, 0⟩⟩, 1⟩
        mat4.identity mat4.identity

theorem tieFitted : ∃ S insts size, FittedT tlTieX S 0 insts size ∧
    List.Perm insts (List.range tlTieX.blasCount) := by
  refine ⟨Set.univ, [0, 1], 3, ?_, by decide⟩
  refine @FittedT.interior tlTieX Set.univ 0 [0] [1] 1 1 (Set.mem_univ 0)
    (by decide) ?_ ?_ ?_ ?_
  · refine @FittedT.leaf tlTieX Set.univ ((tlTieX.tlasNode 0).leftRight % 2 ^ 16)
      (Set.mem_univ _) rfl (by decide) ?_ ?_
    · rw [show tlTieX.blas
        (tlTieX.tlasNode ((tlTieX.tlasNode 0).leftRight % 2 ^ 16)).BLAS =
        instFlat from rfl, instFlat_eq]
      rfl
    · rw [show tlTieX.blas
        (tlTieX.tlasNode ((tlTieX.tlasNode 0).leftRight % 2 ^ 16)).BLAS =
        instFlat from rfl, instFlat_eq]
      rfl
  · refine @FittedT.leaf tlTieX Set.univ ((tlTieX.tlasNode 0).leftRight / 2 ^ 16)
      (Set.mem_univ _) rfl (by decide) ?_ ?_
    · rw [show tlTieX.blas
        (tlTieX.tlasNode ((tlTieX.tlasNode 0).leftRight / 2 ^ 16)).BLAS =
        instSlant from rfl, instSlant_eq]
      rfl
    · rw [show tlTieX.blas
        (tlTieX.tlasNode ((tlTieX.tlasNode 0).leftRight / 2 ^ 16)).BLAS =
        instSlant from rfl, instSlant_eq]
      rfl
  · show nodeR.aabbMin = float3.fminf nodeF.aabbMin nodeS.aabbMin
    norm_num [nodeR, nodeF, nodeS, float3.fminf, min_def, float3.mk.injEq]
  · show nodeR.aabbMax = float3.fmaxf nodeF.aabbMax nodeS.aabbMax
    norm_num [nodeR, nodeF, nodeS, float3.fmaxf, max_def, float3.mk.injEq]

/-- C1 (amended). BLAS half: for a BLAS built over a non-empty mesh of at
most `2^20` triangles and a well-formed ray (`rD` the componentwise
reciprocal of a direction with no zero component, incoming `hit.t ≤ 1e30`),
`BVH::Intersect` terminates given enough fuel, every successful run
reports exactly the brute-force scan's closest `hit.t`, and the full hit
record (including `instPrim`) coincides with the brute-force scan's
whenever no triangle beats the incoming hit or the closest candidate is
strictly unique.  TLAS half: for a TLAS whose instances are well formed
for the same ray (`InstOK`: built BLAS, invertible transform, no zero
instance-space direction component, cached world bounds) and whose node
pool is a fitted tree over all instances (`FittedT`, the shape
`TLAS::Build` constructs — proven concretely for the tie scene),
`TLAS::Intersect` terminates given enough fuel and refines the scene-wide
brute-force scan the same way: exact closest `hit.t` always, the full
record under no-beat or strict uniqueness.  On exact closest-hit ties the
records may differ (see the counterexample), so the uniqueness hypothesis
cannot be dropped. -/
theorem c1_traversal_refines_bruteforce (m : Mesh) (st : BVH) (ray : Ray)
    (inst : Nat) (tl : TLAS)
    (hbuild : BVH.build m = some st)
    (h1 : 1 ≤ m.triCount) (h20 : m.triCount ≤ 2 ^ 20)
    (hrD : ray.rD = float3.recip ray.D)
    (hDx : ray.D.x ≠ 0) (hDy : ray.D.y ≠ 0) (hDz : ray.D.z ≠ 0)
    (hBIG : ray.hit.t ≤ BIG)
    (hok : ∀ i, i < tl.blasCount → InstOK (tl.blas i) ray.D)
    (hroot : ∃ S insts size, FittedT tl S 0 insts size ∧
      List.Perm insts (List.range tl.blasCount)) :
    ((∃ fuel r', st.Intersect ray inst fuel = some r') ∧
     (∀ fuel r', st.Intersect ray inst fuel = some r' →
       r'.O = ray.O ∧ r'.D = ray.D ∧
       r'.hit.t = (bruteForceMesh m inst ray).hit.t ∧
       ((∀ j c, j < m.triCount → candidate ray.O ray.D (m.tri j) = some c →
           ray.hit.t ≤ c.1) →
         r'.hit = (bruteForceMesh m inst ray).hit) ∧
       (∀ jb cb, jb < m.triCount →
         candidate ray.O ray.D (m.tri jb) = some cb →
         cb.1 < ray.hit.t →
         (∀ j c, j < m.triCount → j ≠ jb →
           candidate ray.O ray.D (m.tri j) = some c → cb.1 < c.1) →
         r'.hit = (bruteForceMesh m inst ray).hit))) ∧
    ((∃ fuel bfuel r', tl.Intersect ray fuel bfuel = some r') ∧
     (∀ fuel bfuel r', tl.Intersect ray fuel bfuel = some r' →
       r'.O = ray.O ∧ r'.D = ray.D ∧
       r'.hit.t = (bruteForceTLAS tl ray).hit.t ∧
       ((∀ p c, p.1 < tl.blasCount → p.2 < (tl.blas p.1).bvh.mesh.triCount →
           candidateI tl ray.O ray.D p = some c → ray.hit.t ≤ c.1) →
         r'.hit = (bruteForceTLAS tl ray).hit) ∧
       (∀ pb cb, pb.1 < tl.blasCount →
         pb.2 < (tl.blas pb.1).bvh.mesh.triCount →
         candidateI tl ray.O ray.D pb = some cb →
         cb.1 < ray.hit.t →
         (∀ p c, p.1 < tl.blasCount → p.2 < (tl.blas p.1).bvh.mesh.triCount →
           p ≠ pb → candidateI tl ray.O ray.D p = some c → cb.1 < c.1) →
         r'.hit = (bruteForceTLAS tl ray).hit))) := by
  refine ⟨BLAS_refines m st ray inst hbuild h1 h20 hrD hDx hDy hDz hBIG, ?_, ?_⟩
  · obtain ⟨S, insts, size, hFT, hperm⟩ := hroot
    obtain ⟨B, hB⟩ := exists_uniform_bfuel tl ray.D hok
    have hsfT : StackFitsT tl S (0 :: []) (pairsOfL tl insts ++ [])
        (size + 0) :=
      StackFitsT.cons _ _ _ _ _ _ hFT StackFitsT.nil
    have hiso := TLAS.tlasLoop_total tl S (size + 0) B
      ⟨{ ray with rD := float3.recip ray.D }, 0, []⟩
      (pairsOfL tl insts ++ []) (size + 0) (hB B (le_refl B)) hsfT (le_refl _)
    rcases Option.isSome_iff_exists.mp hiso with ⟨r', hr'⟩
    exact ⟨size + 0, B, r', hr'⟩
  · intro fuel bfuel r' hres
    obtain ⟨S, insts, size, hFT, hperm⟩ := hroot
    have hsfT : StackFitsT tl S (0 :: []) (pairsOfL tl insts ++ [])
        (size + 0) :=
      StackFitsT.cons _ _ _ _ _ _ hFT StackFitsT.nil
    unfold TLAS.Intersect at hres
    have hmain := TLAS.tlasLoop_scan tl S ray.O ray.D hok hDx hDy hDz
      fuel bfuel ⟨{ ray with rD := float3.recip ray.D }, 0, []⟩
      (pairsOfL tl insts ++ []) (size + 0) r' hsfT rfl rfl rfl
      (show ray.hit.t ≤ BIG from hBIG) hres
    dsimp only at hmain
    obtain ⟨hO, hD, hrD2, ht, hHF⟩ := hmain
    obtain ⟨hbO, hbD, hbt, hbHF⟩ := bruteForceTLAS_spec tl ray
    have hpp := pairsOfL_perm tl hperm
    have htb : r'.hit.t = bestTI tl ray.O ray.D ray.hit.t
        (pairsOfL tl (List.range tl.blasCount)) := by
      rw [ht, List.append_nil]
      exact bestTI_perm tl ray.O ray.D ray.hit.t hpp
    refine ⟨hO, hD, by rw [htb, hbt], ?_, ?_⟩
    · intro hnone
      have hval : bestTI tl ray.O ray.D ray.hit.t
          (pairsOfL tl (List.range tl.blasCount)) = ray.hit.t := by
        apply bestTI_drop
        intro p hp c hc
        obtain ⟨hp1, hp2⟩ := pairsOfL_mem hp
        rw [List.mem_range] at hp1
        exact hnone p c hp1 hp2 hc
      have hrfix : r'.hit = ray.hit := by
        apply HitFromI_eq_of_no_beat (hHF ray.hit (HitFromI_refl _ _ _ _))
        rw [htb, hval]
      have hbfix : (bruteForceTLAS tl ray).hit = ray.hit := by
        apply HitFromI_eq_of_no_beat hbHF
        rw [hbt, hval]
      rw [hrfix, hbfix]
    · intro pb cb hpb1 hpb2 hcb hbeat huni
      have hmemb : pb ∈ pairsOfL tl (List.range tl.blasCount) :=
        pairsOfL_mem_of tl _ pb (List.mem_range.mpr hpb1) hpb2
      have hle1 : bestTI tl ray.O ray.D ray.hit.t
          (pairsOfL tl (List.range tl.blasCount)) ≤ cb.1 :=
        bestTI_le_of_mem tl ray.O ray.D _ ray.hit.t pb cb hmemb hcb
      have hval : bestTI tl ray.O ray.D ray.hit.t
          (pairsOfL tl (List.range tl.blasCount)) = cb.1 := by
        rcases bestTI_cases tl ray.O ray.D
            (pairsOfL tl (List.range tl.blasCount)) ray.hit.t with
          h | ⟨p, hp, c, hcc, hbt2⟩
        · exfalso
          rw [h] at hle1
          exact absurd hbeat (not_lt.mpr hle1)
        · obtain ⟨hp1, hp2⟩ := pairsOfL_mem hp
          rw [List.mem_range] at hp1
          by_cases hjj : p = pb
          · rw [hjj, hcb] at hcc
            rw [hbt2, Option.some.inj hcc]
          · exfalso
            have hx := huni p c hp1 hp2 hjj hcc
            linarith [hbt2, hle1]
      have hr2 : r'.hit = ⟨cb.1, cb.2.1, cb.2.2,
          (tl.blas pb.1).idx * 2 ^ 20 + pb.2⟩ :=
        HitFromI_unique (hHF ray.hit (HitFromI_refl _ _ _ _)) pb cb hpb1 hpb2
          hcb hbeat huni (by rw [htb, hval])
      have hbrec : (bruteForceTLAS tl ray).hit = ⟨cb.1, cb.2.1, cb.2.2,
          (tl.blas pb.1).idx * 2 ^ 20 + pb.2⟩ :=
        HitFromI_unique hbHF pb cb hpb1 hpb2 hcb hbeat huni
          (by rw [hbt, hval])
      rw [hr2, hbrec]

/-- C1 witness at the concrete tie scene: the flat-triangle BLAS with the
well-formed ray (instance 0), and the two-instance TLAS `tlTieX`. -/
theorem c1_traversal_refines_bruteforce_witness :
    ((∃ fuel r', stFlat.Intersect tieRay1 0 fuel = some r') ∧
     (∀ fuel r', stFlat.Intersect tieRay1 0 fuel = some r' →
       r'.O = tieRay1.O ∧ r'.D = tieRay1.D ∧
       r'.hit.t = (bruteForceMesh meshFlat 0 tieRay1).hit.t ∧
       ((∀ j c, j < meshFlat.triCount →
           candidate tieRay1.O tieRay1.D (meshFlat.tri j) = some c →
           tieRay1.hit.t ≤ c.1) →
         r'.hit = (bruteForceMesh meshFlat 0 tieRay1).hit) ∧
       (∀ jb cb, jb < meshFlat.triCount →
         candidate tieRay1.O tieRay1.D (meshFlat.tri jb) = some cb →
         cb.1 < tieRay1.hit.t →
         (∀ j c, j < meshFlat.triCount → j ≠ jb →
           candidate tieRay1.O tieRay1.D (meshFlat.tri j) = some c →
           cb.1 < c.1) →
         r'.hit = (bruteForceMesh meshFlat 0 tieRay1).hit))) ∧
    ((∃ fuel bfuel r', tlTieX.Intersect tieRay1 fuel bfuel = some r') ∧
     (∀ fuel bfuel r', tlTieX.Intersect tieRay1 fuel bfuel = some r' →
       r'.O = tieRay1.O ∧ r'.D = tieRay1.D ∧
       r'.hit.t = (bruteForceTLAS tlTieX tieRay1).hit.t ∧
       ((∀ p c, p.1 < tlTieX.blasCount →
           p.2 < (tlTieX.blas p.1).bvh.mesh.triCount →
           candidateI tlTieX tieRay1.O tieRay1.D p = some c →
           tieRay1.hit.t ≤ c.1) →
         r'.hit = (bruteForceTLAS tlTieX tieRay1).hit) ∧
       (∀ pb cb, pb.1 < tlTieX.blasCount →
         pb.2 < (tlTieX.blas pb.1).bvh.mesh.triCount →
         candidateI tlTieX tieRay1.O tieRay1.D pb = some cb →
         cb.1 < tieRay1.hit.t →
         (∀ p c, p.1 < tlTieX.blasCount →
           p.2 < (tlTieX.blas p.1).bvh.mesh.triCount → p ≠ pb →
           candidateI tlTieX tieRay1.O tieRay1.D p = some c → cb.1 < c.1) →
         r'.hit = (bruteForceTLAS tlTieX tieRay1).hit))) :=
  c1_traversal_refines_bruteforce meshFlat stFlat tieRay1 0 tlTieX
    buildFlat (le_refl 1) (by show (1 : Nat) ≤ 2 ^ 20; norm_num) rfl
    (by show (1 / 8 : ℚ) ≠ 0; norm_num)
    (by show (1 / 8 : ℚ) ≠ 0; norm_num)
    (by show (1 : ℚ) ≠ 0; norm_num)
    (le_refl BIG) tieInstOK tieFitted
